import Mathlib

/-!
# Menu navigation state machine of `users/drashna/display/painter/menu.c`

A shallow embedding of the on-screen configuration menu: the static tree of
menu entries, the process-wide navigation state, the seven-way input handler
`menu_handle_input` and the key-event entry point `process_record_menu`.

Conventions of the embedding

* `uint8_t` and `size_t` values are natural numbers; a result computed in
  `size_t` and stored into a `uint8_t` field is reduced modulo `2 ^ 8`.
* The global `state` is passed explicitly, and so is the menu tree (`root` in
  the firmware), so that the handler can also be studied on deeper trees.
* A pointer to a menu entry is an `Option menu_entry_t`; `none` stands for
  `NULL` and for an address that is not an entry of the tree (an index past
  the child array, or the `parent` member of an entry initialised as `child`).
  Computing an address by index arithmetic is not a fault; loading a member
  through a pointer that does not resolve is, and is reported as the result
  `none`. `get_selected_menu_item` loads `parent.children` through the pointer
  that `get_current_menu` returns, so `menu_handle_input`, which calls it on
  entry, faults for every input when the current menu does not resolve to a
  parent.
* Calls into the keyboard firmware made by the value handlers are recorded, in
  order, in the `calls` trace of the environment.
-/

namespace Menu

open Mathlib (Vector)

/-! ## Data model -/

/-- Bit `1 << 0` of `menu_flags_t`. -/
abbrev menu_flag_is_parent : Nat := 1

/-- Bit `1 << 1` of `menu_flags_t`. -/
abbrev menu_flag_is_value : Nat := 2

/-- Enumeration `menu_input_t`, in declaration order. -/
inductive menu_input_t where
  | menu_input_exit
  | menu_input_back
  | menu_input_enter
  | menu_input_up
  | menu_input_down
  | menu_input_left
  | menu_input_right
  deriving DecidableEq, Repr

open menu_input_t

/-- Firmware routines called by the value handlers; their bodies live outside
this file, so a call is observed through the trace only. -/
inductive ext_call_t where
  | unicode_input_mode_step_reverse
  | unicode_input_mode_step
  | rgb_matrix_toggle
  | rgb_matrix_step_reverse
  | rgb_matrix_step
  | rgb_matrix_decrease_hue
  | rgb_matrix_increase_hue
  | rgb_matrix_decrease_sat
  | rgb_matrix_increase_sat
  | rgb_matrix_decrease_val
  | rgb_matrix_increase_val
  | rgb_matrix_decrease_speed
  | rgb_matrix_increase_speed
  deriving DecidableEq, Repr

/-- What the value handlers can touch outside the navigation state: the global
`unicode_typing_mode` (8 bits) and the sequence of firmware calls made so far
(oldest first). -/
structure env_t where
  unicode_typing_mode : Nat
  calls : List ext_call_t
  deriving DecidableEq, Repr

/-- Type of the `menu_handler` member: `bool (*)(menu_input_t)`, with the
environment threaded through. -/
abbrev menu_handler_t := menu_input_t → env_t → Bool × env_t

/-- The functions a `display_handler` member can point to. -/
inductive display_handler_t where
  | display_handler_unicode
  | display_handler_unicode_typing
  | display_handler_rgbenabled
  | display_handler_rgbmode
  | display_handler_rgbhue
  | display_handler_rgbsat
  | display_handler_rgbval
  | display_handler_rgbspeed
  deriving DecidableEq, Repr

/-- Struct `menu_entry_t`. The constructor records which member of the
anonymous union was initialised; `flags` is kept as stored, because the code
tests the flag bits and never the union itself. -/
inductive menu_entry_t where
  | parent (flags : Nat) (text : String) (children : List menu_entry_t) (child_count : Nat)
  | child (flags : Nat) (text : String) (menu_handler : menu_handler_t)
      (display_handler : display_handler_t)

namespace menu_entry_t

/-- Field `flags`. -/
def flags : menu_entry_t → Nat
  | parent f _ _ _ => f
  | child f _ _ _ => f

/-- Field `text`. -/
def text : menu_entry_t → String
  | parent _ t _ _ => t
  | child _ t _ _ => t

/-- Address `&entry->parent.children[i]`: defined for an entry initialised as
a parent and an index inside the array of children. -/
def parent_child (e : menu_entry_t) (i : Nat) : Option menu_entry_t :=
  match e with
  | parent _ _ cs _ => cs.get? i
  | child _ _ _ _ => none

/-- Member `parent.children`, readable on an entry initialised as parent. -/
def parent_children : menu_entry_t → Option (List menu_entry_t)
  | parent _ _ cs _ => some cs
  | child _ _ _ _ => none

/-- Member `parent.child_count`, readable on an entry initialised as parent. -/
def parent_child_count : menu_entry_t → Option Nat
  | parent _ _ _ n => some n
  | child _ _ _ _ => none

/-- Member `child.menu_handler`, callable on an entry initialised as child. -/
def child_menu_handler : menu_entry_t → Option menu_handler_t
  | parent _ _ _ _ => none
  | child _ _ h _ => some h

end menu_entry_t

/-- Struct `menu_state_t`. -/
structure menu_state_t where
  dirty : Bool
  is_in_menu : Bool
  selected_child : Nat
  menu_stack : Vector Nat 8
  deriving DecidableEq

/-- The static initialiser of the global `state`. -/
def state : menu_state_t :=
  { dirty := false, is_in_menu := false,
    menu_stack := ⟨[0xFF, 0xFF, 0xFF, 0xFF, 0xFF, 0xFF, 0xFF, 0xFF], rfl⟩,
    selected_child := 0xFF }

/-! ## Value handlers -/

/-- Conversion of an `int` result to `uint8_t`. -/
def int_to_uint8 (x : Int) : Nat := (x % 256).toNat

/-- Appends a firmware call to the trace. -/
def env_t.call (env : env_t) (c : ext_call_t) : env_t :=
  { env with calls := env.calls ++ [c] }

/-- Function `menu_handler_unicode`. -/
def menu_handler_unicode : menu_handler_t := fun input env =>
  match input with
  | menu_input_left => (false, env.call .unicode_input_mode_step_reverse)
  | menu_input_right => (false, env.call .unicode_input_mode_step)
  | _ => (true, env)

/-- Function `menu_handler_unicode_typing`. The arithmetic is done in `int`
(truncating remainder) and the result stored into the 8-bit mode variable.
`UNICODE_MODE_COUNT` is an enumerator of the firmware headers. -/
def menu_handler_unicode_typing (UNICODE_MODE_COUNT : Nat) : menu_handler_t := fun input env =>
  match input with
  | menu_input_left =>
    let mode := int_to_uint8 (Int.tmod ((env.unicode_typing_mode : Int) - 1) UNICODE_MODE_COUNT)
    (false, { env with unicode_typing_mode := mode })
  | menu_input_right =>
    let mode := int_to_uint8 (Int.tmod ((env.unicode_typing_mode : Int) + 1) UNICODE_MODE_COUNT)
    (false, { env with unicode_typing_mode := mode })
  | _ => (true, env)

/-- Function `menu_handler_rgbenabled`. -/
def menu_handler_rgbenabled : menu_handler_t := fun input env =>
  match input with
  | menu_input_left => (false, env.call .rgb_matrix_toggle)
  | menu_input_right => (false, env.call .rgb_matrix_toggle)
  | _ => (true, env)

/-- Function `menu_handler_rgbmode`. -/
def menu_handler_rgbmode : menu_handler_t := fun input env =>
  match input with
  | menu_input_left => (false, env.call .rgb_matrix_step_reverse)
  | menu_input_right => (false, env.call .rgb_matrix_step)
  | _ => (true, env)

/-- Function `menu_handler_rgbhue`. -/
def menu_handler_rgbhue : menu_handler_t := fun input env =>
  match input with
  | menu_input_left => (false, env.call .rgb_matrix_decrease_hue)
  | menu_input_right => (false, env.call .rgb_matrix_increase_hue)
  | _ => (true, env)

/-- Function `menu_handler_rgbsat`. -/
def menu_handler_rgbsat : menu_handler_t := fun input env =>
  match input with
  | menu_input_left => (false, env.call .rgb_matrix_decrease_sat)
  | menu_input_right => (false, env.call .rgb_matrix_increase_sat)
  | _ => (true, env)

/-- Function `menu_handler_rgbval`. -/
def menu_handler_rgbval : menu_handler_t := fun input env =>
  match input with
  | menu_input_left => (false, env.call .rgb_matrix_decrease_val)
  | menu_input_right => (false, env.call .rgb_matrix_increase_val)
  | _ => (true, env)

/-- Function `menu_handler_rgbspeed`. -/
def menu_handler_rgbspeed : menu_handler_t := fun input env =>
  match input with
  | menu_input_left => (false, env.call .rgb_matrix_decrease_speed)
  | menu_input_right => (false, env.call .rgb_matrix_increase_speed)
  | _ => (true, env)

/-! ## The configured tree -/

/-- Array `unicode_entries`. -/
def unicode_entries (UNICODE_MODE_COUNT : Nat) : List menu_entry_t :=
  [ .child menu_flag_is_value "Unicode mode" menu_handler_unicode .display_handler_unicode,
    .child menu_flag_is_value "Unicode Typing Mode"
      (menu_handler_unicode_typing UNICODE_MODE_COUNT) .display_handler_unicode_typing ]

/-- Array `rgb_matrix_entries`. -/
def rgb_matrix_entries : List menu_entry_t :=
  [ .child menu_flag_is_value "RGB enabled" menu_handler_rgbenabled .display_handler_rgbenabled,
    .child menu_flag_is_value "RGB mode" menu_handler_rgbmode .display_handler_rgbmode,
    .child menu_flag_is_value "RGB hue" menu_handler_rgbhue .display_handler_rgbhue,
    .child menu_flag_is_value "RGB saturation" menu_handler_rgbsat .display_handler_rgbsat,
    .child menu_flag_is_value "RGB value" menu_handler_rgbval .display_handler_rgbval,
    .child menu_flag_is_value "RGB speed" menu_handler_rgbspeed .display_handler_rgbspeed ]

/-- Array `root_entries`; `child_count` is `ARRAY_SIZE` of the child array. -/
def root_entries (UNICODE_MODE_COUNT : Nat) : List menu_entry_t :=
  [ .child menu_flag_is_value "Unicode mode" menu_handler_unicode .display_handler_unicode,
    .parent menu_flag_is_parent "Unicode Settings" (unicode_entries UNICODE_MODE_COUNT)
      (unicode_entries UNICODE_MODE_COUNT).length,
    .parent menu_flag_is_parent "RGB Matrix Settings" rgb_matrix_entries
      rgb_matrix_entries.length ]

/-- Entry `root`. -/
def root (UNICODE_MODE_COUNT : Nat) : menu_entry_t :=
  .parent menu_flag_is_parent "Configuration" (root_entries UNICODE_MODE_COUNT)
    (root_entries UNICODE_MODE_COUNT).length

/-! ## Navigation -/

/-- Number of slots, `sizeof(state.menu_stack)`. -/
def sizeof_menu_stack : Nat := 8

/-- The loop of `get_current_menu`, at index `i` with `entry` reached so far;
`fuel` counts the iterations still allowed and is 8 at the call. -/
def get_current_menu_loop (st : menu_state_t) : Nat → Nat → menu_entry_t → Option menu_entry_t
  | 0, _, entry => some entry
  | fuel + 1, i, entry =>
    if h : i < 8 then
      if st.menu_stack.get ⟨i, h⟩ = 0xFF then some entry
      else
        match entry.parent_child (st.menu_stack.get ⟨i, h⟩) with
        | none => none
        | some e => get_current_menu_loop st fuel (i + 1) e
    else some entry

/-- Function `get_current_menu`; `none` is `NULL` or an unresolvable walk. -/
def get_current_menu (rt : menu_entry_t) (st : menu_state_t) : Option menu_entry_t :=
  if st.selected_child = 0xFF then none
  else get_current_menu_loop st sizeof_menu_stack 0 rt

/-- The load `get_current_menu()->parent.children` made by
`get_selected_menu_item`: it goes through the pointer that `get_current_menu`
returns. The result is `none` when that pointer does not resolve (`NULL`, or
off the tree), which is a fault, and also when the entry is initialised as
child, where the member read is not a child array and nothing is known of
what follows. -/
def get_selected_menu_item_children (rt : menu_entry_t) (st : menu_state_t) :
    Option (List menu_entry_t) :=
  (get_current_menu rt st).bind menu_entry_t.parent_children

/-- Function `get_selected_menu_item`: the address
`&children[state.selected_child]` in the array loaded by
`get_selected_menu_item_children`; `none` when that load faults or the
address is not an entry of the array. -/
def get_selected_menu_item (rt : menu_entry_t) (st : menu_state_t) : Option menu_entry_t :=
  match get_current_menu rt st with
  | none => none
  | some menu => menu.parent_child st.selected_child

/-- The loop of the `menu_input_back` case, at index `i`; `fuel` is 8 at the
call, one unit per iteration. -/
def menu_back_loop : Nat → Nat → menu_state_t → menu_state_t
  | 0, _, st => st
  | fuel + 1, i, st =>
    if i < 8 then
      if st.menu_stack.get ⟨8 - 1 - i, by omega⟩ ≠ 0xFF then
        { st with
          selected_child := st.menu_stack.get ⟨8 - 1 - i, by omega⟩,
          menu_stack := st.menu_stack.set ⟨8 - 1 - i, by omega⟩ 0xFF }
      else if i = 8 - 1 then
        menu_back_loop fuel (i + 1) { st with is_in_menu := false, selected_child := 0xFF }
      else menu_back_loop fuel (i + 1) st
    else st

/-- The loop of the `menu_input_enter` case, at index `i`; `fuel` is 8 at the
call, one unit per iteration. -/
def menu_enter_loop : Nat → Nat → menu_state_t → menu_state_t
  | 0, _, st => st
  | fuel + 1, i, st =>
    if h : i < 8 then
      if st.menu_stack.get ⟨i, h⟩ = 0xFF then
        { st with
          menu_stack := st.menu_stack.set ⟨i, h⟩ st.selected_child,
          selected_child := 0 }
      else menu_enter_loop fuel (i + 1) st
    else st

/-- Width of `size_t` on the 32-bit targets of this keymap. -/
abbrev size_t_bits : Nat := 32

/-- Expression `(selected_child + child_count - 1) % child_count`, evaluated
in `size_t` and stored into the 8-bit field. -/
def menu_up_index (selected_child child_count : Nat) : Nat :=
  (((selected_child + child_count) % 2 ^ size_t_bits + (2 ^ size_t_bits - 1)) % 2 ^ size_t_bits
    % child_count) % 256

/-- Expression `(selected_child + child_count + 1) % child_count`, evaluated
in `size_t` and stored into the 8-bit field. -/
def menu_down_index (selected_child child_count : Nat) : Nat :=
  (((selected_child + child_count) % 2 ^ size_t_bits + 1) % 2 ^ size_t_bits
    % child_count) % 256

/-- Function `menu_handle_input`. The result is the returned `bool` with the
new navigation state and environment, or `none` for a fault. Both pointers
are computed on entry, before the `switch`, as in the source; the call of
`get_selected_menu_item` loads `parent.children` through the current menu,
so every input, exit and back included, faults when that load does. After
it, the taken case faults when it reads `flags`, `child_count` or
`menu_handler` through a pointer that does not resolve, or divides by a zero
`child_count`. -/
def menu_handle_input (rt : menu_entry_t) (input : menu_input_t) (st : menu_state_t)
    (env : env_t) : Option (Bool × menu_state_t × env_t) :=
  let menu := get_current_menu rt st
  match get_selected_menu_item_children rt st with
  | none => none
  | some _ =>
    let selected := get_selected_menu_item rt st
    match input with
    | menu_input_exit =>
      some (false,
        { st with is_in_menu := false, menu_stack := Vector.replicate 8 0xFF,
                  selected_child := 0xFF }, env)
    | menu_input_back => some (false, menu_back_loop sizeof_menu_stack 0 st, env)
    | menu_input_enter =>
      match selected with
      | none => none
      | some sel =>
        if sel.flags &&& menu_flag_is_parent ≠ 0 then
          some (false, menu_enter_loop sizeof_menu_stack 0 st, env)
        else some (false, st, env)
    | menu_input_up =>
      match menu.bind menu_entry_t.parent_child_count with
      | none => none
      | some n =>
        if n = 0 then none
        else some (false, { st with selected_child := menu_up_index st.selected_child n }, env)
    | menu_input_down =>
      match menu.bind menu_entry_t.parent_child_count with
      | none => none
      | some n =>
        if n = 0 then none
        else
          some (false, { st with selected_child := menu_down_index st.selected_child n }, env)
    | menu_input_left | menu_input_right =>
      match selected with
      | none => none
      | some sel =>
        if sel.flags &&& menu_flag_is_value ≠ 0 then
          match sel.child_menu_handler with
          | none => none
          | some handler =>
            some ((handler input env).1, { st with dirty := true }, (handler input env).2)
        else some (false, st, env)

/-- Key codes named by `process_record_menu`. They are defined in the firmware
headers; the case labels of one `switch` are pairwise distinct. -/
structure keycodes_t where
  DISPLAY_MENU : Nat
  KC_ESC : Nat
  KC_SPACE : Nat
  KC_ENTER : Nat
  KC_RETURN : Nat
  KC_UP : Nat
  KC_W : Nat
  KC_DOWN : Nat
  KC_S : Nat
  KC_LEFT : Nat
  KC_A : Nat
  KC_RIGHT : Nat
  KC_D : Nat

/-- The `switch (keycode)` of `process_record_menu`: the input a pressed key
stands for while the menu is open, if any. -/
def keycode_input (k : keycodes_t) (keycode : Nat) : Option menu_input_t :=
  if keycode = k.DISPLAY_MENU then some menu_input_exit
  else if keycode = k.KC_ESC then some menu_input_back
  else if keycode = k.KC_SPACE ∨ keycode = k.KC_ENTER ∨ keycode = k.KC_RETURN then
    some menu_input_enter
  else if keycode = k.KC_UP ∨ keycode = k.KC_W then some menu_input_up
  else if keycode = k.KC_DOWN ∨ keycode = k.KC_S then some menu_input_down
  else if keycode = k.KC_LEFT ∨ keycode = k.KC_A then some menu_input_left
  else if keycode = k.KC_RIGHT ∨ keycode = k.KC_D then some menu_input_right
  else none

/-- Function `process_record_menu`, with `pressed` for `record->event.pressed`. -/
def process_record_menu (k : keycodes_t) (rt : menu_entry_t) (keycode : Nat) (pressed : Bool)
    (st : menu_state_t) (env : env_t) : Option (Bool × menu_state_t × env_t) :=
  if keycode = k.DISPLAY_MENU ∧ pressed = true ∧ st.is_in_menu = false then
    some (false, { st with is_in_menu := true, selected_child := 0 }, env)
  else if st.is_in_menu = true then
    if pressed = true then
      match keycode_input k keycode with
      | some input => menu_handle_input rt input st env
      | none => some (false, st, env)
    else some (false, st, env)
  else some (true, st, env)

/-! ## Runs and reachable states -/

/-- Feeds a sequence of inputs to `menu_handle_input`, one after the other;
a fault at any step is a fault of the run. -/
def run_inputs (rt : menu_entry_t) :
    List menu_input_t → menu_state_t → env_t → Option (menu_state_t × env_t)
  | [], st, env => some (st, env)
  | input :: rest, st, env =>
    match menu_handle_input rt input st env with
    | none => none
    | some (_, st', env') => run_inputs rt rest st' env'

/-- Navigation states the firmware can be in: the initial `state`, and every
state left by `process_record_menu` on the configured tree for some key event,
whatever the environment is at that moment. -/
inductive reachable (k : keycodes_t) (UNICODE_MODE_COUNT : Nat) : menu_state_t → Prop where
  | init : reachable k UNICODE_MODE_COUNT state
  | step {st st' : menu_state_t} {env env' : env_t} {keycode : Nat} {pressed r : Bool} :
      reachable k UNICODE_MODE_COUNT st →
      process_record_menu k (root UNICODE_MODE_COUNT) keycode pressed st env
        = some (r, st', env') →
      reachable k UNICODE_MODE_COUNT st'

/-! ## Reference definitions -/

/-- The occupied slot of highest index, if any slot is occupied. -/
def highest_occupied_slot (st : menu_state_t) : Option (Fin 8) :=
  (List.finRange 8).reverse.find? fun i => st.menu_stack.get i != 0xFF

/-- Reference for the back input, after its description: pop the highest
occupied slot into `selected_child`, or do what the exit input does when no
slot is occupied. -/
def menu_back_reference (rt : menu_entry_t) (st : menu_state_t) (env : env_t) :
    Option (Bool × menu_state_t × env_t) :=
  match highest_occupied_slot st with
  | some i =>
    some (false,
      { st with selected_child := st.menu_stack.get i, menu_stack := st.menu_stack.set i 0xFF },
      env)
  | none => menu_handle_input rt menu_input_exit st env

/-! ## Sample data for the examples -/

/-- A concrete assignment of pairwise distinct key codes. -/
def sample_keycodes : keycodes_t :=
  { DISPLAY_MENU := 0x7E40, KC_ESC := 0x29, KC_SPACE := 0x2C, KC_ENTER := 0x28,
    KC_RETURN := 0x9E, KC_UP := 0x52, KC_W := 0x1A, KC_DOWN := 0x51, KC_S := 0x16,
    KC_LEFT := 0x50, KC_A := 0x04, KC_RIGHT := 0x4F, KC_D := 0x07 }

/-- An environment with typing mode 0 and no firmware call made yet. -/
def sample_env : env_t := { unicode_typing_mode := 0, calls := [] }

/-- The state right after the menu is opened: root view, first child selected. -/
def opened_state : menu_state_t :=
  { state with is_in_menu := true, selected_child := 0 }

/-- A tree that is `n` parents deep, each with a single child, over one value
entry; it lets the navigation stack fill up. -/
def chain_menu : Nat → menu_entry_t
  | 0 => .child menu_flag_is_value "leaf" menu_handler_rgbenabled .display_handler_rgbenabled
  | n + 1 => .parent menu_flag_is_parent "level" [chain_menu n] 1

/-- A state eight levels down `chain_menu`: every slot of the stack holds 0. -/
def deepest_state : menu_state_t :=
  { dirty := false, is_in_menu := true, selected_child := 0,
    menu_stack := ⟨[0, 0, 0, 0, 0, 0, 0, 0], rfl⟩ }

/-- A single menu level with `n` value entries. -/
def wide_menu (n : Nat) : menu_entry_t :=
  .parent menu_flag_is_parent "wide"
    (List.replicate n
      (.child menu_flag_is_value "item" menu_handler_rgbenabled .display_handler_rgbenabled))
    n

/-! ## The navigation invariant of the configured tree -/

/-- The stack with no occupied slot. -/
def empty_stack : Vector Nat 8 := ⟨[0xFF, 0xFF, 0xFF, 0xFF, 0xFF, 0xFF, 0xFF, 0xFF], rfl⟩

/-- The stack whose only occupied slot is slot 0, holding `a`. -/
def single_stack (a : Nat) : Vector Nat 8 := ⟨[a, 0xFF, 0xFF, 0xFF, 0xFF, 0xFF, 0xFF, 0xFF], rfl⟩

/-- The positions the navigation can be in on the configured tree: menu
closed with everything reset, or menu open at the root (3 children), inside
"Unicode Settings" (2 children) or inside "RGB Matrix Settings" (6 children). -/
def nav_inv (st : menu_state_t) : Prop :=
  (st.is_in_menu = false ∧ st.menu_stack = empty_stack ∧ st.selected_child = 0xFF) ∨
  (st.is_in_menu = true ∧ st.menu_stack = empty_stack ∧ st.selected_child < 3) ∨
  (st.is_in_menu = true ∧ st.menu_stack = single_stack 1 ∧ st.selected_child < 2) ∨
  (st.is_in_menu = true ∧ st.menu_stack = single_stack 2 ∧ st.selected_child < 6)

/-! ## Display driver and firmware readings -/

/-- The three fonts loaded by `init_display_ili9341`. -/
inductive font_t where
  | font_thintel
  | font_mono
  | font_oled
  deriving DecidableEq, Repr

/-- The image handles loaded by `init_display_ili9341` and used while drawing. -/
inductive image_t where
  | lock_caps_on
  | lock_caps_off
  | lock_num_on
  | lock_num_off
  | lock_scrl_on
  | lock_scrl_off
  | cg_on
  | cg_off
  deriving DecidableEq, Repr

/-- What the drawing code reads from the display driver and its headers: the
line height of a font, the value returned by `qp_drawtext` and
`qp_drawtext_recolor` for a text (the width drawn), `qp_textwidth`, the size
of an image, and the colour triples of the macros `HSV_GREEN` and `HSV_RED`. -/
structure painter_t where
  line_height : font_t → Nat
  drawtext : font_t → String → Nat
  qp_textwidth : font_t → String → Nat
  image_width : image_t → Nat
  image_height : image_t → Nat
  HSV_GREEN : Nat × Nat × Nat
  HSV_RED : Nat × Nat × Nat

/-- A call into the display driver, with the argument values as computed at
the call site (the device handle is left out). -/
inductive draw_call_t where
  | qp_rect (left top right bottom : Int) (hue sat val : Nat) (filled : Bool)
  | qp_drawtext (x y : Int) (font : font_t) (str : String)
  | qp_drawtext_recolor (x y : Int) (font : font_t) (str : String)
      (hue_fg sat_fg val_fg hue_bg sat_bg val_bg : Nat)
  | qp_drawimage (x y : Int) (image : image_t)
  | qp_drawimage_recolor (x y : Int) (image : image_t)
      (hue_fg sat_fg val_fg hue_bg sat_bg val_bg : Nat)
  | render_character_set (font : font_t) (hue_fg sat_fg val_fg hue_bg sat_bg val_bg : Nat)
  | qp_flush
  deriving DecidableEq, Repr

/-- Enumerators of the unicode headers named by the display handlers. -/
structure unicode_enums_t where
  UNICODE_MODE_MACOS : Nat
  UNICODE_MODE_LINUX : Nat
  UNICODE_MODE_BSD : Nat
  UNICODE_MODE_WINDOWS : Nat
  UNICODE_MODE_WINCOMPOSE : Nat
  UNICODE_MODE_EMACS : Nat
  UCTM_NO_MODE : Nat
  UCTM_WIDE : Nat
  UCTM_SCRIPT : Nat
  UCTM_BLOCKS : Nat
  UCTM_REGIONAL : Nat
  UCTM_AUSSIE : Nat
  UCTM_ZALGO : Nat
  UCTM_SUPER : Nat
  UCTM_COMIC : Nat
  UCTM_FRAKTUR : Nat
  UCTM_DOUBLE_STRUCK : Nat

/-- Values returned by the firmware accessors the display handlers and
`render_menu` call. -/
structure firmware_t where
  get_unicode_input_mode : Nat
  rgb_matrix_is_enabled : Bool
  rgb_matrix_get_mode : Nat
  rgb_matrix_get_hue : Nat
  rgb_matrix_get_sat : Nat
  rgb_matrix_get_val : Nat
  rgb_matrix_get_speed : Nat

/-- Text left in a zeroed buffer by `strncpy(buffer, src, n)`. -/
def strncpy (src : String) (n : Nat) : String := src.take n

/-- Text left in a buffer by `snprintf(buffer, n, ...)` when the formatted
text is `text`: at most `n - 1` characters. -/
def snprintf (n : Nat) (text : String) : String := text.take (n - 1)

/-- Function `display_handler_unicode`. -/
def display_handler_unicode (u : unicode_enums_t) (fw : firmware_t) (buffer_len : Nat) : String :=
  if fw.get_unicode_input_mode = u.UNICODE_MODE_MACOS then strncpy "macOS" (buffer_len - 1)
  else if fw.get_unicode_input_mode = u.UNICODE_MODE_LINUX then strncpy "Linux" (buffer_len - 1)
  else if fw.get_unicode_input_mode = u.UNICODE_MODE_BSD then strncpy "BSD" (buffer_len - 1)
  else if fw.get_unicode_input_mode = u.UNICODE_MODE_WINDOWS then
    strncpy "Windows" (buffer_len - 1)
  else if fw.get_unicode_input_mode = u.UNICODE_MODE_WINCOMPOSE then
    strncpy "WinCompose" (buffer_len - 1)
  else if fw.get_unicode_input_mode = u.UNICODE_MODE_EMACS then strncpy "Emacs" (buffer_len - 1)
  else strncpy "Unknown" buffer_len

/-- Function `display_handler_unicode_typing`. -/
def display_handler_unicode_typing (u : unicode_enums_t) (env : env_t) (buffer_len : Nat) :
    String :=
  if env.unicode_typing_mode = u.UCTM_NO_MODE then strncpy "Normal" (buffer_len - 1)
  else if env.unicode_typing_mode = u.UCTM_WIDE then strncpy "Wide" (buffer_len - 1)
  else if env.unicode_typing_mode = u.UCTM_SCRIPT then strncpy "Script" (buffer_len - 1)
  else if env.unicode_typing_mode = u.UCTM_BLOCKS then strncpy "Blocks" (buffer_len - 1)
  else if env.unicode_typing_mode = u.UCTM_REGIONAL then strncpy "Regional" (buffer_len - 1)
  else if env.unicode_typing_mode = u.UCTM_AUSSIE then strncpy "Aussie" (buffer_len - 1)
  else if env.unicode_typing_mode = u.UCTM_ZALGO then strncpy "Zalgo" (buffer_len - 1)
  else if env.unicode_typing_mode = u.UCTM_SUPER then strncpy "SuperScript" (buffer_len - 1)
  else if env.unicode_typing_mode = u.UCTM_COMIC then strncpy "Comic" (buffer_len - 1)
  else if env.unicode_typing_mode = u.UCTM_FRAKTUR then strncpy "Fraktur" (buffer_len - 1)
  else if env.unicode_typing_mode = u.UCTM_DOUBLE_STRUCK then
    strncpy "Double Struck" (buffer_len - 1)
  else strncpy "Unknown" buffer_len

/-- Function `display_handler_rgbenabled`. -/
def display_handler_rgbenabled (fw : firmware_t) (buffer_len : Nat) : String :=
  snprintf (buffer_len - 1) (if fw.rgb_matrix_is_enabled then "on" else "off")

/-- Function `display_handler_rgbmode`. -/
def display_handler_rgbmode (fw : firmware_t) (buffer_len : Nat) : String :=
  snprintf (buffer_len - 1) (toString fw.rgb_matrix_get_mode)

/-- Function `display_handler_rgbhue`. -/
def display_handler_rgbhue (fw : firmware_t) (buffer_len : Nat) : String :=
  snprintf (buffer_len - 1) (toString fw.rgb_matrix_get_hue)

/-- Function `display_handler_rgbsat`. -/
def display_handler_rgbsat (fw : firmware_t) (buffer_len : Nat) : String :=
  snprintf (buffer_len - 1) (toString fw.rgb_matrix_get_sat)

/-- Function `display_handler_rgbval`. -/
def display_handler_rgbval (fw : firmware_t) (buffer_len : Nat) : String :=
  snprintf (buffer_len - 1) (toString fw.rgb_matrix_get_val)

/-- Function `display_handler_rgbspeed`. -/
def display_handler_rgbspeed (fw : firmware_t) (buffer_len : Nat) : String :=
  snprintf (buffer_len - 1) (toString fw.rgb_matrix_get_speed)

/-- Call through a `display_handler` pointer: the text the pointed function
leaves in the zeroed buffer of length `buffer_len`. -/
def display_handler_t.call (h : display_handler_t) (u : unicode_enums_t) (fw : firmware_t)
    (env : env_t) (buffer_len : Nat) : String :=
  match h with
  | .display_handler_unicode => Menu.display_handler_unicode u fw buffer_len
  | .display_handler_unicode_typing => Menu.display_handler_unicode_typing u env buffer_len
  | .display_handler_rgbenabled => Menu.display_handler_rgbenabled fw buffer_len
  | .display_handler_rgbmode => Menu.display_handler_rgbmode fw buffer_len
  | .display_handler_rgbhue => Menu.display_handler_rgbhue fw buffer_len
  | .display_handler_rgbsat => Menu.display_handler_rgbsat fw buffer_len
  | .display_handler_rgbval => Menu.display_handler_rgbval fw buffer_len
  | .display_handler_rgbspeed => Menu.display_handler_rgbspeed fw buffer_len

/-- Member `child.display_handler`, callable on an entry initialised as child. -/
def menu_entry_t.child_display_handler : menu_entry_t → Option display_handler_t
  | .parent _ _ _ _ => none
  | .child _ _ _ d => some d

/-! ## The menu overlay -/

/-- The zero-initialised `static menu_state_t last_state` of `render_menu`. -/
def last_state_init : menu_state_t :=
  { dirty := false, is_in_menu := false, selected_child := 0,
    menu_stack := ⟨[0, 0, 0, 0, 0, 0, 0, 0], rfl⟩ }

/-- Body of the `for` loop of `render_menu` for child `i`, drawn at height
`y`: the label, the marker of a parent, the value text, the thin rule. The
result is `none` when the handler pointer of a value entry does not resolve. -/
def render_menu_row (p : painter_t) (u : unicode_enums_t) (fw : firmware_t) (env : env_t)
    (width hue selected_child i : Nat) (y : Int) (child : menu_entry_t) :
    Option (List draw_call_t) :=
  let x : Nat := p.drawtext .font_oled child.text % 65536
  let label : draw_call_t :=
    if i = selected_child then
      .qp_drawtext_recolor 8 y .font_oled child.text
        p.HSV_GREEN.1 p.HSV_GREEN.2.1 p.HSV_GREEN.2.2 85 255 0
    else
      .qp_drawtext_recolor 8 y .font_oled child.text
        p.HSV_RED.1 p.HSV_RED.2.1 p.HSV_RED.2.2 0 255 0
  let marker : List draw_call_t :=
    if child.flags &&& menu_flag_is_parent ≠ 0 then [.qp_drawtext (8 + x) y .font_oled "  >"]
    else []
  let value : Option (List draw_call_t) :=
    if child.flags &&& menu_flag_is_value ≠ 0 then
      match child.child_display_handler with
      | none => none
      | some handler => some [.qp_drawtext (8 + x) y .font_oled (handler.call u fw env 32)]
    else some []
  let y1 : Int := y + p.line_height .font_oled + 4
  match value with
  | none => none
  | some v => some (label :: marker ++ v ++ [.qp_rect 0 y1 (width - 1) y1 hue 255 255 true])

/-- The `for` loop of `render_menu` from index `i` at height `y`; `fuel` is
`child_count` at the call, one unit per iteration. -/
def render_menu_rows (p : painter_t) (u : unicode_enums_t) (fw : firmware_t) (env : env_t)
    (width hue selected_child : Nat) (children : List menu_entry_t) (child_count : Nat) :
    Nat → Nat → Int → Option (List draw_call_t)
  | 0, _, _ => some []
  | fuel + 1, i, y =>
    if i < child_count then
      match children.get? i with
      | none => none
      | some child =>
        match render_menu_row p u fw env width hue selected_child i y child with
        | none => none
        | some row =>
          match render_menu_rows p u fw env width hue selected_child children child_count fuel
              (i + 1) (y + p.line_height .font_oled + 4 + 5) with
          | none => none
          | some rest => some (row ++ rest)
    else some []

/-- Function `render_menu`. The result holds the returned `bool`, the global
`state`, the static `last_state` and the driver calls made, in order; `none`
is a fault (a field read through a pointer that does not resolve). The
`memcmp` of the two structures, which have no padding, is their equality. -/
def render_menu (p : painter_t) (u : unicode_enums_t) (fw : firmware_t) (rt : menu_entry_t)
    (width height : Nat) (st last_state : menu_state_t) (env : env_t) :
    Option (Bool × menu_state_t × menu_state_t × List draw_call_t) :=
  if last_state = st then some (st.is_in_menu, st, last_state, [])
  else
    let st1 : menu_state_t := { st with dirty := false }
    if st1.is_in_menu = true then
      let hue := fw.rgb_matrix_get_hue
      match get_current_menu rt st1 with
      | some (.parent _ text children child_count) =>
        let lh : Int := p.line_height .font_oled
        match render_menu_rows p u fw env width hue st1.selected_child children child_count
            child_count 0 (80 + 8 + lh + 4 + 8) with
        | none => none
        | some rows =>
          some (true, st1, st1,
            [ .qp_rect 0 0 (width - 1) (height - 1) 0 0 0 true,
              .qp_rect 0 80 width (80 + 3) hue 255 255 true,
              .qp_drawtext 8 (80 + 8) .font_oled text,
              .qp_rect 0 (80 + 8 + lh + 4) width (80 + 8 + lh + 4 + 3) hue 255 255 true ]
            ++ rows)
      | _ => none
    else some (false, st1, st1, [])

/-- States of the pair (`state`, `last_state`) the firmware can be in: the
static initialisers, and what a key event handled by `process_record_menu`
or a call of `render_menu` leaves, on the configured tree, whatever the
environment, the firmware readings and the panel size are at that moment. -/
inductive overlay_reachable (k : keycodes_t) (UNICODE_MODE_COUNT : Nat) (p : painter_t)
    (u : unicode_enums_t) : menu_state_t → menu_state_t → Prop where
  | init : overlay_reachable k UNICODE_MODE_COUNT p u state last_state_init
  | key {st last st' : menu_state_t} {env env' : env_t} {keycode : Nat} {pressed r : Bool} :
      overlay_reachable k UNICODE_MODE_COUNT p u st last →
      process_record_menu k (root UNICODE_MODE_COUNT) keycode pressed st env
        = some (r, st', env') →
      overlay_reachable k UNICODE_MODE_COUNT p u st' last
  | render {st last st' last' : menu_state_t} {env : env_t} {fw : firmware_t}
      {width height : Nat} {r : Bool} {draws : List draw_call_t} :
      overlay_reachable k UNICODE_MODE_COUNT p u st last →
      render_menu p u fw (root UNICODE_MODE_COUNT) width height st last env
        = some (r, st', last', draws) →
      overlay_reachable k UNICODE_MODE_COUNT p u st' last'

/-- The case labels of `process_record_menu` are pairwise distinct, as the
labels of a `switch` are. -/
def keycodes_t.distinct (k : keycodes_t) : Prop :=
  [k.DISPLAY_MENU, k.KC_ESC, k.KC_SPACE, k.KC_ENTER, k.KC_RETURN, k.KC_UP, k.KC_W, k.KC_DOWN,
    k.KC_S, k.KC_LEFT, k.KC_A, k.KC_RIGHT, k.KC_D].Nodup

/-- An entry as the tree is configured: initialised as parent with exactly the
parent flag, or initialised as child with exactly the value flag. -/
def menu_entry_t.wellformed : menu_entry_t → Prop
  | .parent f _ _ _ => f = menu_flag_is_parent
  | .child f _ _ _ => f = menu_flag_is_value

/-- The label of a row is drawn in the highlight colour: `HSV_GREEN` over the
background `85, 255, 0`. -/
def draw_call_t.is_highlighted_label (p : painter_t) : draw_call_t → Bool
  | .qp_drawtext_recolor _ _ _ _ hf sf vf hb sb vb =>
    decide (hf = p.HSV_GREEN.1 ∧ sf = p.HSV_GREEN.2.1 ∧ vf = p.HSV_GREEN.2.2 ∧
      hb = 85 ∧ sb = 255 ∧ vb = 0)
  | _ => false

/-- Reference for one row of the overlay, after its description: at height
`100 + L + i * (L + 9)` the label of child `i`, highlighted when `i` is the
selected child; then the marker of a parent or the value text of a value
entry; then a thin rule under the row. -/
def menu_overlay_row_reference (p : painter_t) (u : unicode_enums_t) (fw : firmware_t)
    (env : env_t) (width hue selected_child i : Nat) (child : menu_entry_t) :
    List draw_call_t :=
  let lh : Int := p.line_height .font_oled
  let y : Int := 100 + lh + i * (lh + 9)
  let x : Int := (p.drawtext .font_oled child.text % 65536 : Nat)
  let label : draw_call_t :=
    if i = selected_child then
      .qp_drawtext_recolor 8 y .font_oled child.text
        p.HSV_GREEN.1 p.HSV_GREEN.2.1 p.HSV_GREEN.2.2 85 255 0
    else
      .qp_drawtext_recolor 8 y .font_oled child.text
        p.HSV_RED.1 p.HSV_RED.2.1 p.HSV_RED.2.2 0 255 0
  let trailer : draw_call_t :=
    match child with
    | .parent _ _ _ _ => .qp_drawtext (8 + x) y .font_oled "  >"
    | .child _ _ _ d => .qp_drawtext (8 + x) y .font_oled (d.call u fw env 32)
  [label, trailer, .qp_rect 0 (y + lh + 4) (width - 1) (y + lh + 4) hue 255 255 true]

/-- Reference for the rows of the overlay from child `i` on, in child order. -/
def menu_overlay_rows_reference (p : painter_t) (u : unicode_enums_t) (fw : firmware_t)
    (env : env_t) (width hue selected_child : Nat) : Nat → List menu_entry_t → List draw_call_t
  | _, [] => []
  | i, child :: rest =>
    menu_overlay_row_reference p u fw env width hue selected_child i child ++
      menu_overlay_rows_reference p u fw env width hue selected_child (i + 1) rest

/-- Reference for the overlay, after its description, top to bottom: a divider
rule, the title of the current menu, a divider rule, then the rows. -/
def menu_overlay_reference (p : painter_t) (u : unicode_enums_t) (fw : firmware_t)
    (env : env_t) (width hue selected_child : Nat) (title : String)
    (children : List menu_entry_t) : List draw_call_t :=
  let lh : Int := p.line_height .font_oled
  [ .qp_rect 0 80 width 83 hue 255 255 true,
    .qp_drawtext 8 88 .font_oled title,
    .qp_rect 0 (92 + lh) width (95 + lh) hue 255 255 true ]
  ++ menu_overlay_rows_reference p u fw env width hue selected_child 0 children

/-- A display driver with 8-pixel lines, 6 pixels per character and the
colour macros of the firmware headers. -/
def sample_painter : painter_t :=
  { line_height := fun _ => 8, drawtext := fun _ s => 6 * s.length,
    qp_textwidth := fun _ s => 6 * s.length, image_width := fun _ => 16,
    image_height := fun _ => 16, HSV_GREEN := (85, 255, 255), HSV_RED := (0, 255, 255) }

/-- Enumerators numbered in the order the display handlers name them. -/
def sample_unicode_enums : unicode_enums_t :=
  { UNICODE_MODE_MACOS := 0, UNICODE_MODE_LINUX := 1, UNICODE_MODE_BSD := 2,
    UNICODE_MODE_WINDOWS := 3, UNICODE_MODE_WINCOMPOSE := 4, UNICODE_MODE_EMACS := 5,
    UCTM_NO_MODE := 0, UCTM_WIDE := 1, UCTM_SCRIPT := 2, UCTM_BLOCKS := 3, UCTM_REGIONAL := 4,
    UCTM_AUSSIE := 5, UCTM_ZALGO := 6, UCTM_SUPER := 7, UCTM_COMIC := 8, UCTM_FRAKTUR := 9,
    UCTM_DOUBLE_STRUCK := 10 }

/-- Firmware readings with the RGB matrix on, everything else at 0. -/
def sample_firmware : firmware_t :=
  { get_unicode_input_mode := 0, rgb_matrix_is_enabled := true, rgb_matrix_get_mode := 0,
    rgb_matrix_get_hue := 0, rgb_matrix_get_sat := 0, rgb_matrix_get_val := 0,
    rgb_matrix_get_speed := 0 }

/-- The driver calls of the first drawing of the root view on a 240 by 320
panel, with the sample driver and readings. -/
def sample_overlay_draws : List draw_call_t :=
  .qp_rect 0 0 239 319 0 0 0 true ::
    menu_overlay_reference sample_painter sample_unicode_enums sample_firmware sample_env 240 0 0
      "Configuration" (root_entries 6)

/-! ## The status display: `ili9341_draw_user` -/

/-- Preprocessor symbols that select parts of `ili9341_draw_user`. A build
defines `RGBLIGHT_ENABLE` or `RGB_MATRIX_ENABLE`, as `curr_hue` is declared
under either. -/
structure features_t where
  RGBLIGHT_ENABLE : Bool
  RGB_MATRIX_ENABLE : Bool
  POINTING_DEVICE_ENABLE : Bool
  WPM_ENABLE : Bool
  KEYLOGGER_ENABLE : Bool
  QP_LOCK_LOGO_ENABLE : Bool
  AUTOCORRECT_ENABLE : Bool

/-- The status fields drawn by `ili9341_draw_user`, one per block of the
left-half branch, in source order. -/
inductive field_t where
  | lock_icons
  | wpm
  | scans
  | cpi
  | drag_scroll
  | auto_layer
  | sniping
  | keymap_config
  | user_state
  | rgb_light
  | rgb_matrix
  | layout
  | layer
  | autocorrect
  | font_preview
  | keylogger
  deriving DecidableEq, Repr

/-- A driver call together with the status field whose block made it; the
closing `qp_flush` belongs to no field. -/
abbrev tagged_call_t := Option field_t × draw_call_t

/-- What `ili9341_draw_user` takes from the firmware headers and from code
outside this file: effect and layer names, the layer enumerators, the bit
fields of `led_t`, `keymap_config_t` and `user_runtime_config_t` as functions
of `raw`, and the writes of `render_character_set` through its three pointer
arguments (`xpos`, `max_font_xpos`, `ypos`). -/
structure display_ext_t where
  rgblight_name : Nat → String
  rgb_matrix_name : Nat → String
  get_highest_layer : Nat → Nat
  _COLEMAK_DH : Nat
  _COLEMAK : Nat
  _QWERTY : Nat
  _DVORAK : Nat
  _MOUSE : Nat
  _LOWER : Nat
  _RAISE : Nat
  _ADJUST : Nat
  _MEDIA : Nat
  caps_lock : Nat → Bool
  num_lock : Nat → Bool
  scroll_lock : Nat → Bool
  swap_lctl_lgui : Nat → Bool
  nkro : Nat → Bool
  autocorrect_enable : Nat → Bool
  oneshot_enable : Nat → Bool
  audio_enable : Nat → Bool
  audio_clicky_enable : Nat → Bool
  host_driver_disabled : Nat → Bool
  swap_hands : Nat → Bool
  render_character_set : font_t → Nat → List Nat → Nat → Nat × List Nat × Nat

/-- What one call of `ili9341_draw_user` reads from the firmware: accessor
results, globals and the clock, each read as one value for the frame. -/
structure frame_inputs_t where
  curr_hue : Nat
  sniping_enabled : Bool
  sniping_dpi : Nat
  default_dpi : Nat
  layer_state : Nat
  default_layer_state : Nat
  dragscroll_enabled : Bool
  auto_mouse_enable : Bool
  timer_read32 : Nat
  timer_elapsed32 : Nat → Nat
  curr_effect : Nat
  is_keyboard_left : Bool
  led_state : Nat
  current_wpm : Nat
  matrix_scan_rate : Nat
  keymap_config : Nat
  user_state : Nat
  autocorrect_str_has_changed : Bool
  autocorrected_str_raw : String × String
  keylogger_has_changed : Bool
  qp_keylog_str : String
  width : Nat
  height : Nat

/-- The `static` variables of `ili9341_draw_user`; two pairs of them share a
name in the source and are told apart by their block. -/
structure display_statics_t where
  last_hue : Nat
  last_cpi : Nat
  last_layer_state : Nat
  last_dl_state : Nat
  last_ds_state : Nat
  last_sp_state : Nat
  last_am_state : Nat
  last_wpm_update : Nat
  last_klog_update : Nat
  last_scan_update : Nat
  last_effect : Nat
  last_led_state : Nat
  max_wpm_xpos : Nat
  max_scans_xpos : Nat
  max_cpi_xpos : Nat
  max_dss_xpos : Nat
  max_ams_xpos : Nat
  max_sps_xpos : Nat
  last_keymap_config : Nat
  max_bpm_xpos : Nat
  last_user_state : Nat
  max_upm_xpos : Nat
  max_rgb_xpos_rgblight : Nat
  max_rgb_xpos_rgb_matrix : Nat
  max_layer_xpos_layout : Nat
  max_layer_xpos_layer : Nat
  max_klog_xpos_autocorrect : Nat
  max_font_xpos : List Nat
  max_klog_xpos_keylogger : Nat
  deriving DecidableEq, Repr

/-- The static initialisers. -/
def display_statics_init : display_statics_t :=
  { last_hue := 0xFFFF, last_cpi := 0xFFFF, last_layer_state := 0, last_dl_state := 0,
    last_ds_state := 0xFFFFFFFF, last_sp_state := 0xFFFFFFFF, last_am_state := 0xFFFFFFFF,
    last_wpm_update := 0, last_klog_update := 0, last_scan_update := 0, last_effect := 0xFFFF,
    last_led_state := 0, max_wpm_xpos := 0, max_scans_xpos := 0, max_cpi_xpos := 0,
    max_dss_xpos := 0, max_ams_xpos := 0, max_sps_xpos := 0, last_keymap_config := 0,
    max_bpm_xpos := 0, last_user_state := 0, max_upm_xpos := 0, max_rgb_xpos_rgblight := 0,
    max_rgb_xpos_rgb_matrix := 0, max_layer_xpos_layout := 0, max_layer_xpos_layer := 0,
    max_klog_xpos_autocorrect := 0, max_font_xpos := [0, 0, 0, 0],
    max_klog_xpos_keylogger := 0 }

/-- Value of a `bool` compared with or stored into an integer. -/
def bool_to_nat (b : Bool) : Nat := if b then 1 else 0

/-- Conversion `(int)` of a `uint32_t` value, `int` being 32 bits wide on the
targets of this keymap: the value modulo `2 ^ 32` read as two's complement. -/
def uint32_to_int (n : Nat) : Int :=
  if n % 2 ^ 32 < 2 ^ 31 then ((n % 2 ^ 32 : Nat) : Int)
  else ((n % 2 ^ 32 : Nat) : Int) - 2 ^ 32

/-- Text of the scan-rate field:
`snprintf(buf, sizeof(buf), "SCANS: %d", (int)get_matrix_scan_rate())`, the
rate being a `uint32_t`. -/
def scans_text (inp : frame_inputs_t) : String :=
  snprintf 50 ("SCANS: " ++ toString (uint32_to_int inp.matrix_scan_rate))

/-- Statements `xpos += n` and `ypos += n` on the 16-bit `xpos` and `ypos`. -/
def uint16_add (pos n : Nat) : Nat := (pos + n) % 65536

/-- Statement `if (max < xpos) max = xpos;` that closes every text field: the
new value of the field's `static int max_..._xpos`. -/
def track_extent (max_xpos xpos : Nat) : Nat := if max_xpos < xpos then xpos else max_xpos

/-- The call `qp_rect(display, xpos, ypos, max, ypos + font_oled->line_height,
0, 0, 0, true)` that follows it. -/
def erase_rect (p : painter_t) (xpos ypos max_xpos : Nat) : draw_call_t :=
  .qp_rect xpos ypos max_xpos (ypos + p.line_height .font_oled) 0 0 0 true

/-- What a block of the left-half branch leaves: the local `xpos`, the block's
own `static int max_..._xpos`, and the driver calls it made. -/
structure block_t where
  xpos : Nat
  max_xpos : Nat
  draws : List tagged_call_t

/-- The shape shared by the one-line text fields: `xpos = start` is done by
the caller; the text is drawn at `xpos` in the given colours, `xpos` advances
by the returned width, the extent is tracked and the black rectangle drawn. -/
def draw_text_field (p : painter_t) (f : field_t) (xpos ypos max_xpos : Nat) (text : String)
    (hue_fg sat_fg val_fg hue_bg sat_bg val_bg : Nat) : block_t :=
  let xpos1 := uint16_add xpos (p.drawtext .font_oled text)
  let max1 := track_extent max_xpos xpos1
  { xpos := xpos1, max_xpos := max1,
    draws :=
      [ (some f, .qp_drawtext_recolor xpos ypos .font_oled text hue_fg sat_fg val_fg hue_bg
          sat_bg val_bg),
        (some f, erase_rect p xpos1 ypos max1) ] }

/-- The loop that rewrites `buf` from index 5 on: an underscore becomes a
blank, a character after a blank is made upper case, any other lower case;
`prev` is `buf[i - 1]` as already rewritten. -/
def title_case_from : Char → List Char → List Char
  | _, [] => []
  | prev, c :: cs =>
    let c1 := if c = '_' then ' ' else if prev = ' ' then c.toUpper else c.toLower
    c1 :: title_case_from c1 cs

/-- The text of `buf` after that loop. -/
def title_case (text : String) : String :=
  match text.toList.get? 4 with
  | none => text
  | some prev => String.mk (text.toList.take 5 ++ title_case_from prev (text.toList.drop 5))

/-- Block of the lock icons (`QP_LOCK_LOGO_ENABLE`): the new
`last_led_state.raw`, the local `xpos` and the driver calls. -/
def draw_lock_icons (p : painter_t) (x : display_ext_t) (inp : frame_inputs_t)
    (hue_redraw : Bool) (xpos ypos last_led_state : Nat) : Nat × Nat × List tagged_call_t :=
  if hue_redraw || decide (last_led_state ≠ inp.led_state) then
    let last := inp.led_state
    let hue := inp.curr_hue
    let xpos1 := uint16_add xpos (p.image_width .lock_caps_on + 4)
    let xpos2 := uint16_add xpos1 (p.image_width .lock_num_on + 4)
    (last, xpos2,
      [ (some .lock_icons, .qp_drawimage_recolor xpos ypos
          (if x.caps_lock last then .lock_caps_on else .lock_caps_off)
          hue 255 (if x.caps_lock last then 255 else 32) hue 255 0),
        (some .lock_icons, .qp_drawimage_recolor xpos1 ypos
          (if x.num_lock last then .lock_num_on else .lock_num_off)
          hue 255 (if x.num_lock last then 255 else 32) hue 255 0),
        (some .lock_icons, .qp_drawimage_recolor xpos2 ypos
          (if x.scroll_lock last then .lock_scrl_on else .lock_scrl_off)
          hue 255 (if x.scroll_lock last then 255 else 32) hue 255 0) ])
  else (last_led_state, xpos, [])

/-- Block of a text field drawn in the current hue when `redraw` holds, with
`xpos = start` first; otherwise nothing is drawn and nothing changes. This is
the shape of the WPM, scan-rate, CPI, RGB-effect, layout and layer blocks. -/
def draw_hue_text (p : painter_t) (inp : frame_inputs_t) (f : field_t) (redraw : Bool)
    (start : Nat) (text : String) (xpos ypos max_xpos : Nat) : block_t :=
  if redraw then
    draw_text_field p f start ypos max_xpos text inp.curr_hue 255 255 inp.curr_hue 255 0
  else { xpos := xpos, max_xpos := max_xpos, draws := [] }

/-- Block of one of the three pointing-device indicators, drawn only when its
own state changed, in a colour that depends on the indicator and not on the
hue; `start` is the `xpos` the text is drawn at. -/
def draw_indicator (p : painter_t) (f : field_t) (redraw : Bool) (start : Nat) (text : String)
    (hue_fg hue_bg : Nat) (xpos ypos max_xpos : Nat) : block_t :=
  if redraw then draw_text_field p f start ypos max_xpos text hue_fg 255 255 hue_bg 255 0
  else { xpos := xpos, max_xpos := max_xpos, draws := [] }

/-- Colour of a toggle label: 153 when the toggle is on, 255 when off. -/
def toggle_hue (enabled : Bool) : Nat := if enabled then 153 else 255

/-- A toggle label drawn at `xpos`, in the colours of `toggle_hue`. -/
def toggle_label (f : field_t) (xpos ypos : Nat) (text : String) (enabled : Bool) :
    tagged_call_t :=
  (some f, .qp_drawtext_recolor xpos ypos .font_oled text (toggle_hue enabled) 255 255
    (toggle_hue enabled) 255 0)

/-- Block of the `keymap_config` toggles: the new `last_keymap_config.raw`
and the block result. `temp_pos` is 8 bits wide and the third label adds to
it (`temp_pos += ...`). -/
def draw_keymap_config (p : painter_t) (x : display_ext_t) (inp : frame_inputs_t)
    (hue_redraw : Bool) (xpos ypos last_keymap_config max_bpm_xpos : Nat) : Nat × block_t :=
  if hue_redraw || decide (last_keymap_config ≠ inp.keymap_config) then
    let last := inp.keymap_config
    let xpos0 := 5
    let xpos1 := uint16_add xpos0 (p.image_width .cg_off + 5)
    let temp0 := p.drawtext .font_oled "NKRO " % 256
    let xpos2 := uint16_add xpos1 (max temp0 30)
    let temp1 := p.drawtext .font_oled "CRCT " % 256
    let xpos3 := uint16_add xpos2 (max temp1 30)
    let temp2 := (temp1 + p.drawtext .font_oled "1SHOT") % 256
    let xpos4 := uint16_add xpos3 (max temp2 30)
    let max1 := track_extent max_bpm_xpos xpos4
    (last,
      { xpos := xpos4, max_xpos := max1,
        draws :=
          [ (some .keymap_config, .qp_drawimage xpos0 ypos
              (if x.swap_lctl_lgui last then .cg_on else .cg_off)),
            toggle_label .keymap_config xpos1 ypos "NKRO " (x.nkro last),
            toggle_label .keymap_config xpos2 ypos "CRCT " (x.autocorrect_enable last),
            toggle_label .keymap_config xpos3 ypos "1SHOT" (x.oneshot_enable last),
            (some .keymap_config, erase_rect p xpos4 ypos max1) ] })
  else (last_keymap_config, { xpos := xpos, max_xpos := max_bpm_xpos, draws := [] })

/-- Block of the `user_state` toggles: the new `last_user_state.raw` and the
block result. -/
def draw_user_state (p : painter_t) (x : display_ext_t) (inp : frame_inputs_t)
    (hue_redraw : Bool) (xpos ypos last_user_state max_upm_xpos : Nat) : Nat × block_t :=
  if hue_redraw || decide (last_user_state ≠ inp.user_state) then
    let last := inp.user_state
    let xpos0 := (p.image_width .cg_off + 10) % 65536
    let temp0 := p.drawtext .font_oled "AUDIO" % 256
    let xpos1 := uint16_add xpos0 (max temp0 30)
    let temp1 := p.drawtext .font_oled "CLCK " % 256
    let xpos2 := uint16_add xpos1 (max temp1 30)
    let temp2 := p.drawtext .font_oled "HOST " % 256
    let xpos3 := uint16_add xpos2 (max temp2 30)
    let temp3 := p.drawtext .font_oled "SWAP " % 256
    let xpos4 := uint16_add xpos3 (max temp3 30)
    let max1 := track_extent max_upm_xpos xpos4
    (last,
      { xpos := xpos4, max_xpos := max1,
        draws :=
          [ toggle_label .user_state xpos0 ypos "AUDIO" (x.audio_enable last),
            toggle_label .user_state xpos1 ypos "CLCK " (x.audio_clicky_enable last),
            toggle_label .user_state xpos2 ypos "HOST " (x.host_driver_disabled last),
            toggle_label .user_state xpos3 ypos "SWAP " (x.swap_hands last),
            (some .user_state, erase_rect p xpos4 ypos max1) ] })
  else (last_user_state, { xpos := xpos, max_xpos := max_upm_xpos, draws := [] })

/-- Name shown for the default layer: the `switch` on
`get_highest_layer(default_layer_state)`. -/
def dl_name (x : display_ext_t) (inp : frame_inputs_t) : String :=
  if x.get_highest_layer inp.default_layer_state = x._COLEMAK_DH then "COLEMAK_DH"
  else if x.get_highest_layer inp.default_layer_state = x._COLEMAK then "COLEMAK"
  else if x.get_highest_layer inp.default_layer_state = x._QWERTY then "QWERTY"
  else if x.get_highest_layer inp.default_layer_state = x._DVORAK then "DVORAK"
  else "unknown"

/-- Name shown for the active layer: the `switch` on
`get_highest_layer(layer_state)`. -/
def layer_name (x : display_ext_t) (inp : frame_inputs_t) : String :=
  if x.get_highest_layer inp.layer_state = x._MOUSE then "mouse"
  else if x.get_highest_layer inp.layer_state = x._LOWER then "lower"
  else if x.get_highest_layer inp.layer_state = x._RAISE then "raise"
  else if x.get_highest_layer inp.layer_state = x._ADJUST then "adjust"
  else if x.get_highest_layer inp.layer_state = x._MEDIA then "keypad"
  else "default"

/-- Block of the autocorrect banner (`AUTOCORRECT_ENABLE`): two lines, the
static extent being reset to 0 between them; the result carries the local
`ypos` and the new `autocorrect_str_has_changed` as well. -/
def draw_autocorrect (p : painter_t) (inp : frame_inputs_t) (hue_redraw : Bool)
    (xpos ypos max_klog_xpos : Nat) : block_t × Nat × Bool :=
  if hue_redraw || inp.autocorrect_str_has_changed then
    let line1 := draw_text_field p .autocorrect 5 ypos max_klog_xpos
      (snprintf 50 ("Autocorrected: " ++ inp.autocorrected_str_raw.1))
      inp.curr_hue 255 255 inp.curr_hue 255 0
    let ypos1 := uint16_add ypos (p.line_height .font_oled + 4)
    let line2 := draw_text_field p .autocorrect 5 ypos1 0
      (snprintf 50 ("Original Text: " ++ inp.autocorrected_str_raw.2))
      inp.curr_hue 255 255 inp.curr_hue 255 0
    ({ xpos := line2.xpos, max_xpos := line2.max_xpos, draws := line1.draws ++ line2.draws },
      ypos1, false)
  else ({ xpos := xpos, max_xpos := max_klog_xpos, draws := [] }, ypos,
    inp.autocorrect_str_has_changed)

/-- Block of the font preview, drawn only when the hue changed: three calls
of `render_character_set`, each writing `xpos`, `max_font_xpos` and `ypos`
through its pointers. The result is `xpos`, `max_font_xpos`, `ypos` and the
calls. -/
def draw_font_preview (x : display_ext_t) (inp : frame_inputs_t) (hue_redraw : Bool)
    (xpos ypos : Nat) (max_font_xpos : List Nat) : Nat × List Nat × Nat × List tagged_call_t :=
  if hue_redraw then
    let hue := inp.curr_hue
    let r1 := x.render_character_set .font_thintel 5 max_font_xpos ypos
    let r2 := x.render_character_set .font_mono r1.1 r1.2.1 r1.2.2
    let r3 := x.render_character_set .font_oled r2.1 r2.2.1 r2.2.2
    (r3.1, r3.2.1, r3.2.2,
      [ (some .font_preview, .render_character_set .font_thintel hue 255 255 hue 255 0),
        (some .font_preview, .render_character_set .font_mono hue 255 255 hue 255 0),
        (some .font_preview, .render_character_set .font_oled hue 255 255 hue 255 0) ])
  else (xpos, max_font_xpos, ypos, [])

/-- Block of the key log (`KEYLOGGER_ENABLE`), drawn when the log changed; its
rectangle is commented out in the source. The result carries the new
`keylogger_has_changed` as well. -/
def draw_keylogger (p : painter_t) (inp : frame_inputs_t) (xpos ypos max_klog_xpos : Nat) :
    block_t × Bool :=
  if inp.keylogger_has_changed then
    let text := snprintf 50 ("Keylogger: " ++ inp.qp_keylog_str)
    let xpos1 := uint16_add 27 (p.drawtext .font_mono text)
    ({ xpos := xpos1, max_xpos := track_extent max_klog_xpos xpos1,
       draws :=
        [(some .keylogger, .qp_drawtext_recolor 27 ypos .font_mono text 0 255 0 0 0 255)] },
      false)
  else ({ xpos := xpos, max_xpos := max_klog_xpos, draws := [] }, inp.keylogger_has_changed)

/-- What one call of `ili9341_draw_user` leaves: the statics, the two
changed-flags it clears, and the driver calls in order. -/
structure frame_result_t where
  statics : display_statics_t
  autocorrect_str_has_changed : Bool
  keylogger_has_changed : Bool
  draws : List tagged_call_t

/-- Function `ili9341_draw_user`. First the redraw flags are computed and the
`last_...` statics brought up to date; then, on the left half, the blocks of
the status fields run in source order on the locals `xpos` and `ypos`; the
frame ends with `qp_flush`. A flag whose feature is not compiled in is taken
as `false`. -/
def ili9341_draw_user (p : painter_t) (x : display_ext_t) (feat : features_t)
    (inp : frame_inputs_t) (s : display_statics_t) : frame_result_t :=
  let lh := p.line_height .font_oled
  let curr_cpi := if inp.sniping_enabled then inp.sniping_dpi else inp.default_dpi
  let hue_redraw := decide (s.last_hue ≠ inp.curr_hue)
  let cpi_redraw := feat.POINTING_DEVICE_ENABLE && decide (s.last_cpi ≠ curr_cpi)
  let layer_state_redraw := decide (s.last_layer_state ≠ inp.layer_state)
  let dl_state_redraw := decide (s.last_dl_state ≠ inp.default_layer_state)
  let ds_state_redraw :=
    feat.POINTING_DEVICE_ENABLE && decide (s.last_ds_state ≠ bool_to_nat inp.dragscroll_enabled)
  let sp_state_redraw :=
    feat.POINTING_DEVICE_ENABLE && decide (s.last_sp_state ≠ bool_to_nat inp.sniping_enabled)
  let am_state_redraw :=
    feat.POINTING_DEVICE_ENABLE && decide (s.last_am_state ≠ bool_to_nat inp.auto_mouse_enable)
  let wpm_redraw := feat.WPM_ENABLE && decide (inp.timer_elapsed32 s.last_wpm_update > 125)
  let klog_update :=
    feat.KEYLOGGER_ENABLE &&
      (decide (inp.timer_elapsed32 s.last_klog_update > 125) || inp.keylogger_has_changed)
  let scan_redraw := decide (inp.timer_elapsed32 s.last_scan_update > 125)
  let rgb_effect_redraw :=
    (feat.RGB_MATRIX_ENABLE || feat.RGBLIGHT_ENABLE) && decide (s.last_effect ≠ inp.curr_effect)
  let s1 : display_statics_t :=
    { s with
      last_hue := if hue_redraw then inp.curr_hue else s.last_hue,
      last_cpi := if cpi_redraw then curr_cpi else s.last_cpi,
      last_layer_state := if layer_state_redraw then inp.layer_state else s.last_layer_state,
      last_dl_state := if dl_state_redraw then inp.default_layer_state else s.last_dl_state,
      last_ds_state :=
        if ds_state_redraw then bool_to_nat inp.dragscroll_enabled else s.last_ds_state,
      last_sp_state :=
        if sp_state_redraw then bool_to_nat inp.sniping_enabled else s.last_sp_state,
      last_am_state :=
        if am_state_redraw then bool_to_nat inp.auto_mouse_enable else s.last_am_state,
      last_wpm_update := if wpm_redraw then inp.timer_read32 else s.last_wpm_update,
      last_klog_update := if klog_update then inp.timer_read32 else s.last_klog_update,
      last_scan_update := if scan_redraw then inp.timer_read32 else s.last_scan_update,
      last_effect := if rgb_effect_redraw then inp.curr_effect else s.last_effect }
  if inp.is_keyboard_left then
    let xpos0 := 5
    let ypos0 := 16
    let lock :=
      if feat.QP_LOCK_LOGO_ENABLE then
        draw_lock_icons p x inp hue_redraw xpos0 ypos0 s.last_led_state
      else (s.last_led_state, xpos0, [])
    let ypos1 :=
      if feat.QP_LOCK_LOGO_ENABLE then uint16_add ypos0 (p.image_height .lock_caps_on + 4)
      else ypos0
    let wpm :=
      draw_hue_text p inp .wpm (feat.WPM_ENABLE && (hue_redraw || wpm_redraw)) 5
        (snprintf 50 ("WPM: " ++ toString inp.current_wpm)) lock.2.1 ypos1 s.max_wpm_xpos
    let scans :=
      draw_hue_text p inp .scans (hue_redraw || scan_redraw) 50
        (scans_text inp) wpm.xpos ypos1
        s.max_scans_xpos
    let cpi :=
      draw_hue_text p inp .cpi (feat.POINTING_DEVICE_ENABLE && (hue_redraw || cpi_redraw)) 110
        (snprintf 50 ("CPI: " ++ toString curr_cpi)) scans.xpos ypos1 s.max_cpi_xpos
    let ypos2 := if feat.POINTING_DEVICE_ENABLE then uint16_add ypos1 (lh + 4) else ypos1
    let dss :=
      draw_indicator p .drag_scroll ds_state_redraw 5 "DRAG SCROLL"
        (toggle_hue inp.dragscroll_enabled) (toggle_hue inp.dragscroll_enabled)
        cpi.xpos ypos2 s.max_dss_xpos
    let ams :=
      draw_indicator p .auto_layer am_state_redraw (uint16_add dss.xpos 10) "Auto Layer"
        (if inp.auto_mouse_enable then 34 else 255) (if inp.sniping_enabled then 34 else 255)
        dss.xpos ypos2 s.max_ams_xpos
    let sps :=
      draw_indicator p .sniping sp_state_redraw (uint16_add ams.xpos 10) "Sniping"
        (toggle_hue inp.sniping_enabled) (toggle_hue inp.sniping_enabled)
        ams.xpos ypos2 s.max_sps_xpos
    let ypos3 := uint16_add ypos2 (lh + 4)
    let bpm := draw_keymap_config p x inp hue_redraw sps.xpos ypos3 s.last_keymap_config
      s.max_bpm_xpos
    let ypos4 := uint16_add ypos3 (lh + 2)
    let upm := draw_user_state p x inp hue_redraw bpm.2.xpos ypos4 s.last_user_state
      s.max_upm_xpos
    let ypos5 := if feat.RGBLIGHT_ENABLE then uint16_add ypos4 (lh + 4) else ypos4
    let rgbl :=
      draw_hue_text p inp .rgb_light (feat.RGBLIGHT_ENABLE && (hue_redraw || rgb_effect_redraw))
        5 (title_case (snprintf 50 ("RGB Light: " ++ x.rgblight_name inp.curr_effect)))
        upm.2.xpos ypos5 s.max_rgb_xpos_rgblight
    let ypos6 := if feat.RGB_MATRIX_ENABLE then uint16_add ypos5 (lh + 4) else ypos5
    let rgbm :=
      draw_hue_text p inp .rgb_matrix
        (feat.RGB_MATRIX_ENABLE && (hue_redraw || rgb_effect_redraw)) 5
        (title_case (snprintf 50 ("RGB Matrix: " ++ x.rgb_matrix_name inp.curr_effect)))
        rgbl.xpos ypos6 s.max_rgb_xpos_rgb_matrix
    let ypos7 := uint16_add ypos6 (lh + 4)
    let layout :=
      draw_hue_text p inp .layout (hue_redraw || dl_state_redraw || layer_state_redraw) 5
        (snprintf 50 ("LAYOUT: " ++ dl_name x inp)) rgbm.xpos ypos7 s.max_layer_xpos_layout
    let layer :=
      draw_hue_text p inp .layer (hue_redraw || layer_state_redraw)
        ((5 + p.qp_textwidth .font_oled "LAYOUT: COLEMAK_DH") % 65536)
        (snprintf 50 ("LAYER: " ++ layer_name x inp)) layout.xpos ypos7 s.max_layer_xpos_layer
    let ypos8 := if feat.AUTOCORRECT_ENABLE then uint16_add ypos7 (lh + 4) else ypos7
    let ac :=
      if feat.AUTOCORRECT_ENABLE then
        draw_autocorrect p inp hue_redraw layer.xpos ypos8 s.max_klog_xpos_autocorrect
      else
        ({ xpos := layer.xpos, max_xpos := s.max_klog_xpos_autocorrect, draws := [] }, ypos8,
          inp.autocorrect_str_has_changed)
    let ypos9 := uint16_add ac.2.1 (lh + 4)
    let fonts := draw_font_preview x inp hue_redraw ac.1.xpos ypos9 s.max_font_xpos
    let ypos10 :=
      if feat.KEYLOGGER_ENABLE then
        (((inp.height : Int) - ((p.line_height .font_mono : Int) + 2)) % 65536).toNat
      else fonts.2.2.1
    let klog :=
      if feat.KEYLOGGER_ENABLE then
        draw_keylogger p inp fonts.1 ypos10 s.max_klog_xpos_keylogger
      else
        ({ xpos := fonts.1, max_xpos := s.max_klog_xpos_keylogger, draws := [] },
          inp.keylogger_has_changed)
    { statics :=
        { s1 with
          last_led_state := lock.1, max_wpm_xpos := wpm.max_xpos,
          max_scans_xpos := scans.max_xpos, max_cpi_xpos := cpi.max_xpos,
          max_dss_xpos := dss.max_xpos, max_ams_xpos := ams.max_xpos,
          max_sps_xpos := sps.max_xpos, last_keymap_config := bpm.1,
          max_bpm_xpos := bpm.2.max_xpos, last_user_state := upm.1,
          max_upm_xpos := upm.2.max_xpos, max_rgb_xpos_rgblight := rgbl.max_xpos,
          max_rgb_xpos_rgb_matrix := rgbm.max_xpos, max_layer_xpos_layout := layout.max_xpos,
          max_layer_xpos_layer := layer.max_xpos, max_klog_xpos_autocorrect := ac.1.max_xpos,
          max_font_xpos := fonts.2.1, max_klog_xpos_keylogger := klog.1.max_xpos },
      autocorrect_str_has_changed := ac.2.2,
      keylogger_has_changed := klog.2,
      draws :=
        lock.2.2 ++ wpm.draws ++ scans.draws ++ cpi.draws ++ dss.draws ++ ams.draws ++
          sps.draws ++ bpm.2.draws ++ upm.2.draws ++ rgbl.draws ++ rgbm.draws ++ layout.draws ++
          layer.draws ++ ac.1.draws ++ fonts.2.2.2 ++ klog.1.draws ++ [(none, .qp_flush)] }
  else
    { statics := s1,
      autocorrect_str_has_changed := inp.autocorrect_str_has_changed,
      keylogger_has_changed := inp.keylogger_has_changed,
      draws := [(none, .qp_flush)] }

/-- The driver calls made for field `f` among tagged calls, in order. -/
def calls_of (f : field_t) (l : List tagged_call_t) : List draw_call_t :=
  l.filterMap fun c => if c.1 = some f then some c.2 else none

/-- Field `f` is redrawn in a frame: its block made driver calls. -/
def frame_result_t.redrawn (r : frame_result_t) (f : field_t) : Prop :=
  calls_of f r.draws ≠ []

/-- Every feature compiled in. -/
def sample_features : features_t :=
  { RGBLIGHT_ENABLE := true, RGB_MATRIX_ENABLE := true, POINTING_DEVICE_ENABLE := true,
    WPM_ENABLE := true, KEYLOGGER_ENABLE := true, QP_LOCK_LOGO_ENABLE := true,
    AUTOCORRECT_ENABLE := true }

/-- Layer enumerators numbered in the order the two `switch` statements name
them, bit fields read off `raw` from bit 0 up, the highest layer taken as the
binary logarithm, and a `render_character_set` that writes nothing. -/
def sample_display_ext : display_ext_t :=
  { rgblight_name := fun _ => "static_light", rgb_matrix_name := fun _ => "solid_color",
    get_highest_layer := Nat.log2,
    _COLEMAK_DH := 0, _COLEMAK := 1, _QWERTY := 2, _DVORAK := 3, _MOUSE := 4, _LOWER := 5,
    _RAISE := 6, _ADJUST := 7, _MEDIA := 8,
    caps_lock := fun raw => raw.testBit 1, num_lock := fun raw => raw.testBit 0,
    scroll_lock := fun raw => raw.testBit 2,
    swap_lctl_lgui := fun raw => raw.testBit 2, nkro := fun raw => raw.testBit 7,
    autocorrect_enable := fun raw => raw.testBit 10, oneshot_enable := fun raw => raw.testBit 9,
    audio_enable := fun raw => raw.testBit 0, audio_clicky_enable := fun raw => raw.testBit 1,
    host_driver_disabled := fun raw => raw.testBit 2, swap_hands := fun raw => raw.testBit 3,
    render_character_set := fun _ xpos max_font_xpos ypos => (xpos, max_font_xpos, ypos) }

/-- A frame on the left half: hue 10, layer 0, scan rate 1234, clock 1000 with
no timer expired, nothing flagged as changed. -/
def sample_inputs : frame_inputs_t :=
  { curr_hue := 10, sniping_enabled := false, sniping_dpi := 200, default_dpi := 400,
    layer_state := 0, default_layer_state := 1, dragscroll_enabled := false,
    auto_mouse_enable := false, timer_read32 := 1000, timer_elapsed32 := fun _ => 0,
    curr_effect := 4, is_keyboard_left := true, led_state := 0, current_wpm := 0,
    matrix_scan_rate := 1234, keymap_config := 0, user_state := 0,
    autocorrect_str_has_changed := false, autocorrected_str_raw := ("", ""),
    keylogger_has_changed := false, qp_keylog_str := "", width := 240, height := 320 }

/-- The statics left by a first frame drawn from the initialisers with
`sample_inputs`. -/
def sample_statics : display_statics_t :=
  (ili9341_draw_user sample_painter sample_display_ext sample_features sample_inputs
    display_statics_init).statics

/-- The inputs of `sample_inputs` with another hue. -/
def sample_inputs_hue : frame_inputs_t := { sample_inputs with curr_hue := 11 }

/-- The inputs of `sample_inputs` with layer 5 switched on in `layer_state`. -/
def sample_inputs_layer : frame_inputs_t := { sample_inputs with layer_state := 32 }

/-- The inputs of `sample_inputs` with a shorter scan rate and the timers
expired. -/
def sample_inputs_scan : frame_inputs_t :=
  { sample_inputs with matrix_scan_rate := 7, timer_elapsed32 := fun _ => 200 }

/-- Two consecutive calls of `ili9341_draw_user`, the second one starting from
the statics the first one left: the result of the second. -/
def second_frame (p : painter_t) (x : display_ext_t) (feat : features_t)
    (inp1 inp2 : frame_inputs_t) (s : display_statics_t) : frame_result_t :=
  ili9341_draw_user p x feat inp2 (ili9341_draw_user p x feat inp1 s).statics

/-- Value of `ypos` in the scan-rate block: 16, moved below the lock icons
when they are compiled in. -/
def scans_ypos (p : painter_t) (feat : features_t) : Nat :=
  if feat.QP_LOCK_LOGO_ENABLE then uint16_add 16 (p.image_height .lock_caps_on + 4) else 16

/-- Value of `xpos` after the scan-rate text is drawn: its right extent. -/
def scans_extent (p : painter_t) (inp : frame_inputs_t) : Nat :=
  uint16_add 50 (p.drawtext .font_oled (scans_text inp))

/-- The static `max_..._xpos` of the block of a field: the right extent the
block has recorded for its text; 0 for the two blocks that keep no such
number (the lock icons, and the font preview with its array). -/
def display_statics_t.max_xpos (s : display_statics_t) : field_t → Nat
  | .lock_icons => 0
  | .wpm => s.max_wpm_xpos
  | .scans => s.max_scans_xpos
  | .cpi => s.max_cpi_xpos
  | .drag_scroll => s.max_dss_xpos
  | .auto_layer => s.max_ams_xpos
  | .sniping => s.max_sps_xpos
  | .keymap_config => s.max_bpm_xpos
  | .user_state => s.max_upm_xpos
  | .rgb_light => s.max_rgb_xpos_rgblight
  | .rgb_matrix => s.max_rgb_xpos_rgb_matrix
  | .layout => s.max_layer_xpos_layout
  | .layer => s.max_layer_xpos_layer
  | .autocorrect => s.max_klog_xpos_autocorrect
  | .font_preview => 0
  | .keylogger => s.max_klog_xpos_keylogger

/-- The text fields drawn by one `qp_drawtext_recolor` row each and erased up
to their own recorded extent: WPM, scan rate, CPI, the two rows of toggles,
the two RGB effect names, layout and layer. -/
def tracked_fields : List field_t :=
  [.wpm, .scans, .cpi, .keymap_config, .user_state, .rgb_light, .rgb_matrix, .layout, .layer]

/-- The inputs of `sample_inputs` after an autocorrection of a long word. -/
def sample_inputs_typo_long : frame_inputs_t :=
  { sample_inputs with
    autocorrect_str_has_changed := true, autocorrected_str_raw := ("definitely", "definately") }

/-- The inputs of `sample_inputs` after an autocorrection of a short word. -/
def sample_inputs_typo_short : frame_inputs_t :=
  { sample_inputs with
    autocorrect_str_has_changed := true, autocorrected_str_raw := ("the", "teh") }

/-- A run of frames: `ili9341_draw_user` called once per element of the list,
each call starting from the statics the call before it left. -/
def draw_frames (p : painter_t) (x : display_ext_t) (feat : features_t) :
    List frame_inputs_t → display_statics_t → display_statics_t
  | [], s => s
  | inp :: rest, s => draw_frames p x feat rest (ili9341_draw_user p x feat inp s).statics

/-- A `qp_rect` call whose left edge does not exceed its right edge; any other
call. -/
def draw_call_t.edges_ordered : draw_call_t → Prop
  | .qp_rect left _ right _ _ _ _ _ => left ≤ right
  | _ => True

/-- The status fields whose block draws one text with `qp_drawtext_recolor`
and then calls `qp_rect` against the field's own recorded extent: WPM, scan
rate, CPI, the three pointing-device indicators, the two RGB effect names,
layout and layer. -/
def single_text_fields : List field_t :=
  [.wpm, .scans, .cpi, .drag_scroll, .auto_layer, .sniping, .rgb_light, .rgb_matrix, .layout,
    .layer]

/-- The text a block of `single_text_fields` draws in a frame; `none` for the
other blocks. -/
def field_text (x : display_ext_t) (inp : frame_inputs_t) : field_t → Option String
  | .wpm => some (snprintf 50 ("WPM: " ++ toString inp.current_wpm))
  | .scans => some (scans_text inp)
  | .cpi =>
    some (snprintf 50
      ("CPI: " ++ toString (if inp.sniping_enabled then inp.sniping_dpi else inp.default_dpi)))
  | .drag_scroll => some "DRAG SCROLL"
  | .auto_layer => some "Auto Layer"
  | .sniping => some "Sniping"
  | .rgb_light =>
    some (title_case (snprintf 50 ("RGB Light: " ++ x.rgblight_name inp.curr_effect)))
  | .rgb_matrix =>
    some (title_case (snprintf 50 ("RGB Matrix: " ++ x.rgb_matrix_name inp.curr_effect)))
  | .layout => some (snprintf 50 ("LAYOUT: " ++ dl_name x inp))
  | .layer => some (snprintf 50 ("LAYER: " ++ layer_name x inp))
  | _ => none

/-! # Theorems -/

/-! ## Loop lemmas -/

theorem find?_of_descending {p : Fin 8 → Bool} {i : Fin 8} :
    ∀ {l : List (Fin 8)}, l.Pairwise (fun a b => b < a) → l.find? p = some i →
      ∀ j ∈ l, i < j → p j = false
  | [], _, h => by simp at h
  | a :: l, hl, h => by
    intro j hj hij
    rw [List.pairwise_cons] at hl
    rw [List.find?_cons] at h
    cases hpa : p a with
    | true =>
      rw [hpa] at h
      have hai : a = i := by simpa using h
      subst hai
      rcases List.mem_cons.mp hj with rfl | hjl
      · exact absurd hij (lt_irrefl _)
      · exact absurd (hl.1 j hjl) (not_lt.mpr (le_of_lt hij))
    | false =>
      rw [hpa] at h
      rcases List.mem_cons.mp hj with rfl | hjl
      · exact hpa
      · exact find?_of_descending hl.2 h j hjl hij

theorem highest_occupied_slot_some {st : menu_state_t} {i : Fin 8}
    (h : highest_occupied_slot st = some i) :
    st.menu_stack.get i ≠ 0xFF ∧ ∀ j : Fin 8, i < j → st.menu_stack.get j = 0xFF := by
  unfold highest_occupied_slot at h
  refine ⟨by simpa using List.find?_some h, fun j hij => ?_⟩
  have hd : ((List.finRange 8).reverse).Pairwise (fun a b => b < a) := by decide
  have := find?_of_descending hd h j (by simp) hij
  simpa using this

theorem highest_occupied_slot_none {st : menu_state_t}
    (h : highest_occupied_slot st = none) : ∀ j : Fin 8, st.menu_stack.get j = 0xFF := by
  unfold highest_occupied_slot at h
  rw [List.find?_eq_none] at h
  intro j
  simpa using h j (by simp)

theorem menu_enter_loop_push (st : menu_state_t) (i : Fin 8)
    (hi : st.menu_stack.get i = 0xFF) :
    ∀ fuel k : Nat, k ≤ i.val → i.val < k + fuel →
      (∀ j : Fin 8, k ≤ j.val → j < i → st.menu_stack.get j ≠ 0xFF) →
      menu_enter_loop fuel k st =
        { st with menu_stack := st.menu_stack.set i st.selected_child, selected_child := 0 }
  | 0, k, hk, hf, _ => by omega
  | fuel + 1, k, hk, hf, hocc => by
    have hk8 : k < 8 := lt_of_le_of_lt hk i.isLt
    rw [menu_enter_loop, dif_pos hk8]
    by_cases hslot : st.menu_stack.get ⟨k, hk8⟩ = 0xFF
    · rw [if_pos hslot]
      have hki : (⟨k, hk8⟩ : Fin 8) = i := by
        by_contra hne
        have hlt : (⟨k, hk8⟩ : Fin 8) < i :=
          lt_of_le_of_ne hk hne
        exact hocc ⟨k, hk8⟩ (le_refl k) hlt hslot
      rw [hki]
    · rw [if_neg hslot]
      have hne : k ≠ i.val := by
        rintro rfl
        exact hslot hi
      exact menu_enter_loop_push st i hi fuel (k + 1) (by omega) (by omega)
        (fun j hj hji => hocc j (by omega) hji)

theorem menu_enter_loop_full (st : menu_state_t) :
    ∀ fuel k : Nat, (∀ j : Fin 8, k ≤ j.val → st.menu_stack.get j ≠ 0xFF) →
      menu_enter_loop fuel k st = st
  | 0, _, _ => rfl
  | fuel + 1, k, hocc => by
    rw [menu_enter_loop]
    split
    · rename_i hk8
      rw [if_neg (hocc ⟨k, hk8⟩ (le_refl k))]
      exact menu_enter_loop_full st fuel (k + 1) (fun j hj => hocc j (by omega))
    · rfl

theorem menu_back_loop_pop (st : menu_state_t) (i : Fin 8)
    (hi : st.menu_stack.get i ≠ 0xFF) :
    ∀ fuel k : Nat, i.val + k ≤ 7 → 7 < i.val + k + fuel →
      (∀ j : Fin 8, i < j → j.val + k ≤ 7 → st.menu_stack.get j = 0xFF) →
      menu_back_loop fuel k st =
        { st with selected_child := st.menu_stack.get i,
                  menu_stack := st.menu_stack.set i 0xFF }
  | 0, k, hk, hf, _ => by omega
  | fuel + 1, k, hk, hf, hemp => by
    have hk8 : k < 8 := by omega
    rw [menu_back_loop, if_pos hk8]
    by_cases hslot : st.menu_stack.get ⟨8 - 1 - k, by omega⟩ = 0xFF
    · rw [if_neg (not_not.mpr hslot)]
      have hne : i.val ≠ 8 - 1 - k := by
        intro h
        apply hi
        rw [← hslot]
        congr 1
        exact Fin.ext h
      have hk7 : ¬ k = 8 - 1 := by omega
      rw [if_neg hk7]
      exact menu_back_loop_pop st i hi fuel (k + 1) (by omega) (by omega)
        (fun j hij hj => hemp j hij (by omega))
    · rw [if_pos hslot]
      have hki : (⟨8 - 1 - k, by omega⟩ : Fin 8) = i := by
        by_contra hne
        have hlt : i < (⟨8 - 1 - k, by omega⟩ : Fin 8) := by
          apply lt_of_le_of_ne
          · show i.val ≤ 8 - 1 - k
            omega
          · exact fun h => hne h.symm
        exact hslot (hemp _ hlt (by show 8 - 1 - k + k ≤ 7; omega))
      rw [hki]

theorem menu_back_loop_leave (st : menu_state_t)
    (hemp : ∀ j : Fin 8, st.menu_stack.get j = 0xFF) :
    ∀ fuel k : Nat, k ≤ 7 → 7 < k + fuel →
      menu_back_loop fuel k st = { st with is_in_menu := false, selected_child := 0xFF }
  | 0, k, hk, hf => by omega
  | fuel + 1, k, hk, hf => by
    have hk8 : k < 8 := by omega
    rw [menu_back_loop, if_pos hk8, if_neg (not_not.mpr (hemp _))]
    by_cases hk7 : k = 8 - 1
    · rw [if_pos hk7]
      subst hk7
      cases fuel with
      | zero => rfl
      | succ m => rw [menu_back_loop, if_neg (by omega)]
    · rw [if_neg hk7]
      exact menu_back_loop_leave st hemp fuel (k + 1) (by omega) (by omega)

/-! ## Single inputs -/

theorem children_of_current_menu {rt : menu_entry_t} {st : menu_state_t} {f : Nat} {t : String}
    {ch : List menu_entry_t} {n : Nat}
    (hmenu : get_current_menu rt st = some (.parent f t ch n)) :
    get_selected_menu_item_children rt st = some ch := by
  simp [get_selected_menu_item_children, hmenu, menu_entry_t.parent_children]

theorem children_of_selected {rt : menu_entry_t} {st : menu_state_t} {sel : menu_entry_t}
    (hsel : get_selected_menu_item rt st = some sel) :
    ∃ ch, get_selected_menu_item_children rt st = some ch := by
  unfold get_selected_menu_item at hsel
  cases hmenu : get_current_menu rt st with
  | none => rw [hmenu] at hsel; cases hsel
  | some menu =>
    rw [hmenu] at hsel
    cases menu with
    | parent f t ch n => exact ⟨ch, children_of_current_menu hmenu⟩
    | child f t h dh => cases hsel

theorem menu_handle_input_fault (rt : menu_entry_t) (input : menu_input_t) (st : menu_state_t)
    (env : env_t) (h : get_selected_menu_item_children rt st = none) :
    menu_handle_input rt input st env = none := by
  simp only [menu_handle_input, h]

theorem exit_faults_on_null_menu :
    menu_handle_input (root 6) menu_input_exit { opened_state with selected_child := 0xFF }
        sample_env = none ∧
      menu_handle_input (root 6) menu_input_back { opened_state with selected_child := 0xFF }
        sample_env = none :=
  ⟨rfl, rfl⟩

theorem exit_of_children (rt : menu_entry_t) (st : menu_state_t) (env : env_t)
    (ch : List menu_entry_t) (hload : get_selected_menu_item_children rt st = some ch) :
    menu_handle_input rt menu_input_exit st env =
      some (false,
        { st with is_in_menu := false, menu_stack := Vector.replicate 8 0xFF,
                  selected_child := 0xFF }, env) := by
  simp only [menu_handle_input, hload]

theorem back_of_children (rt : menu_entry_t) (st : menu_state_t) (env : env_t)
    (ch : List menu_entry_t) (hload : get_selected_menu_item_children rt st = some ch) :
    menu_handle_input rt menu_input_back st env =
      some (false, menu_back_loop sizeof_menu_stack 0 st, env) := by
  simp only [menu_handle_input, hload]

/-- C2: in every navigation state whose current menu resolves to a parent
entry, as it does in every in-menu state at any depth of the stack from 0 to
8, the exit input returns `false` and leaves `is_in_menu` false, all eight
slots of `menu_stack` at 0xFF and `selected_child` at 0xFF. -/
theorem exit_resets_navigation (rt : menu_entry_t) (st : menu_state_t) (env : env_t)
    (f : Nat) (t : String) (ch : List menu_entry_t) (n : Nat)
    (hmenu : get_current_menu rt st = some (.parent f t ch n)) :
    ∃ st', menu_handle_input rt menu_input_exit st env = some (false, st', env) ∧
      st'.is_in_menu = false ∧ (∀ i : Fin 8, st'.menu_stack.get i = 0xFF) ∧
      st'.selected_child = 0xFF :=
  ⟨_, exit_of_children rt st env ch (children_of_current_menu hmenu), rfl,
    fun i => Vector.get_replicate _ i, rfl⟩

theorem exit_resets_navigation_witness :
    (∃ st', menu_handle_input (chain_menu 10) menu_input_exit deepest_state sample_env =
        some (false, st', sample_env) ∧
      st'.is_in_menu = false ∧ (∀ i : Fin 8, st'.menu_stack.get i = 0xFF) ∧
      st'.selected_child = 0xFF) ∧
    ∃ st', menu_handle_input (root 6) menu_input_exit opened_state sample_env =
        some (false, st', sample_env) ∧
      st'.is_in_menu = false ∧ (∀ i : Fin 8, st'.menu_stack.get i = 0xFF) ∧
      st'.selected_child = 0xFF :=
  ⟨exit_resets_navigation (chain_menu 10) deepest_state sample_env menu_flag_is_parent "level"
      [chain_menu 1] 1 rfl,
    exit_resets_navigation (root 6) opened_state sample_env menu_flag_is_parent "Configuration"
      (root_entries 6) 3 rfl⟩

theorem back_eq_reference (rt : menu_entry_t) (st : menu_state_t) (env : env_t)
    (ch : List menu_entry_t) (hload : get_selected_menu_item_children rt st = some ch) :
    menu_handle_input rt menu_input_back st env = menu_back_reference rt st env := by
  unfold menu_back_reference
  rw [back_of_children rt st env ch hload]
  cases h : highest_occupied_slot st with
  | some i =>
    obtain ⟨hocc, hemp⟩ := highest_occupied_slot_some h
    have := menu_back_loop_pop st i hocc 8 0 (by omega) (by omega) (fun j hij _ => hemp j hij)
    simp only [sizeof_menu_stack, this]
  | none =>
    have hemp := highest_occupied_slot_none h
    have := menu_back_loop_leave st hemp 8 0 (by omega) (by omega)
    have hv : Vector.replicate 8 0xFF = st.menu_stack :=
      Vector.ext fun i => by rw [Vector.get_replicate, hemp i]
    simp only [exit_of_children rt st env ch hload, sizeof_menu_stack, this, hv]

/-- C3: in every navigation state whose current menu resolves to a parent
entry, as it does in every in-menu state, the back input computes exactly
`menu_back_reference`: with an occupied slot it pops the highest one into
`selected_child` and changes nothing else; with no occupied slot it yields
what the exit input yields. -/
theorem back_refines_reference (rt : menu_entry_t) (st : menu_state_t) (env : env_t)
    (f : Nat) (t : String) (ch : List menu_entry_t) (n : Nat)
    (hmenu : get_current_menu rt st = some (.parent f t ch n)) :
    menu_handle_input rt menu_input_back st env = menu_back_reference rt st env :=
  back_eq_reference rt st env ch (children_of_current_menu hmenu)

theorem back_refines_reference_witness :
    menu_handle_input (chain_menu 10) menu_input_back deepest_state sample_env =
        menu_back_reference (chain_menu 10) deepest_state sample_env ∧
      menu_handle_input (root 6) menu_input_back opened_state sample_env =
        menu_back_reference (root 6) opened_state sample_env :=
  ⟨back_refines_reference (chain_menu 10) deepest_state sample_env menu_flag_is_parent "level"
      [chain_menu 1] 1 rfl,
    back_refines_reference (root 6) opened_state sample_env menu_flag_is_parent "Configuration"
      (root_entries 6) 3 rfl⟩

theorem menu_enter_push (rt : menu_entry_t) (st : menu_state_t) (env : env_t)
    (sel : menu_entry_t) (i : Fin 8)
    (hsel : get_selected_menu_item rt st = some sel)
    (hpar : sel.flags &&& menu_flag_is_parent ≠ 0)
    (hi : st.menu_stack.get i = 0xFF)
    (hlow : ∀ j : Fin 8, j < i → st.menu_stack.get j ≠ 0xFF) :
    menu_handle_input rt menu_input_enter st env =
      some (false,
        { st with menu_stack := st.menu_stack.set i st.selected_child, selected_child := 0 },
        env) := by
  have := menu_enter_loop_push st i hi 8 0 (Nat.zero_le _) (by omega) (fun j _ hj => hlow j hj)
  obtain ⟨ch, hload⟩ := children_of_selected hsel
  simp only [menu_handle_input, hload, hsel, sizeof_menu_stack, this, if_pos hpar]

/-- C4: with a selected entry that carries the parent flag and a stack whose
lowest empty slot is `i`, the enter input stores the old `selected_child` in
slot `i`, sets `selected_child` to 0 and changes nothing else. -/
theorem enter_pushes_selected (rt : menu_entry_t) (st : menu_state_t) (env : env_t)
    (sel : menu_entry_t) (i : Fin 8)
    (hsel : get_selected_menu_item rt st = some sel)
    (hpar : sel.flags &&& menu_flag_is_parent ≠ 0)
    (hi : st.menu_stack.get i = 0xFF)
    (hlow : ∀ j : Fin 8, j < i → st.menu_stack.get j ≠ 0xFF) :
    menu_handle_input rt menu_input_enter st env =
      some (false,
        { st with menu_stack := st.menu_stack.set i st.selected_child, selected_child := 0 },
        env) :=
  menu_enter_push rt st env sel i hsel hpar hi hlow

/-- C5: when the selected entry resolves, the enter input returns `false` and
leaves navigation state and environment untouched if all eight slots are
occupied, and also if the selected entry lacks the parent flag. -/
theorem enter_saturates (rt : menu_entry_t) (st : menu_state_t) (env : env_t)
    (sel : menu_entry_t) (hsel : get_selected_menu_item rt st = some sel)
    (h : (∀ i : Fin 8, st.menu_stack.get i ≠ 0xFF) ∨ sel.flags &&& menu_flag_is_parent = 0) :
    menu_handle_input rt menu_input_enter st env = some (false, st, env) := by
  obtain ⟨ch, hload⟩ := children_of_selected hsel
  simp only [menu_handle_input, hload, hsel, sizeof_menu_stack]
  split
  · rename_i hpar
    rcases h with hfull | hnot
    · rw [menu_enter_loop_full st 8 0 (fun j _ => hfull j)]
    · exact absurd hnot hpar
  · rfl

theorem menu_down_index_eq (s n : Nat) (hs : s < 256) (h1 : 1 ≤ n) (hn : n ≤ 255) :
    menu_down_index s n = (s + 1) % n := by
  unfold menu_down_index size_t_bits
  have h32 : (2 : Nat) ^ 32 = 4294967296 := by norm_num
  rw [h32, Nat.mod_eq_of_lt (by omega : s + n < 4294967296),
    Nat.mod_eq_of_lt (by omega : s + n + 1 < 4294967296)]
  have hmod : (s + n + 1) % n = (s + 1) % n := by
    rw [show s + n + 1 = s + 1 + n by omega, Nat.add_mod_right]
  rw [hmod]
  have hlt : (s + 1) % n < n := Nat.mod_lt _ (by omega)
  exact Nat.mod_eq_of_lt (by omega)

theorem menu_up_index_eq (s n : Nat) (hs : s < 256) (h1 : 1 ≤ n) (hn : n ≤ 255) :
    menu_up_index s n = (s + n - 1) % n := by
  unfold menu_up_index size_t_bits
  have h32 : (2 : Nat) ^ 32 = 4294967296 := by norm_num
  rw [h32, Nat.mod_eq_of_lt (by omega : s + n < 4294967296)]
  have hwrap : (s + n + (4294967296 - 1)) % 4294967296 = s + n - 1 := by omega
  rw [hwrap]
  have hlt : (s + n - 1) % n < n := Nat.mod_lt _ (by omega)
  exact Nat.mod_eq_of_lt (by omega)

theorem menu_up_down_step (rt : menu_entry_t) (st : menu_state_t) (env : env_t)
    (f : Nat) (t : String) (ch : List menu_entry_t) (n : Nat)
    (hmenu : get_current_menu rt st = some (.parent f t ch n))
    (h1 : 1 ≤ n) (hn : n ≤ 255) (hs : st.selected_child < 256) :
    menu_handle_input rt menu_input_up st env =
        some (false, { st with selected_child := (st.selected_child + n - 1) % n }, env) ∧
      menu_handle_input rt menu_input_down st env =
        some (false, { st with selected_child := (st.selected_child + 1) % n }, env) ∧
      ∀ s : Nat, s < 256 →
        menu_up_index s n = (s + n - 1) % n ∧ menu_down_index s n = (s + 1) % n := by
  have hn0 : n ≠ 0 := by omega
  have hload := children_of_current_menu hmenu
  refine ⟨?_, ?_, fun s hs' => ⟨menu_up_index_eq s n hs' h1 hn, menu_down_index_eq s n hs' h1 hn⟩⟩
  · simp only [menu_handle_input, hload, hmenu, Option.bind, menu_entry_t.parent_child_count,
      if_neg hn0, menu_up_index_eq _ n hs h1 hn]
  · simp only [menu_handle_input, hload, hmenu, Option.bind, menu_entry_t.parent_child_count,
      if_neg hn0, menu_down_index_eq _ n hs h1 hn]

/-- C7: on a current menu with `child_count = n`, `1 ≤ n ≤ 255`, the up input
sets `selected_child` to `(s + n - 1) % n` and the down input to `(s + 1) % n`,
both returning `false`; and for every 8-bit `s` the two expressions of the
code, evaluated in `size_t` and stored into 8 bits, have these values. -/
theorem up_down_wrap (rt : menu_entry_t) (st : menu_state_t) (env : env_t)
    (f : Nat) (t : String) (ch : List menu_entry_t) (n : Nat)
    (hmenu : get_current_menu rt st = some (.parent f t ch n))
    (h1 : 1 ≤ n) (hn : n ≤ 255) (hs : st.selected_child < 256) :
    menu_handle_input rt menu_input_up st env =
        some (false, { st with selected_child := (st.selected_child + n - 1) % n }, env) ∧
      menu_handle_input rt menu_input_down st env =
        some (false, { st with selected_child := (st.selected_child + 1) % n }, env) ∧
      ∀ s : Nat, s < 256 →
        menu_up_index s n = (s + n - 1) % n ∧ menu_down_index s n = (s + 1) % n :=
  menu_up_down_step rt st env f t ch n hmenu h1 hn hs

/-- C9: for the left and right inputs, with the selected entry resolved: if it
carries the value flag, its handler is called with that same input and `dirty`
becomes true, nothing else of the navigation state changing; if the value flag
is clear, as on every entry whose flags are `menu_flag_is_parent`, the result
is `false` with navigation state and environment unchanged. -/
theorem left_right_dispatch (rt : menu_entry_t) (st : menu_state_t) (env : env_t)
    (input : menu_input_t) (sel : menu_entry_t)
    (hin : input = menu_input_left ∨ input = menu_input_right)
    (hsel : get_selected_menu_item rt st = some sel) :
    (∀ handler : menu_handler_t, sel.flags &&& menu_flag_is_value ≠ 0 →
        sel.child_menu_handler = some handler →
        menu_handle_input rt input st env =
          some ((handler input env).1, { st with dirty := true }, (handler input env).2)) ∧
      (sel.flags &&& menu_flag_is_value = 0 →
        menu_handle_input rt input st env = some (false, st, env)) ∧
      (sel.flags = menu_flag_is_parent →
        menu_handle_input rt input st env = some (false, st, env)) := by
  obtain ⟨ch, hload⟩ := children_of_selected hsel
  have hclear : sel.flags &&& menu_flag_is_value = 0 →
      menu_handle_input rt input st env = some (false, st, env) := by
    intro h0
    rcases hin with rfl | rfl <;> simp [menu_handle_input, hload, hsel, h0]
  refine ⟨fun handler hval hh => ?_, hclear, fun hp => hclear (by rw [hp]; decide)⟩
  rcases hin with rfl | rfl <;> simp [menu_handle_input, hload, hsel, hval, hh]

/-! ## Examples for the single inputs -/

theorem enter_pushes_selected_witness :
    menu_handle_input (root 6) menu_input_enter { opened_state with selected_child := 1 }
        sample_env =
      some (false,
        { opened_state with
          menu_stack := ⟨[1, 0xFF, 0xFF, 0xFF, 0xFF, 0xFF, 0xFF, 0xFF], rfl⟩,
          selected_child := 0 },
        sample_env) :=
  enter_pushes_selected (root 6) { opened_state with selected_child := 1 } sample_env
    (.parent menu_flag_is_parent "Unicode Settings" (unicode_entries 6) 2) 0
    rfl (by decide) (by decide) (by decide)

theorem enter_saturates_witness :
    menu_handle_input (chain_menu 10) menu_input_enter deepest_state sample_env =
        some (false, deepest_state, sample_env) ∧
      menu_handle_input (root 6) menu_input_enter opened_state sample_env =
        some (false, opened_state, sample_env) :=
  ⟨enter_saturates (chain_menu 10) deepest_state sample_env (chain_menu 1) rfl
      (Or.inl (by decide)),
    enter_saturates (root 6) opened_state sample_env
      (.child menu_flag_is_value "Unicode mode" menu_handler_unicode .display_handler_unicode)
      rfl (Or.inr (by decide))⟩

theorem up_down_wrap_witness :
    menu_handle_input (root 6) menu_input_up opened_state sample_env =
        some (false, { opened_state with selected_child := 2 }, sample_env) ∧
      menu_handle_input (root 6) menu_input_down { opened_state with selected_child := 2 }
        sample_env = some (false, opened_state, sample_env) :=
  ⟨(up_down_wrap (root 6) opened_state sample_env menu_flag_is_parent "Configuration"
      (root_entries 6) 3 rfl (by decide) (by decide) (by decide)).1,
    (up_down_wrap (root 6) { opened_state with selected_child := 2 } sample_env
      menu_flag_is_parent "Configuration" (root_entries 6) 3 rfl (by decide) (by decide)
      (by decide)).2.1⟩

theorem left_right_dispatch_witness :
    menu_handle_input (root 6) menu_input_right opened_state sample_env =
        some (false, { opened_state with dirty := true },
          { sample_env with calls := [.unicode_input_mode_step] }) ∧
      menu_handle_input (root 6) menu_input_left { opened_state with selected_child := 1 }
        sample_env = some (false, { opened_state with selected_child := 1 }, sample_env) :=
  ⟨(left_right_dispatch (root 6) opened_state sample_env menu_input_right
      (.child menu_flag_is_value "Unicode mode" menu_handler_unicode .display_handler_unicode)
      (Or.inr rfl) rfl).1 menu_handler_unicode (by decide) rfl,
    (left_right_dispatch (root 6) { opened_state with selected_child := 1 } sample_env
      menu_input_left (.parent menu_flag_is_parent "Unicode Settings" (unicode_entries 6) 2)
      (Or.inl rfl) rfl).2.2 rfl⟩

/-! ## Reachable states of the configured tree -/

theorem nav_inv_init : nav_inv state := Or.inl ⟨rfl, rfl, rfl⟩

theorem current_menu_root (c : Nat) (d m : Bool) (s : Nat) (hs : s ≠ 0xFF) :
    get_current_menu (root c) ⟨d, m, s, empty_stack⟩ =
      some (.parent menu_flag_is_parent "Configuration" (root_entries c) 3) := by
  unfold get_current_menu
  rw [if_neg hs]
  rfl

theorem current_menu_unicode (c : Nat) (d m : Bool) (s : Nat) (hs : s ≠ 0xFF) :
    get_current_menu (root c) ⟨d, m, s, single_stack 1⟩ =
      some (.parent menu_flag_is_parent "Unicode Settings" (unicode_entries c) 2) := by
  unfold get_current_menu
  rw [if_neg hs]
  rfl

theorem current_menu_rgb (c : Nat) (d m : Bool) (s : Nat) (hs : s ≠ 0xFF) :
    get_current_menu (root c) ⟨d, m, s, single_stack 2⟩ =
      some (.parent menu_flag_is_parent "RGB Matrix Settings" rgb_matrix_entries 6) := by
  unfold get_current_menu
  rw [if_neg hs]
  rfl

theorem back_at_root (d m : Bool) (s : Nat) :
    menu_back_loop sizeof_menu_stack 0 ⟨d, m, s, empty_stack⟩ = ⟨d, false, 0xFF, empty_stack⟩ :=
  rfl

theorem back_in_submenu (d m : Bool) (s a : Nat) (ha : a ≠ 0xFF) :
    menu_back_loop sizeof_menu_stack 0 ⟨d, m, s, single_stack a⟩ = ⟨d, m, a, empty_stack⟩ := by
  have := menu_back_loop_pop ⟨d, m, s, single_stack a⟩ 0 ha 8 0 (by decide) (by decide)
    (fun j hj _ => by
      fin_cases j <;> first | exact absurd hj (by decide) | rfl)
  rw [sizeof_menu_stack, this]
  rfl

theorem up_down_nav_inv (c : Nat) (st : menu_state_t) (h : nav_inv st)
    (hin : st.is_in_menu = true) (env : env_t) :
    ∃ n, 0 < n ∧ nav_inv { st with selected_child := (st.selected_child + n - 1) % n } ∧
      nav_inv { st with selected_child := (st.selected_child + 1) % n } ∧
      menu_handle_input (root c) menu_input_up st env =
        some (false, { st with selected_child := (st.selected_child + n - 1) % n }, env) ∧
      menu_handle_input (root c) menu_input_down st env =
        some (false, { st with selected_child := (st.selected_child + 1) % n }, env) := by
  obtain ⟨d, m, s, v⟩ := st
  simp only at hin
  subst hin
  rcases h with ⟨hm, -, -⟩ | ⟨-, hv, hs⟩ | ⟨-, hv, hs⟩ | ⟨-, hv, hs⟩
  · exact absurd hm (by simp)
  · simp only at hv hs
    subst hv
    have hw := menu_up_down_step (root c) ⟨d, true, s, empty_stack⟩ env _ _ _ 3
      (current_menu_root c d true s (by omega)) (by decide) (by decide) (by simp only; omega)
    exact ⟨3, by decide, Or.inr (Or.inl ⟨rfl, rfl, Nat.mod_lt _ (by decide)⟩),
      Or.inr (Or.inl ⟨rfl, rfl, Nat.mod_lt _ (by decide)⟩), hw.1, hw.2.1⟩
  · simp only at hv hs
    subst hv
    have hw := menu_up_down_step (root c) ⟨d, true, s, single_stack 1⟩ env _ _ _ 2
      (current_menu_unicode c d true s (by omega)) (by decide) (by decide) (by simp only; omega)
    exact ⟨2, by decide, Or.inr (Or.inr (Or.inl ⟨rfl, rfl, Nat.mod_lt _ (by decide)⟩)),
      Or.inr (Or.inr (Or.inl ⟨rfl, rfl, Nat.mod_lt _ (by decide)⟩)), hw.1, hw.2.1⟩
  · simp only at hv hs
    subst hv
    have hw := menu_up_down_step (root c) ⟨d, true, s, single_stack 2⟩ env _ _ _ 6
      (current_menu_rgb c d true s (by omega)) (by decide) (by decide) (by simp only; omega)
    exact ⟨6, by decide, Or.inr (Or.inr (Or.inr ⟨rfl, rfl, Nat.mod_lt _ (by decide)⟩)),
      Or.inr (Or.inr (Or.inr ⟨rfl, rfl, Nat.mod_lt _ (by decide)⟩)), hw.1, hw.2.1⟩

theorem back_nav_inv (st : menu_state_t) (h : nav_inv st) (hin : st.is_in_menu = true) :
    nav_inv (menu_back_loop sizeof_menu_stack 0 st) := by
  obtain ⟨d, m, s, v⟩ := st
  simp only at hin
  subst hin
  rcases h with ⟨hm, -, -⟩ | ⟨-, hv, hs⟩ | ⟨-, hv, hs⟩ | ⟨-, hv, hs⟩
  · exact absurd hm (by simp)
  · simp only at hv
    subst hv
    rw [back_at_root]
    exact Or.inl ⟨rfl, rfl, rfl⟩
  · simp only at hv
    subst hv
    rw [back_in_submenu d true s 1 (by decide)]
    exact Or.inr (Or.inl ⟨rfl, rfl, (by decide : 1 < 3)⟩)
  · simp only at hv
    subst hv
    rw [back_in_submenu d true s 2 (by decide)]
    exact Or.inr (Or.inl ⟨rfl, rfl, (by decide : 2 < 3)⟩)

theorem nav_inv_children (c : Nat) (st : menu_state_t) (h : nav_inv st)
    (hin : st.is_in_menu = true) :
    ∃ ch, get_selected_menu_item_children (root c) st = some ch := by
  obtain ⟨d, m, s, v⟩ := st
  simp only at hin
  subst hin
  rcases h with ⟨hm, -, -⟩ | ⟨-, hv, hs⟩ | ⟨-, hv, hs⟩ | ⟨-, hv, hs⟩
  · exact absurd hm (by simp)
  · simp only at hv hs
    subst hv
    exact ⟨_, children_of_current_menu (current_menu_root c d true s (by omega))⟩
  · simp only at hv hs
    subst hv
    exact ⟨_, children_of_current_menu (current_menu_unicode c d true s (by omega))⟩
  · simp only at hv hs
    subst hv
    exact ⟨_, children_of_current_menu (current_menu_rgb c d true s (by omega))⟩

theorem handle_input_nav_inv (c : Nat) (st : menu_state_t) (h : nav_inv st)
    (hin : st.is_in_menu = true) (input : menu_input_t) (env : env_t) :
    ∃ st' env', menu_handle_input (root c) input st env = some (false, st', env') ∧
      nav_inv st' := by
  by_cases hup : input = menu_input_up
  · obtain ⟨n, -, h1, -, h3, -⟩ := up_down_nav_inv c st h hin env
    exact ⟨_, _, hup ▸ h3, h1⟩
  by_cases hdown : input = menu_input_down
  · obtain ⟨n, -, -, h2, -, h4⟩ := up_down_nav_inv c st h hin env
    exact ⟨_, _, hdown ▸ h4, h2⟩
  obtain ⟨ch, hload⟩ := nav_inv_children c st h hin
  by_cases hback : input = menu_input_back
  · subst hback
    exact ⟨_, env, back_of_children (root c) st env ch hload, back_nav_inv st h hin⟩
  clear hload
  obtain ⟨d, m, s, v⟩ := st
  simp only at hin
  subst hin
  rcases h with ⟨hm, -, -⟩ | ⟨-, hv, hs⟩ | ⟨-, hv, hs⟩ | ⟨-, hv, hs⟩
  · exact absurd hm (by simp)
  all_goals
    simp only at hv hs
    subst hv
    cases input
    all_goals
      first
      | exact absurd rfl hup
      | exact absurd rfl hdown
      | exact absurd rfl hback
      | skip
    all_goals
      interval_cases s <;>
      simp [menu_handle_input, get_selected_menu_item_children, menu_entry_t.parent_children,
        get_selected_menu_item, get_current_menu, get_current_menu_loop,
        sizeof_menu_stack, root, root_entries, unicode_entries, rgb_matrix_entries,
        menu_entry_t.parent_child, menu_entry_t.flags,
        menu_entry_t.child_menu_handler, empty_stack, single_stack, Vector.get, Vector.set,
        Vector.replicate, menu_enter_loop, menu_handler_unicode, menu_handler_unicode_typing,
        menu_handler_rgbenabled, menu_handler_rgbmode, menu_handler_rgbhue, menu_handler_rgbsat,
        menu_handler_rgbval, menu_handler_rgbspeed, nav_inv]

theorem process_record_nav_inv (k : keycodes_t) (c : Nat) (st : menu_state_t) (h : nav_inv st)
    (keycode : Nat) (pressed : Bool) (env : env_t) :
    ∃ r st' env', process_record_menu k (root c) keycode pressed st env = some (r, st', env') ∧
      nav_inv st' ∧ (st.is_in_menu = true → r = false) := by
  unfold process_record_menu
  split
  · rename_i hact
    refine ⟨false, _, env, rfl, ?_, fun _ => rfl⟩
    rcases h with ⟨-, hv, -⟩ | ⟨hm, -, -⟩ | ⟨hm, -, -⟩ | ⟨hm, -, -⟩
    · exact Or.inr (Or.inl ⟨rfl, hv, (by decide : 0 < 3)⟩)
    all_goals exact absurd hm (by simp [hact.2.2])
  · split
    · rename_i hin
      split
      · split
        · rename_i input _
          obtain ⟨st', env', he, hinv⟩ := handle_input_nav_inv c st h hin input env
          exact ⟨false, st', env', he, hinv, fun _ => rfl⟩
        · exact ⟨false, st, env, rfl, h, fun _ => rfl⟩
      · exact ⟨false, st, env, rfl, h, fun _ => rfl⟩
    · rename_i hin
      exact ⟨true, st, env, rfl, h, fun hin' => absurd hin' hin⟩

theorem reachable_nav_inv {k : keycodes_t} {c : Nat} {st : menu_state_t}
    (hr : reachable k c st) : nav_inv st := by
  induction hr with
  | init => exact nav_inv_init
  | step _ hstep ih =>
    obtain ⟨r, st', env', he, hinv, -⟩ := process_record_nav_inv k c _ ih _ _ _
    rw [he] at hstep
    cases hstep
    exact hinv

theorem opened_state_reachable : reachable sample_keycodes 6 opened_state :=
  @reachable.step sample_keycodes 6 state opened_state sample_env sample_env 0x7E40 true false
    reachable.init (by decide)

theorem leading_empty_stack :
    ∀ i j : Fin 8, i ≤ j → empty_stack.get i = 0xFF → empty_stack.get j = 0xFF := by decide

theorem leading_single_stack_1 :
    ∀ i j : Fin 8, i ≤ j → (single_stack 1).get i = 0xFF → (single_stack 1).get j = 0xFF := by
  decide

theorem leading_single_stack_2 :
    ∀ i j : Fin 8, i ≤ j → (single_stack 2).get i = 0xFF → (single_stack 2).get j = 0xFF := by
  decide

theorem nav_inv_wellformed (c : Nat) (st : menu_state_t) (h : nav_inv st)
    (hin : st.is_in_menu = true) :
    (∀ i j : Fin 8, i ≤ j → st.menu_stack.get i = 0xFF → st.menu_stack.get j = 0xFF) ∧
      ∃ f t ch n, get_current_menu (root c) st = some (.parent f t ch n) ∧
        f &&& menu_flag_is_parent ≠ 0 ∧ ch.length = n ∧ st.selected_child < n := by
  obtain ⟨d, m, s, v⟩ := st
  simp only at hin
  subst hin
  rcases h with ⟨hm, -, -⟩ | ⟨-, hv, hs⟩ | ⟨-, hv, hs⟩ | ⟨-, hv, hs⟩
  · exact absurd hm (by simp)
  · simp only at hv hs
    subst hv
    exact ⟨leading_empty_stack, _, _, _, _, current_menu_root c d true s (by omega), by decide,
      rfl, hs⟩
  · simp only at hv hs
    subst hv
    exact ⟨leading_single_stack_1, _, _, _, _, current_menu_unicode c d true s (by omega),
      by decide, rfl, hs⟩
  · simp only at hv hs
    subst hv
    exact ⟨leading_single_stack_2, _, _, _, _, current_menu_rgb c d true s (by omega),
      by decide, rfl, hs⟩

/-- C1: in every state reachable on the configured tree with the menu open,
the occupied slots of `menu_stack` are the leading ones, `get_current_menu`
resolves to an entry initialised as parent, carrying the parent flag and with
`child_count` the length of its child array, and `selected_child` is below
that `child_count`. -/
theorem reachable_in_menu_wellformed (k : keycodes_t) (c : Nat) (st : menu_state_t)
    (hr : reachable k c st) (hin : st.is_in_menu = true) :
    (∀ i j : Fin 8, i ≤ j → st.menu_stack.get i = 0xFF → st.menu_stack.get j = 0xFF) ∧
      ∃ f t ch n, get_current_menu (root c) st = some (.parent f t ch n) ∧
        f &&& menu_flag_is_parent ≠ 0 ∧ ch.length = n ∧ st.selected_child < n :=
  nav_inv_wellformed c st (reachable_nav_inv hr) hin

theorem reachable_in_menu_wellformed_witness :
    (∀ i j : Fin 8, i ≤ j → opened_state.menu_stack.get i = 0xFF →
        opened_state.menu_stack.get j = 0xFF) ∧
      ∃ f t ch n, get_current_menu (root 6) opened_state = some (.parent f t ch n) ∧
        f &&& menu_flag_is_parent ≠ 0 ∧ ch.length = n ∧ opened_state.selected_child < n :=
  reachable_in_menu_wellformed sample_keycodes 6 opened_state opened_state_reachable rfl

/-- C10: in every state reachable on the configured tree with the menu open,
`process_record_menu` returns `false` for every key code, pressed or released,
and `menu_handle_input` returns `false` for each of the seven inputs, in any
environment and without fault; each of the eight configured value handlers
returns `false` on the left and right inputs. -/
theorem in_menu_consumes_every_event (k : keycodes_t) (c : Nat) (st : menu_state_t)
    (hr : reachable k c st) (hin : st.is_in_menu = true) :
    (∀ (keycode : Nat) (pressed : Bool) (env : env_t), ∃ st' env',
        process_record_menu k (root c) keycode pressed st env = some (false, st', env')) ∧
      (∀ (input : menu_input_t) (env : env_t), ∃ st' env',
        menu_handle_input (root c) input st env = some (false, st', env')) ∧
      ∀ (input : menu_input_t) (env : env_t),
        input = menu_input_left ∨ input = menu_input_right →
        (menu_handler_unicode input env).1 = false ∧
        (menu_handler_unicode_typing c input env).1 = false ∧
        (menu_handler_rgbenabled input env).1 = false ∧
        (menu_handler_rgbmode input env).1 = false ∧
        (menu_handler_rgbhue input env).1 = false ∧
        (menu_handler_rgbsat input env).1 = false ∧
        (menu_handler_rgbval input env).1 = false ∧
        (menu_handler_rgbspeed input env).1 = false := by
  have h := reachable_nav_inv hr
  refine ⟨?_, ?_, ?_⟩
  · intro keycode pressed env
    obtain ⟨r, st', env', he, -, hfalse⟩ := process_record_nav_inv k c st h keycode pressed env
    exact ⟨st', env', by rw [he, hfalse hin]⟩
  · intro input env
    obtain ⟨st', env', he, -⟩ := handle_input_nav_inv c st h hin input env
    exact ⟨st', env', he⟩
  · rintro input env (rfl | rfl) <;> exact ⟨rfl, rfl, rfl, rfl, rfl, rfl, rfl, rfl⟩

theorem in_menu_consumes_every_event_witness :
    (∀ (keycode : Nat) (pressed : Bool) (env : env_t), ∃ st' env',
        process_record_menu sample_keycodes (root 6) keycode pressed opened_state env
          = some (false, st', env')) ∧
      ∀ (input : menu_input_t) (env : env_t), ∃ st' env',
        menu_handle_input (root 6) input opened_state env = some (false, st', env') :=
  have h := in_menu_consumes_every_event sample_keycodes 6 opened_state opened_state_reachable rfl
  ⟨h.1, h.2.1⟩

/-! ## Enter followed by back -/

theorem lowest_empty_slot (v : Vector Nat 8) (h : ∃ i : Fin 8, v.get i = 0xFF) :
    ∃ i : Fin 8, v.get i = 0xFF ∧ ∀ j : Fin 8, j < i → v.get j ≠ 0xFF := by
  classical
  have hex : ∃ n : Nat, ∃ hn : n < 8, v.get ⟨n, hn⟩ = 0xFF := by
    obtain ⟨i, hi⟩ := h
    exact ⟨i.val, i.isLt, hi⟩
  obtain ⟨hn, hget⟩ := Nat.find_spec hex
  refine ⟨⟨Nat.find hex, hn⟩, hget, fun j hj hj0 => ?_⟩
  exact Nat.find_min hex hj ⟨j.isLt, hj0⟩

theorem selected_ne_sentinel {rt : menu_entry_t} {st : menu_state_t} {sel : menu_entry_t}
    (hsel : get_selected_menu_item rt st = some sel) : st.selected_child ≠ 0xFF := by
  intro h
  simp [get_selected_menu_item, get_current_menu, h] at hsel

theorem enter_back_roundtrip (rt : menu_entry_t) (st : menu_state_t) (env : env_t)
    (sel : menu_entry_t) (i : Fin 8) (hsel : get_selected_menu_item rt st = some sel)
    (hpar : sel.flags &&& menu_flag_is_parent ≠ 0)
    (hlead : ∀ i j : Fin 8, i ≤ j → st.menu_stack.get i = 0xFF → st.menu_stack.get j = 0xFF)
    (hi : st.menu_stack.get i = 0xFF)
    (hlow : ∀ j : Fin 8, j < i → st.menu_stack.get j ≠ 0xFF)
    (hentered : ∃ ch, get_selected_menu_item_children rt
      { st with menu_stack := st.menu_stack.set i st.selected_child, selected_child := 0 }
      = some ch) :
    ∃ st1, menu_handle_input rt menu_input_enter st env = some (false, st1, env) ∧
      menu_handle_input rt menu_input_back st1 env = some (false, st, env) := by
  obtain ⟨ch1, hload1⟩ := hentered
  refine ⟨_, menu_enter_push rt st env sel i hsel hpar hi hlow, ?_⟩
  rw [back_of_children rt _ env ch1 hload1]
  have hs := selected_ne_sentinel hsel
  have hocc : (st.menu_stack.set i st.selected_child).get i ≠ 0xFF := by
    rw [Vector.get_set_same]
    exact hs
  have hpop := menu_back_loop_pop
    { st with menu_stack := st.menu_stack.set i st.selected_child, selected_child := 0 } i hocc
    8 0 (by omega) (by omega)
    (fun j hij _ => by
      show (st.menu_stack.set i st.selected_child).get j = 0xFF
      rw [Vector.get_set_of_ne (ne_of_lt hij)]
      exact hlead i j (le_of_lt hij) hi)
  simp only [sizeof_menu_stack, hpop, Vector.get_set_same]
  have hstack : (st.menu_stack.set i st.selected_child).set i 0xFF = st.menu_stack := by
    apply Vector.ext
    intro j
    by_cases hji : i = j
    · subst hji
      rw [Vector.get_set_same, hi]
    · rw [Vector.get_set_of_ne hji, Vector.get_set_of_ne hji]
  rw [hstack]

/-- C6, as stated, fails: the state right after opening the menu is reachable
and in the menu, its stack is empty and it selects the value entry "Unicode
mode"; there the enter input changes nothing and the back input then closes
the menu, leaving `selected_child` at 0xFF instead of 0. -/
theorem enter_back_on_value_entry_exits :
    reachable sample_keycodes 6 opened_state ∧ opened_state.is_in_menu = true ∧
      (∃ i : Fin 8, opened_state.menu_stack.get i = 0xFF) ∧
      menu_handle_input (root 6) menu_input_enter opened_state sample_env
        = some (false, opened_state, sample_env) ∧
      menu_handle_input (root 6) menu_input_back opened_state sample_env
        = some (false, state, sample_env) ∧
      state.selected_child ≠ opened_state.selected_child ∧ state.is_in_menu = false :=
  ⟨opened_state_reachable, rfl, ⟨0, rfl⟩, by decide, by decide, by decide, rfl⟩

/-- C6, amended: in every state reachable on the configured tree that is in
the menu, with a stack that is not full and a selected entry carrying the
parent flag, the enter input followed at once by the back input returns
`false` twice and restores the whole navigation state, `selected_child` and
`menu_stack` included; in between `selected_child` is 0. -/
theorem enter_back_restores_on_parent (k : keycodes_t) (c : Nat) (st : menu_state_t)
    (env : env_t) (sel : menu_entry_t)
    (hr : reachable k c st) (hin : st.is_in_menu = true)
    (hfree : ∃ i : Fin 8, st.menu_stack.get i = 0xFF)
    (hsel : get_selected_menu_item (root c) st = some sel)
    (hpar : sel.flags &&& menu_flag_is_parent ≠ 0) :
    ∃ st1, menu_handle_input (root c) menu_input_enter st env = some (false, st1, env) ∧
      menu_handle_input (root c) menu_input_back st1 env = some (false, st, env) ∧
      st1.selected_child = 0 :=
  have hlead := (nav_inv_wellformed c st (reachable_nav_inv hr) hin).1
  have ⟨i, hi, hlow⟩ := lowest_empty_slot st.menu_stack hfree
  have hentered : ∃ ch, get_selected_menu_item_children (root c)
      { st with menu_stack := st.menu_stack.set i st.selected_child, selected_child := 0 }
      = some ch := by
    obtain ⟨st', env', he, hinv⟩ :=
      handle_input_nav_inv c st (reachable_nav_inv hr) hin menu_input_enter env
    rw [menu_enter_push (root c) st env sel i hsel hpar hi hlow] at he
    cases he
    exact nav_inv_children c _ hinv hin
  have ⟨st1, h1, h2⟩ :=
    enter_back_roundtrip (root c) st env sel i hsel hpar hlead hi hlow hentered
  ⟨st1, h1, h2, by
    rw [menu_enter_push (root c) st env sel i hsel hpar hi hlow] at h1
    cases h1
    rfl⟩

theorem unicode_settings_selected_reachable :
    reachable sample_keycodes 6 { opened_state with selected_child := 1 } :=
  @reachable.step sample_keycodes 6 opened_state { opened_state with selected_child := 1 }
    sample_env sample_env 0x51 true false opened_state_reachable (by decide)

theorem enter_back_restores_on_parent_witness :
    (∃ st1, menu_handle_input (root 6) menu_input_enter { opened_state with selected_child := 1 }
          sample_env = some (false, st1, sample_env) ∧
        menu_handle_input (root 6) menu_input_back st1 sample_env
          = some (false, { opened_state with selected_child := 1 }, sample_env) ∧
        st1.selected_child = 0) ∧
      run_inputs (root 6) [menu_input_enter] { opened_state with selected_child := 1 } sample_env
        = some ({ opened_state with selected_child := 0, menu_stack := single_stack 1 },
            sample_env) ∧
      run_inputs (root 6) [menu_input_enter, menu_input_up, menu_input_back]
          { opened_state with selected_child := 1 } sample_env
        = some ({ opened_state with selected_child := 1 }, sample_env) :=
  ⟨enter_back_restores_on_parent sample_keycodes 6 { opened_state with selected_child := 1 }
      sample_env (.parent menu_flag_is_parent "Unicode Settings" (unicode_entries 6) 2)
      unicode_settings_selected_reachable rfl ⟨0, rfl⟩ rfl (by decide),
    by decide, by decide⟩

/-! ## Runs of up and down inputs -/

theorem get_current_menu_loop_stack (st st' : menu_state_t)
    (h : st.menu_stack = st'.menu_stack) (fuel : Nat) :
    ∀ (i : Nat) (e : menu_entry_t),
      get_current_menu_loop st fuel i e = get_current_menu_loop st' fuel i e := by
  induction fuel with
  | zero => intro i e; rfl
  | succ fuel ih =>
    intro i e
    simp only [get_current_menu_loop, h, ih]

theorem get_current_menu_reselect (rt : menu_entry_t) (st : menu_state_t) (s : Nat)
    (hs : st.selected_child ≠ 0xFF) (hs' : s ≠ 0xFF) :
    get_current_menu rt { st with selected_child := s } = get_current_menu rt st := by
  unfold get_current_menu
  rw [if_neg hs, if_neg hs']
  exact get_current_menu_loop_stack _ _ rfl _ _ _

theorem run_down_inputs (rt : menu_entry_t) (st : menu_state_t) (env : env_t)
    (f : Nat) (t : String) (ch : List menu_entry_t) (n : Nat)
    (hmenu : get_current_menu rt st = some (.parent f t ch n))
    (h1 : 1 ≤ n) (hn : n ≤ 255) (hst : st.selected_child < n) :
    ∀ (k s : Nat), s < n →
      run_inputs rt (List.replicate k menu_input_down) { st with selected_child := s } env =
        some ({ st with selected_child := (s + k) % n }, env)
  | 0, s, hs => by
    rw [Nat.add_zero, Nat.mod_eq_of_lt hs]
    rfl
  | k + 1, s, hs => by
    have hcur : get_current_menu rt { st with selected_child := s } = some (.parent f t ch n) := by
      rw [get_current_menu_reselect rt st s (by omega) (by omega), hmenu]
    have hstep := (menu_up_down_step rt { st with selected_child := s } env f t ch n hcur h1 hn
      (by show s < 256; omega)).2.1
    rw [List.replicate_succ, run_inputs, hstep]
    have ih := run_down_inputs rt st env f t ch n hmenu h1 hn hst k ((s + 1) % n)
      (Nat.mod_lt _ (by omega))
    simp only at ih ⊢
    rw [ih, Nat.mod_add_mod, show s + 1 + k = s + (k + 1) by omega]

theorem run_up_inputs (rt : menu_entry_t) (st : menu_state_t) (env : env_t)
    (f : Nat) (t : String) (ch : List menu_entry_t) (n : Nat)
    (hmenu : get_current_menu rt st = some (.parent f t ch n))
    (h1 : 1 ≤ n) (hn : n ≤ 255) (hst : st.selected_child < n) :
    ∀ (k s : Nat), s < n →
      run_inputs rt (List.replicate k menu_input_up) { st with selected_child := s } env =
        some ({ st with selected_child := (s + k * (n - 1)) % n }, env)
  | 0, s, hs => by
    rw [Nat.zero_mul, Nat.add_zero, Nat.mod_eq_of_lt hs]
    rfl
  | k + 1, s, hs => by
    have hcur : get_current_menu rt { st with selected_child := s } = some (.parent f t ch n) := by
      rw [get_current_menu_reselect rt st s (by omega) (by omega), hmenu]
    have hstep := (menu_up_down_step rt { st with selected_child := s } env f t ch n hcur h1 hn
      (by show s < 256; omega)).1
    rw [List.replicate_succ, run_inputs, hstep]
    have ih := run_up_inputs rt st env f t ch n hmenu h1 hn hst k ((s + n - 1) % n)
      (Nat.mod_lt _ (by omega))
    simp only at ih ⊢
    have harith : s + n - 1 + k * (n - 1) = s + (k + 1) * (n - 1) := by
      rw [Nat.succ_mul]
      omega
    rw [ih, Nat.mod_add_mod, harith]

theorem run_up_down_in_range (rt : menu_entry_t) (st : menu_state_t) (env : env_t)
    (f : Nat) (t : String) (ch : List menu_entry_t) (n : Nat)
    (hmenu : get_current_menu rt st = some (.parent f t ch n))
    (h1 : 1 ≤ n) (hn : n ≤ 255) (hst : st.selected_child < n) :
    ∀ (inputs : List menu_input_t) (s : Nat), s < n →
      (∀ x ∈ inputs, x = menu_input_up ∨ x = menu_input_down) →
      ∃ s', s' < n ∧
        run_inputs rt inputs { st with selected_child := s } env =
          some ({ st with selected_child := s' }, env)
  | [], s, hs, _ => ⟨s, hs, rfl⟩
  | x :: rest, s, hs, hx => by
    have hcur : get_current_menu rt { st with selected_child := s } = some (.parent f t ch n) := by
      rw [get_current_menu_reselect rt st s (by omega) (by omega), hmenu]
    have hw := menu_up_down_step rt { st with selected_child := s } env f t ch n hcur h1 hn
      (by show s < 256; omega)
    have hrest : ∀ y ∈ rest, y = menu_input_up ∨ y = menu_input_down :=
      fun y hy => hx y (List.mem_cons_of_mem _ hy)
    rcases hx x (List.mem_cons_self _ _) with rfl | rfl
    · obtain ⟨s', hs', hrun⟩ := run_up_down_in_range rt st env f t ch n hmenu h1 hn hst rest
        ((s + n - 1) % n) (Nat.mod_lt _ (by omega)) hrest
      exact ⟨s', hs', by rw [run_inputs, hw.1]; exact hrun⟩
    · obtain ⟨s', hs', hrun⟩ := run_up_down_in_range rt st env f t ch n hmenu h1 hn hst rest
        ((s + 1) % n) (Nat.mod_lt _ (by omega)) hrest
      exact ⟨s', hs', by rw [run_inputs, hw.2.1]; exact hrun⟩

theorem wide_level_up_stuck :
    ∀ k : Nat, run_inputs (wide_menu 257) (List.replicate k menu_input_up) opened_state
      sample_env = some (opened_state, sample_env)
  | 0 => rfl
  | k + 1 => by
    have hstep : menu_handle_input (wide_menu 257) menu_input_up opened_state sample_env =
        some (false, opened_state, sample_env) := by decide
    rw [List.replicate_succ, run_inputs, hstep]
    exact wide_level_up_stuck k

/-- C8, as stated, fails for a level with more than 256 children: on a level
with 257 children and `selected_child = 1`, which is in range, the first up
input selects child 0 and every further one computes 256, stored as 0 in the
8-bit field; 257 consecutive up inputs therefore run without fault and leave
`selected_child` at 0 instead of 1. -/
theorem up_cycle_breaks_on_wide_level :
    get_current_menu (wide_menu 257) { opened_state with selected_child := 1 } =
        some (wide_menu 257) ∧
      (wide_menu 257).parent_child_count = some 257 ∧
      ({ opened_state with selected_child := 1 } : menu_state_t).selected_child < 257 ∧
      run_inputs (wide_menu 257) (List.replicate 257 menu_input_up)
          { opened_state with selected_child := 1 } sample_env =
        some ({ opened_state with selected_child := 0 }, sample_env) ∧
      ({ opened_state with selected_child := 0 } : menu_state_t).selected_child ≠
        ({ opened_state with selected_child := 1 } : menu_state_t).selected_child := by
  refine ⟨rfl, rfl, by decide, ?_, by decide⟩
  have hfirst : menu_handle_input (wide_menu 257) menu_input_up
      { opened_state with selected_child := 1 } sample_env =
      some (false, opened_state, sample_env) := by decide
  rw [show (257 : Nat) = 256 + 1 from rfl, List.replicate_succ, run_inputs, hfirst]
  exact wide_level_up_stuck 256

/-- C8, amended: on a current menu with `child_count = n`, `1 ≤ n ≤ 255`, and
`selected_child < n`, every finite sequence of up and down inputs runs without
fault, changes nothing but `selected_child` and leaves it below `n`; `n`
consecutive down inputs, and `n` consecutive up inputs, restore the state. -/
theorem up_down_in_range_and_periodic (rt : menu_entry_t) (st : menu_state_t) (env : env_t)
    (f : Nat) (t : String) (ch : List menu_entry_t) (n : Nat)
    (hmenu : get_current_menu rt st = some (.parent f t ch n))
    (h1 : 1 ≤ n) (hn : n ≤ 255) (hst : st.selected_child < n) :
    (∀ inputs : List menu_input_t,
        (∀ x ∈ inputs, x = menu_input_up ∨ x = menu_input_down) →
        ∃ s', s' < n ∧
          run_inputs rt inputs st env = some ({ st with selected_child := s' }, env)) ∧
      run_inputs rt (List.replicate n menu_input_down) st env = some (st, env) ∧
      run_inputs rt (List.replicate n menu_input_up) st env = some (st, env) := by
  refine ⟨fun inputs hx =>
      run_up_down_in_range rt st env f t ch n hmenu h1 hn hst inputs st.selected_child hst hx,
    ?_, ?_⟩
  · have h := run_down_inputs rt st env f t ch n hmenu h1 hn hst n st.selected_child hst
    rw [Nat.add_mod_right, Nat.mod_eq_of_lt hst] at h
    exact h
  · have h := run_up_inputs rt st env f t ch n hmenu h1 hn hst n st.selected_child hst
    rw [Nat.add_mul_mod_self_left, Nat.mod_eq_of_lt hst] at h
    exact h

theorem up_down_in_range_and_periodic_witness :
    run_inputs (root 6) [menu_input_down, menu_input_down, menu_input_down] opened_state
        sample_env = some (opened_state, sample_env) ∧
      run_inputs (root 6) [menu_input_up, menu_input_up, menu_input_up] opened_state
        sample_env = some (opened_state, sample_env) ∧
      run_inputs (root 6) [menu_input_down, menu_input_down, menu_input_down, menu_input_up]
        opened_state sample_env = some ({ opened_state with selected_child := 2 }, sample_env) :=
  have h := up_down_in_range_and_periodic (root 6) opened_state sample_env menu_flag_is_parent
    "Configuration" (root_entries 6) 3 rfl (by decide) (by decide) (by decide)
  ⟨h.2.1, h.2.2, by decide⟩

/-! ## Opening the menu and the activation key -/

theorem nav_inv_closed_stack {st : menu_state_t} (h : nav_inv st)
    (hout : st.is_in_menu = false) : st.menu_stack = empty_stack ∧ st.selected_child = 0xFF := by
  rcases h with ⟨-, hv, hs⟩ | ⟨hm, -, -⟩ | ⟨hm, -, -⟩ | ⟨hm, -, -⟩
  · exact ⟨hv, hs⟩
  all_goals exact absurd hm (by simp [hout])

theorem empty_stack_get (i : Fin 8) : empty_stack.get i = 0xFF := by
  revert i
  decide

/-- C11: in every reachable state with the menu closed, all eight slots of
`menu_stack` are already 0xFF, and a pressed `DISPLAY_MENU` handled by
`process_record_menu` returns `false` and leaves `is_in_menu` true,
`selected_child` 0 and the stack, which it does not write, entirely empty. -/
theorem activation_opens_root_view (k : keycodes_t) (c : Nat) (st : menu_state_t)
    (env : env_t) (hr : reachable k c st) (hout : st.is_in_menu = false) :
    (∀ i : Fin 8, st.menu_stack.get i = 0xFF) ∧
      ∃ st', process_record_menu k (root c) k.DISPLAY_MENU true st env = some (false, st', env) ∧
        st'.is_in_menu = true ∧ st'.selected_child = 0 ∧ st'.menu_stack = st.menu_stack ∧
        ∀ i : Fin 8, st'.menu_stack.get i = 0xFF := by
  have hv := (nav_inv_closed_stack (reachable_nav_inv hr) hout).1
  have hall : ∀ i : Fin 8, st.menu_stack.get i = 0xFF := fun i => by rw [hv, empty_stack_get]
  refine ⟨hall, { st with is_in_menu := true, selected_child := 0 }, ?_, rfl, rfl, rfl, hall⟩
  simp [process_record_menu, hout]

theorem activation_opens_root_view_witness :
    (∀ i : Fin 8, state.menu_stack.get i = 0xFF) ∧
      ∃ st', process_record_menu sample_keycodes (root 6) sample_keycodes.DISPLAY_MENU true state
          sample_env = some (false, st', sample_env) ∧
        st'.is_in_menu = true ∧ st'.selected_child = 0 ∧ st'.menu_stack = state.menu_stack ∧
        ∀ i : Fin 8, st'.menu_stack.get i = 0xFF :=
  activation_opens_root_view sample_keycodes 6 state sample_env reachable.init rfl

theorem activation_key_in_menu (k : keycodes_t) (rt : menu_entry_t) (st : menu_state_t)
    (env : env_t) (hin : st.is_in_menu = true) :
    process_record_menu k rt k.DISPLAY_MENU true st env =
        menu_handle_input rt menu_input_exit st env ∧
      process_record_menu k rt k.DISPLAY_MENU false st env = some (false, st, env) := by
  constructor <;> simp [process_record_menu, keycode_input, hin]

/-- C12, as stated, fails: in the reachable state right after the menu is
opened, a pressed `DISPLAY_MENU` is handled as the exit input; `is_in_menu`
goes from true to false and `selected_child` from 0 to 0xFF. -/
theorem activation_key_in_menu_exits :
    reachable sample_keycodes 6 opened_state ∧ opened_state.is_in_menu = true ∧
      process_record_menu sample_keycodes (root 6) sample_keycodes.DISPLAY_MENU true
        opened_state sample_env = some (false, state, sample_env) ∧
      state.is_in_menu ≠ opened_state.is_in_menu ∧
      state.selected_child ≠ opened_state.selected_child :=
  ⟨opened_state_reachable, rfl, by decide, by decide, by decide⟩

/-- C12, amended: in every reachable state with the menu open, a pressed
`DISPLAY_MENU` does not run the activation again; it is handled as the exit
input: `false` is returned, `is_in_menu` becomes false, all eight slots of
`menu_stack` 0xFF and `selected_child` 0xFF. A released `DISPLAY_MENU`
returns `false` and changes nothing. -/
theorem activation_key_in_menu_is_exit (k : keycodes_t) (c : Nat) (st : menu_state_t)
    (env : env_t) (hr : reachable k c st) (hin : st.is_in_menu = true) :
    (∃ st', process_record_menu k (root c) k.DISPLAY_MENU true st env = some (false, st', env) ∧
        process_record_menu k (root c) k.DISPLAY_MENU true st env =
          menu_handle_input (root c) menu_input_exit st env ∧
        st'.is_in_menu = false ∧ (∀ i : Fin 8, st'.menu_stack.get i = 0xFF) ∧
        st'.selected_child = 0xFF) ∧
      process_record_menu k (root c) k.DISPLAY_MENU false st env = some (false, st, env) := by
  obtain ⟨hpress, hrelease⟩ := activation_key_in_menu k (root c) st env hin
  obtain ⟨ch, hload⟩ := nav_inv_children c st (reachable_nav_inv hr) hin
  refine ⟨⟨_, hpress.trans (exit_of_children (root c) st env ch hload), hpress, rfl,
    fun i => Vector.get_replicate _ i, rfl⟩, hrelease⟩

theorem activation_key_in_menu_is_exit_witness :
    (∃ st', process_record_menu sample_keycodes (root 6) sample_keycodes.DISPLAY_MENU true
          opened_state sample_env = some (false, st', sample_env) ∧
        process_record_menu sample_keycodes (root 6) sample_keycodes.DISPLAY_MENU true
          opened_state sample_env =
          menu_handle_input (root 6) menu_input_exit opened_state sample_env ∧
        st'.is_in_menu = false ∧ (∀ i : Fin 8, st'.menu_stack.get i = 0xFF) ∧
        st'.selected_child = 0xFF) ∧
      process_record_menu sample_keycodes (root 6) sample_keycodes.DISPLAY_MENU false
        opened_state sample_env = some (false, opened_state, sample_env) :=
  activation_key_in_menu_is_exit sample_keycodes 6 opened_state sample_env
    opened_state_reachable rfl

/-! ## Key aliases -/

theorem keycode_input_back (k : keycodes_t) (keycode : Nat)
    (h : keycode_input k keycode = some menu_input_back) : keycode = k.KC_ESC := by
  unfold keycode_input at h
  split_ifs at h <;> first | assumption | simp at h

/-- C13, as stated, fails for the back input: whatever the key codes are, two
different key codes never both stand for `menu_input_back`; only `KC_ESC`
does. -/
theorem back_has_no_alias :
    ¬ ∃ a b : Nat, a ≠ b ∧ keycode_input sample_keycodes a = some menu_input_back ∧
      keycode_input sample_keycodes b = some menu_input_back := by
  rintro ⟨a, b, hne, ha, hb⟩
  exact hne ((keycode_input_back _ a ha).trans (keycode_input_back _ b hb).symm)

/-- C13, amended: with pairwise distinct case labels, each of the five inputs
enter, up, down, left and right is produced by at least two distinct key
codes (enter by three: `KC_SPACE`, `KC_ENTER`, `KC_RETURN`), while the back
input is produced by `KC_ESC` and by no other key code. -/
theorem navigation_key_aliases (k : keycodes_t) (hk : k.distinct) :
    (∀ input : menu_input_t,
        input = menu_input_enter ∨ input = menu_input_up ∨ input = menu_input_down ∨
          input = menu_input_left ∨ input = menu_input_right →
        ∃ a b : Nat, a ≠ b ∧ keycode_input k a = some input ∧ keycode_input k b = some input) ∧
      keycode_input k k.KC_SPACE = some menu_input_enter ∧
      keycode_input k k.KC_ENTER = some menu_input_enter ∧
      keycode_input k k.KC_RETURN = some menu_input_enter ∧
      keycode_input k k.KC_UP = some menu_input_up ∧
      keycode_input k k.KC_W = some menu_input_up ∧
      keycode_input k k.KC_DOWN = some menu_input_down ∧
      keycode_input k k.KC_S = some menu_input_down ∧
      keycode_input k k.KC_LEFT = some menu_input_left ∧
      keycode_input k k.KC_A = some menu_input_left ∧
      keycode_input k k.KC_RIGHT = some menu_input_right ∧
      keycode_input k k.KC_D = some menu_input_right ∧
      keycode_input k k.KC_ESC = some menu_input_back ∧
      ∀ keycode : Nat, keycode_input k keycode = some menu_input_back → keycode = k.KC_ESC := by
  simp only [keycodes_t.distinct, List.nodup_cons, List.mem_cons, List.mem_singleton,
    List.not_mem_nil, not_or, List.nodup_nil, or_false, and_true, not_false_eq_true] at hk
  obtain ⟨⟨d1, d2, d3, d4, d5, d6, d7, d8, d9, d10, d11, d12⟩,
    ⟨c1, c2, c3, c4, c5, c6, c7, c8, c9, c10, c11⟩, ⟨s1, s2, s3, s4, s5, s6, s7, s8, s9, s10⟩,
    ⟨n1, n2, n3, n4, n5, n6, n7, n8, n9⟩, ⟨r1, r2, r3, r4, r5, r6, r7, r8⟩,
    ⟨u1, u2, u3, u4, u5, u6, u7⟩, ⟨w1, w2, w3, w4, w5, w6⟩, ⟨o1, o2, o3, o4, o5⟩,
    ⟨t1, t2, t3, t4⟩, ⟨l1, l2, l3⟩, ⟨a1, a2⟩, g1⟩ := hk
  have e1 : keycode_input k k.KC_SPACE = some menu_input_enter := by
    simp [keycode_input, Ne.symm d2, Ne.symm c1]
  have e2 : keycode_input k k.KC_ENTER = some menu_input_enter := by
    simp [keycode_input, Ne.symm d3, Ne.symm c2]
  have e3 : keycode_input k k.KC_RETURN = some menu_input_enter := by
    simp [keycode_input, Ne.symm d4, Ne.symm c3]
  have e4 : keycode_input k k.KC_UP = some menu_input_up := by
    simp [keycode_input, Ne.symm d5, Ne.symm c4, Ne.symm s3, Ne.symm n2, Ne.symm r1]
  have e5 : keycode_input k k.KC_W = some menu_input_up := by
    simp [keycode_input, Ne.symm d6, Ne.symm c5, Ne.symm s4, Ne.symm n3, Ne.symm r2]
  have e6 : keycode_input k k.KC_DOWN = some menu_input_down := by
    simp [keycode_input, Ne.symm d7, Ne.symm c6, Ne.symm s5, Ne.symm n4, Ne.symm r3, Ne.symm u2,
      Ne.symm w1]
  have e7 : keycode_input k k.KC_S = some menu_input_down := by
    simp [keycode_input, Ne.symm d8, Ne.symm c7, Ne.symm s6, Ne.symm n5, Ne.symm r4, Ne.symm u3,
      Ne.symm w2]
  have e8 : keycode_input k k.KC_LEFT = some menu_input_left := by
    simp [keycode_input, Ne.symm d9, Ne.symm c8, Ne.symm s7, Ne.symm n6, Ne.symm r5, Ne.symm u4,
      Ne.symm w3, Ne.symm o2, Ne.symm t1]
  have e9 : keycode_input k k.KC_A = some menu_input_left := by
    simp [keycode_input, Ne.symm d10, Ne.symm c9, Ne.symm s8, Ne.symm n7, Ne.symm r6, Ne.symm
      u5, Ne.symm w4, Ne.symm o3, Ne.symm t2]
  have e10 : keycode_input k k.KC_RIGHT = some menu_input_right := by
    simp [keycode_input, Ne.symm d11, Ne.symm c10, Ne.symm s9, Ne.symm n8, Ne.symm r7, Ne.symm
      u6, Ne.symm w5, Ne.symm o4, Ne.symm t3, Ne.symm l2, Ne.symm a1]
  have e11 : keycode_input k k.KC_D = some menu_input_right := by
    simp [keycode_input, Ne.symm d12, Ne.symm c11, Ne.symm s10, Ne.symm n9, Ne.symm r8, Ne.symm
      u7, Ne.symm w6, Ne.symm o5, Ne.symm t4, Ne.symm l3, Ne.symm a2]
  have e12 : keycode_input k k.KC_ESC = some menu_input_back := by
    simp [keycode_input, Ne.symm d1]
  refine ⟨?_, e1, e2, e3, e4, e5, e6, e7, e8, e9, e10, e11, e12, keycode_input_back k⟩
  rintro input (rfl | rfl | rfl | rfl | rfl)
  · exact ⟨_, _, s1, e1, e2⟩
  · exact ⟨_, _, u1, e4, e5⟩
  · exact ⟨_, _, o1, e6, e7⟩
  · exact ⟨_, _, l1, e8, e9⟩
  · exact ⟨_, _, g1, e10, e11⟩

theorem navigation_key_aliases_witness :
    keycode_input sample_keycodes 0x52 = some menu_input_up ∧
      keycode_input sample_keycodes 0x1A = some menu_input_up ∧
      ∀ keycode : Nat, keycode_input sample_keycodes keycode = some menu_input_back →
        keycode = 0x29 :=
  have h := navigation_key_aliases sample_keycodes (by unfold keycodes_t.distinct; decide)
  ⟨h.2.2.2.2.1, h.2.2.2.2.2.1, h.2.2.2.2.2.2.2.2.2.2.2.2.2⟩

/-! ## The overlay: rows -/

theorem get_current_menu_dirty (rt : menu_entry_t) (st : menu_state_t) (d : Bool) :
    get_current_menu rt { st with dirty := d } = get_current_menu rt st := by
  unfold get_current_menu
  split
  · rfl
  · exact get_current_menu_loop_stack _ _ rfl _ _ _

theorem render_menu_row_eq (p : painter_t) (u : unicode_enums_t) (fw : firmware_t)
    (env : env_t) (width hue selected_child i : Nat) (child : menu_entry_t)
    (hwf : child.wellformed) :
    render_menu_row p u fw env width hue selected_child i
        (100 + (p.line_height .font_oled : Int) + i * ((p.line_height .font_oled : Int) + 9))
        child =
      some (menu_overlay_row_reference p u fw env width hue selected_child i child) := by
  cases child with
  | parent f t ch n =>
    simp only [menu_entry_t.wellformed] at hwf
    subst hwf
    simp [render_menu_row, menu_overlay_row_reference, menu_entry_t.flags,
      menu_entry_t.text]
  | child f t h d =>
    simp only [menu_entry_t.wellformed] at hwf
    subst hwf
    simp [render_menu_row, menu_overlay_row_reference, menu_entry_t.flags,
      menu_entry_t.text, menu_entry_t.child_display_handler]

theorem render_menu_rows_eq (p : painter_t) (u : unicode_enums_t) (fw : firmware_t)
    (env : env_t) (width hue selected_child : Nat) (children : List menu_entry_t)
    (hwf : ∀ ch ∈ children, ch.wellformed) :
    ∀ (suf pre : List menu_entry_t) (fuel : Nat), children = pre ++ suf → suf.length ≤ fuel →
      render_menu_rows p u fw env width hue selected_child children children.length fuel
          pre.length
          (100 + (p.line_height .font_oled : Int) +
            pre.length * ((p.line_height .font_oled : Int) + 9)) =
        some (menu_overlay_rows_reference p u fw env width hue selected_child pre.length suf)
  | [], pre, fuel, hsplit, _ => by
    have hlen : children.length = pre.length := by rw [hsplit]; simp
    cases fuel with
    | zero => rfl
    | succ m =>
      rw [render_menu_rows, if_neg (by omega)]
      rfl
  | ch :: rest, pre, 0, _, hfuel => by simp at hfuel
  | ch :: rest, pre, fuel + 1, hsplit, hfuel => by
    have hlen : pre.length < children.length := by rw [hsplit]; simp
    have hget : children.get? pre.length = some ch := by
      rw [hsplit, List.get?_eq_getElem?, List.getElem?_append_right (le_refl _)]
      simp
    have hch : ch.wellformed := hwf ch (by rw [hsplit]; simp)
    have ih := render_menu_rows_eq p u fw env width hue selected_child children hwf rest
      (pre ++ [ch]) fuel (by rw [hsplit]; simp) (by simpa using hfuel)
    have hy : (100 : Int) + (p.line_height .font_oled : Int) +
        ((pre ++ [ch]).length : Nat) * ((p.line_height .font_oled : Int) + 9) =
        100 + (p.line_height .font_oled : Int) +
          pre.length * ((p.line_height .font_oled : Int) + 9) +
          (p.line_height .font_oled : Int) + 4 + 5 := by
      rw [List.length_append, List.length_singleton]
      push_cast
      ring
    rw [hy, List.length_append, List.length_singleton] at ih
    rw [render_menu_rows, if_pos hlen, hget]
    simp only [render_menu_row_eq p u fw env width hue selected_child pre.length ch hch, ih]
    rfl

theorem render_menu_redraw (p : painter_t) (u : unicode_enums_t) (fw : firmware_t)
    (rt : menu_entry_t) (width height : Nat) (st last : menu_state_t) (env : env_t)
    (f : Nat) (title : String) (children : List menu_entry_t) (n : Nat)
    (hin : st.is_in_menu = true) (hne : last ≠ st)
    (hmenu : get_current_menu rt st = some (.parent f title children n))
    (hlen : children.length = n) (hwf : ∀ ch ∈ children, ch.wellformed) :
    render_menu p u fw rt width height st last env =
      some (true, { st with dirty := false }, { st with dirty := false },
        .qp_rect 0 0 (width - 1) (height - 1) 0 0 0 true ::
          menu_overlay_reference p u fw env width fw.rgb_matrix_get_hue st.selected_child title
            children) := by
  subst hlen
  have hrows := render_menu_rows_eq p u fw env width fw.rgb_matrix_get_hue st.selected_child
    children hwf children [] children.length rfl (le_refl _)
  simp only [List.length_nil, Nat.cast_zero, zero_mul, add_zero] at hrows
  have h3 : (80 : Int) + 8 + (p.line_height .font_oled : Int) + 4 =
      92 + (p.line_height .font_oled : Int) := by ring
  have hy2 : (92 : Int) + (p.line_height .font_oled : Int) + 8 =
      100 + (p.line_height .font_oled : Int) := by ring
  have h4 : (92 : Int) + (p.line_height .font_oled : Int) + 3 =
      95 + (p.line_height .font_oled : Int) := by ring
  have h3b : (88 : Int) + (p.line_height .font_oled : Int) + 4 =
      92 + (p.line_height .font_oled : Int) := by ring
  have h1 : (80 : Int) + 3 = 83 := by norm_num
  have h2 : (80 : Int) + 8 = 88 := by norm_num
  have hst1 : get_current_menu rt { st with dirty := false } =
      some (.parent f title children children.length) := by
    rw [get_current_menu_dirty, hmenu]
  have hin1 : ({ st with dirty := false } : menu_state_t).is_in_menu = true := hin
  unfold render_menu
  rw [if_neg hne]
  simp only []
  rw [if_pos hin1, hst1]
  simp only [h3, h3b, hy2, h4, h1, h2, hrows, menu_overlay_reference]
  rfl

theorem row_reference_highlight (p : painter_t) (u : unicode_enums_t) (fw : firmware_t)
    (env : env_t) (width hue selected_child i : Nat) (child : menu_entry_t) :
    (menu_overlay_row_reference p u fw env width hue selected_child i child).countP
        (draw_call_t.is_highlighted_label p) = if i = selected_child then 1 else 0 := by
  cases child <;> by_cases h : i = selected_child <;>
    simp [menu_overlay_row_reference, draw_call_t.is_highlighted_label, h, List.countP_cons]

theorem rows_reference_highlight (p : painter_t) (u : unicode_enums_t) (fw : firmware_t)
    (env : env_t) (width hue selected_child : Nat) :
    ∀ (l : List menu_entry_t) (i : Nat),
      (menu_overlay_rows_reference p u fw env width hue selected_child i l).countP
          (draw_call_t.is_highlighted_label p) =
        if i ≤ selected_child ∧ selected_child < i + l.length then 1 else 0
  | [], i => by
    simp only [menu_overlay_rows_reference, List.countP_nil, List.length_nil, Nat.add_zero]
    rw [if_neg (by omega)]
  | child :: rest, i => by
    rw [menu_overlay_rows_reference, List.countP_append, row_reference_highlight,
      rows_reference_highlight p u fw env width hue selected_child rest (i + 1),
      List.length_cons]
    split_ifs <;> omega

/-- C17: when `render_menu` redraws with the menu open, for a current menu
with title `title` and `n` well-formed children and with `selected_child`
below `n`, the driver calls are the black rectangle that clears the panel
and then exactly `menu_overlay_reference`: top to bottom a divider rule, the
title, a divider rule, and for each child `i` in order, at height
`100 + L + i * (L + 9)`, its label, highlighted exactly when `i` is
`selected_child`, then the marker of a parent or the value text of a value
entry, then a thin rule; exactly one label is highlighted. -/
theorem render_menu_draws_overlay (p : painter_t) (u : unicode_enums_t) (fw : firmware_t)
    (rt : menu_entry_t) (width height : Nat) (st last : menu_state_t) (env : env_t)
    (f : Nat) (title : String) (children : List menu_entry_t) (n : Nat)
    (hin : st.is_in_menu = true) (hne : last ≠ st)
    (hmenu : get_current_menu rt st = some (.parent f title children n))
    (hlen : children.length = n) (hwf : ∀ ch ∈ children, ch.wellformed)
    (hsel : st.selected_child < n) :
    render_menu p u fw rt width height st last env =
        some (true, { st with dirty := false }, { st with dirty := false },
          .qp_rect 0 0 (width - 1) (height - 1) 0 0 0 true ::
            menu_overlay_reference p u fw env width fw.rgb_matrix_get_hue st.selected_child
              title children) ∧
      (menu_overlay_reference p u fw env width fw.rgb_matrix_get_hue st.selected_child title
          children).countP (draw_call_t.is_highlighted_label p) = 1 := by
  refine ⟨render_menu_redraw p u fw rt width height st last env f title children n hin hne
    hmenu hlen hwf, ?_⟩
  have hrows := rows_reference_highlight p u fw env width fw.rgb_matrix_get_hue
    st.selected_child children 0
  rw [if_pos (by omega)] at hrows
  simp only [menu_overlay_reference, List.countP_append, hrows]
  simp [List.countP_cons, draw_call_t.is_highlighted_label]

theorem root_entries_wellformed (c : Nat) : ∀ ch ∈ root_entries c, ch.wellformed := by
  simp [root_entries, menu_entry_t.wellformed]

theorem unicode_entries_wellformed (c : Nat) : ∀ ch ∈ unicode_entries c, ch.wellformed := by
  simp [unicode_entries, menu_entry_t.wellformed]

theorem rgb_matrix_entries_wellformed : ∀ ch ∈ rgb_matrix_entries, ch.wellformed := by
  simp [rgb_matrix_entries, menu_entry_t.wellformed]

theorem opened_state_current_menu :
    get_current_menu (root 6) opened_state =
      some (.parent menu_flag_is_parent "Configuration" (root_entries 6) 3) := rfl

theorem render_menu_draws_overlay_witness :
    render_menu sample_painter sample_unicode_enums sample_firmware (root 6) 240 320
        opened_state last_state_init sample_env =
      some (true, opened_state, opened_state, sample_overlay_draws) :=
  (render_menu_draws_overlay sample_painter sample_unicode_enums sample_firmware (root 6) 240
    320 opened_state last_state_init sample_env menu_flag_is_parent "Configuration"
    (root_entries 6) 3 rfl (by decide) opened_state_current_menu rfl
    (root_entries_wellformed 6) (by decide)).1

/-! ## The overlay: skip path -/

/-- C14: called with `last_state` equal to the current `state`, `render_menu`
makes no driver call and changes neither `state` nor `last_state`. -/
theorem render_menu_skips_when_unchanged (p : painter_t) (u : unicode_enums_t)
    (fw : firmware_t) (rt : menu_entry_t) (width height : Nat) (st : menu_state_t)
    (env : env_t) :
    ∃ r, render_menu p u fw rt width height st st env = some (r, st, st, []) :=
  ⟨st.is_in_menu, by simp [render_menu]⟩

theorem render_key_render_reachable :
    overlay_reachable sample_keycodes 6 sample_painter sample_unicode_enums opened_state
      opened_state :=
  have h0 : overlay_reachable sample_keycodes 6 sample_painter sample_unicode_enums state
      last_state_init := overlay_reachable.init
  have h1 : overlay_reachable sample_keycodes 6 sample_painter sample_unicode_enums opened_state
      last_state_init :=
    @overlay_reachable.key sample_keycodes 6 sample_painter sample_unicode_enums state
      last_state_init opened_state sample_env sample_env 0x7E40 true false h0 (by decide)
  @overlay_reachable.render sample_keycodes 6 sample_painter sample_unicode_enums opened_state
    last_state_init opened_state opened_state sample_env sample_firmware 240 320 true
    sample_overlay_draws h1
    (render_menu_redraw sample_painter sample_unicode_enums sample_firmware (root 6) 240 320
      opened_state last_state_init sample_env menu_flag_is_parent "Configuration"
      (root_entries 6) 3 rfl (by decide) opened_state_current_menu rfl
      (root_entries_wellformed 6))

/-- C15, as stated, fails: after the menu is opened and drawn once, `state`
and `last_state` are equal with `is_in_menu` true, and the next call of
`render_menu` makes no driver call yet returns `true`. -/
theorem render_menu_skip_returns_true_in_menu :
    overlay_reachable sample_keycodes 6 sample_painter sample_unicode_enums opened_state
        opened_state ∧
      opened_state.is_in_menu = true ∧
      render_menu sample_painter sample_unicode_enums sample_firmware (root 6) 240 320
        opened_state opened_state sample_env = some (true, opened_state, opened_state, []) :=
  ⟨render_key_render_reachable, rfl, by decide⟩

/-- C15, amended: called with `last_state` equal to the current `state`,
`render_menu` returns the current `is_in_menu`: `true` when the menu is open,
`false` when it is closed. -/
theorem render_menu_skip_returns_is_in_menu (p : painter_t) (u : unicode_enums_t)
    (fw : firmware_t) (rt : menu_entry_t) (width height : Nat) (st : menu_state_t)
    (env : env_t) :
    (render_menu p u fw rt width height st st env).map (fun r => r.1) = some st.is_in_menu := by
  simp [render_menu]

/-! ## The overlay: snapshot and dirty flag -/

theorem nav_inv_dirty (st : menu_state_t) (d : Bool) :
    nav_inv { st with dirty := d } ↔ nav_inv st := Iff.rfl

theorem menu_back_loop_dirty :
    ∀ (fuel i : Nat) (st : menu_state_t), (menu_back_loop fuel i st).dirty = st.dirty
  | 0, _, _ => rfl
  | fuel + 1, i, st => by
    rw [menu_back_loop]
    split_ifs
    · rfl
    · exact menu_back_loop_dirty fuel (i + 1) _
    · exact menu_back_loop_dirty fuel (i + 1) _
    · rfl

theorem menu_enter_loop_dirty :
    ∀ (fuel i : Nat) (st : menu_state_t), (menu_enter_loop fuel i st).dirty = st.dirty
  | 0, _, _ => rfl
  | fuel + 1, i, st => by
    rw [menu_enter_loop]
    split_ifs
    · rfl
    · exact menu_enter_loop_dirty fuel (i + 1) _
    · rfl

theorem menu_handle_input_keeps_dirty (rt : menu_entry_t) (input : menu_input_t)
    (st st' : menu_state_t) (env env' : env_t) (r : Bool) (hd : st.dirty = true)
    (h : menu_handle_input rt input st env = some (r, st', env')) : st'.dirty = true := by
  cases hload : get_selected_menu_item_children rt st with
  | none =>
    rw [menu_handle_input_fault rt input st env hload] at h
    cases h
  | some ch =>
    cases input <;> simp only [menu_handle_input, hload] at h
    · cases h
      exact hd
    · cases h
      rw [menu_back_loop_dirty]
      exact hd
    · split at h
      · cases h
      · split_ifs at h <;> cases h
        · rw [menu_enter_loop_dirty]
          exact hd
        · exact hd
    · split at h
      · cases h
      · split_ifs at h
        cases h
        exact hd
    · split at h
      · cases h
      · split_ifs at h
        cases h
        exact hd
    · split at h
      · cases h
      · split_ifs at h
        · split at h <;> cases h
          rfl
        · cases h
          exact hd
    · split at h
      · cases h
      · split_ifs at h
        · split at h <;> cases h
          rfl
        · cases h
          exact hd

theorem process_record_keeps_dirty (k : keycodes_t) (rt : menu_entry_t) (keycode : Nat)
    (pressed r : Bool) (st st' : menu_state_t) (env env' : env_t) (hd : st.dirty = true)
    (h : process_record_menu k rt keycode pressed st env = some (r, st', env')) :
    st'.dirty = true := by
  unfold process_record_menu at h
  split_ifs at h
  · cases h
    exact hd
  · split at h
    · exact menu_handle_input_keeps_dirty rt _ st st' env env' r hd h
    · cases h
      exact hd
  · cases h
    exact hd
  · cases h
    exact hd

theorem render_menu_result (p : painter_t) (u : unicode_enums_t) (fw : firmware_t)
    (rt : menu_entry_t) (width height : Nat) (st last st' last' : menu_state_t) (env : env_t)
    (r : Bool) (draws : List draw_call_t)
    (h : render_menu p u fw rt width height st last env = some (r, st', last', draws)) :
    (last = st ∧ st' = st ∧ last' = last) ∨
      (last ≠ st ∧ st' = { st with dirty := false } ∧ last' = { st with dirty := false }) := by
  unfold render_menu at h
  by_cases heq : last = st
  · rw [if_pos heq] at h
    cases h
    exact Or.inl ⟨heq, rfl, rfl⟩
  · rw [if_neg heq] at h
    simp only [] at h
    refine Or.inr ⟨heq, ?_⟩
    split_ifs at h
    · split at h
      · split at h
        · cases h
        · cases h
          exact ⟨rfl, rfl⟩
      · cases h
    · cases h
      exact ⟨rfl, rfl⟩

theorem render_menu_total (p : painter_t) (u : unicode_enums_t) (fw : firmware_t) (c : Nat)
    (width height : Nat) (st last : menu_state_t) (env : env_t) (h : nav_inv st) :
    ∃ r st' last' draws,
      render_menu p u fw (root c) width height st last env = some (r, st', last', draws) := by
  by_cases heq : last = st
  · exact ⟨_, _, _, _, by rw [render_menu, if_pos heq]⟩
  by_cases hin : st.is_in_menu = true
  · obtain ⟨d, m, s, v⟩ := st
    simp only at hin
    subst hin
    rcases h with ⟨hm, -, -⟩ | ⟨-, hv, hs⟩ | ⟨-, hv, hs⟩ | ⟨-, hv, hs⟩
    · exact absurd hm (by simp)
    · simp only at hv hs
      subst hv
      exact ⟨_, _, _, _, render_menu_redraw p u fw (root c) width height _ last env _ _ _ 3 rfl
        heq (current_menu_root c d true s (by omega)) rfl (root_entries_wellformed c)⟩
    · simp only at hv hs
      subst hv
      exact ⟨_, _, _, _, render_menu_redraw p u fw (root c) width height _ last env _ _ _ 2 rfl
        heq (current_menu_unicode c d true s (by omega)) rfl (unicode_entries_wellformed c)⟩
    · simp only at hv hs
      subst hv
      exact ⟨_, _, _, _, render_menu_redraw p u fw (root c) width height _ last env _ _ _ 6 rfl
        heq (current_menu_rgb c d true s (by omega)) rfl rgb_matrix_entries_wellformed⟩
  · refine ⟨false, { st with dirty := false }, { st with dirty := false }, [], ?_⟩
    have hin1 : ¬ ({ st with dirty := false } : menu_state_t).is_in_menu = true := hin
    unfold render_menu
    rw [if_neg heq]
    simp only []
    rw [if_neg hin1]

theorem overlay_reachable_inv {k : keycodes_t} {c : Nat} {p : painter_t}
    {u : unicode_enums_t} {st last : menu_state_t} (hr : overlay_reachable k c p u st last) :
    nav_inv st ∧ last.dirty = false := by
  induction hr with
  | init => exact ⟨nav_inv_init, rfl⟩
  | key _ hstep ih =>
    obtain ⟨r, st', env', he, hinv, -⟩ := process_record_nav_inv k c _ ih.1 _ _ _
    rw [he] at hstep
    cases hstep
    exact ⟨hinv, ih.2⟩
  | render _ hstep ih =>
    rcases render_menu_result _ _ _ _ _ _ _ _ _ _ _ _ _ hstep with
      ⟨-, hst, hlast⟩ | ⟨-, hst, hlast⟩
    · rw [hst, hlast]
      exact ih
    · rw [hst, hlast]
      exact ⟨(nav_inv_dirty _ false).mpr ih.1, rfl⟩

theorem render_menu_clean (k : keycodes_t) (c : Nat) (p : painter_t) (u : unicode_enums_t)
    (st last : menu_state_t) (hr : overlay_reachable k c p u st last) (fw : firmware_t)
    (width height : Nat) (env : env_t) :
    ∃ r st' draws, render_menu p u fw (root c) width height st last env
        = some (r, st', st', draws) ∧ st'.dirty = false ∧ st' = { st with dirty := false } := by
  obtain ⟨hinv, hlast⟩ := overlay_reachable_inv hr
  obtain ⟨r, st', last', draws, he⟩ := render_menu_total p u fw c width height st last env hinv
  rcases render_menu_result _ _ _ _ _ _ _ _ _ _ _ _ _ he with ⟨heq, hst, hl⟩ | ⟨-, hst, hl⟩
  · subst heq
    subst hst
    subst hl
    refine ⟨r, _, draws, he, hlast, ?_⟩
    revert hlast
    cases last' with
    | mk d m s v =>
      intro hlast
      simp only at hlast
      subst hlast
      rfl
  · subst hst
    subst hl
    exact ⟨r, _, draws, he, rfl, rfl⟩

/-- C16: for every pair (`state`, `last_state`) reached from the static
initialisers by key events and calls of `render_menu` in any order, the next
call of `render_menu` does not fault and leaves `dirty` false and
`last_state` equal to `state`. Since `last_state.dirty` is then always false,
a `state` with `dirty` true differs from `last_state`, so that call takes the
redraw path; the left and right inputs on a value entry set `dirty`, and no
key event clears it. -/
theorem render_menu_leaves_clean_snapshot (k : keycodes_t) (c : Nat) (p : painter_t)
    (u : unicode_enums_t) (st last : menu_state_t) (hr : overlay_reachable k c p u st last) :
    (∀ (fw : firmware_t) (width height : Nat) (env : env_t), ∃ r st' draws,
        render_menu p u fw (root c) width height st last env = some (r, st', st', draws) ∧
          st'.dirty = false ∧ st' = { st with dirty := false }) ∧
      last.dirty = false ∧ (st.dirty = true → last ≠ st) ∧
      (∀ (input : menu_input_t) (env : env_t) (sel : menu_entry_t) (handler : menu_handler_t),
        input = menu_input_left ∨ input = menu_input_right →
        get_selected_menu_item (root c) st = some sel →
        sel.flags &&& menu_flag_is_value ≠ 0 → sel.child_menu_handler = some handler →
        ∃ r st1 env1, menu_handle_input (root c) input st env = some (r, st1, env1) ∧
          st1.dirty = true ∧ last ≠ st1) ∧
      ∀ (keycode : Nat) (pressed r : Bool) (env env' : env_t) (st' : menu_state_t),
        st.dirty = true →
        process_record_menu k (root c) keycode pressed st env = some (r, st', env') →
        st'.dirty = true ∧ last ≠ st' := by
  have hlast := (overlay_reachable_inv hr).2
  have hdiff : ∀ s : menu_state_t, s.dirty = true → last ≠ s := by
    intro s hs heq
    rw [heq, hs] at hlast
    exact absurd hlast (by simp)
  refine ⟨fun fw width height env => render_menu_clean k c p u st last hr fw width height env,
    hlast, hdiff st, ?_, ?_⟩
  · intro input env sel handler hin hsel hval hh
    refine ⟨(handler input env).1, { st with dirty := true }, (handler input env).2, ?_, rfl,
      hdiff _ rfl⟩
    obtain ⟨ch, hload⟩ := children_of_selected hsel
    rcases hin with rfl | rfl <;> simp [menu_handle_input, hload, hsel, hval, hh]
  · intro keycode pressed r env env' st' hd he
    have hd' := process_record_keeps_dirty k (root c) keycode pressed r st st' env env' hd he
    exact ⟨hd', hdiff st' hd'⟩

theorem render_menu_leaves_clean_snapshot_witness :
    (∀ (fw : firmware_t) (width height : Nat) (env : env_t), ∃ r st' draws,
        render_menu sample_painter sample_unicode_enums fw (root 6) width height opened_state
            last_state_init env = some (r, st', st', draws) ∧
          st'.dirty = false ∧ st' = { opened_state with dirty := false }) ∧
      ∃ r st1 env1, menu_handle_input (root 6) menu_input_right opened_state sample_env
          = some (r, st1, env1) ∧ st1.dirty = true ∧ last_state_init ≠ st1 :=
  have h1 : overlay_reachable sample_keycodes 6 sample_painter sample_unicode_enums opened_state
      last_state_init :=
    @overlay_reachable.key sample_keycodes 6 sample_painter sample_unicode_enums state
      last_state_init opened_state sample_env sample_env 0x7E40 true false
      overlay_reachable.init (by decide)
  have h := render_menu_leaves_clean_snapshot sample_keycodes 6 sample_painter
    sample_unicode_enums opened_state last_state_init h1
  ⟨h.1, h.2.2.2.1 menu_input_right sample_env
    (.child menu_flag_is_value "Unicode mode" menu_handler_unicode .display_handler_unicode)
    menu_handler_unicode (Or.inr rfl) rfl (by decide) rfl⟩

/-! ## Status display: which fields a frame redraws -/

theorem calls_of_append (f : field_t) (l1 l2 : List tagged_call_t) :
    calls_of f (l1 ++ l2) = calls_of f l1 ++ calls_of f l2 := by
  simp [calls_of, List.filterMap_append]

theorem calls_of_text_field (p : painter_t) (f g : field_t) (xpos ypos max_xpos : Nat)
    (text : String) (a b c d e h : Nat) :
    calls_of g (draw_text_field p f xpos ypos max_xpos text a b c d e h).draws =
      if f = g then
        [ .qp_drawtext_recolor xpos ypos .font_oled text a b c d e h,
          erase_rect p (uint16_add xpos (p.drawtext .font_oled text)) ypos
            (track_extent max_xpos (uint16_add xpos (p.drawtext .font_oled text))) ]
      else [] := by
  by_cases hfg : f = g
  · simp [calls_of, draw_text_field, hfg]
  · simp [calls_of, draw_text_field, hfg]

theorem calls_of_hue_text (p : painter_t) (inp : frame_inputs_t) (f g : field_t) (redraw : Bool)
    (start : Nat) (text : String) (xpos ypos max_xpos : Nat) :
    calls_of g (draw_hue_text p inp f redraw start text xpos ypos max_xpos).draws =
      if redraw = true ∧ f = g then
        [ .qp_drawtext_recolor start ypos .font_oled text inp.curr_hue 255 255 inp.curr_hue 255 0,
          erase_rect p (uint16_add start (p.drawtext .font_oled text)) ypos
            (track_extent max_xpos (uint16_add start (p.drawtext .font_oled text))) ]
      else [] := by
  unfold draw_hue_text
  cases redraw
  · simp [calls_of]
  · simp [calls_of_text_field]

theorem calls_of_indicator (p : painter_t) (f g : field_t) (redraw : Bool) (start : Nat)
    (text : String) (hue_fg hue_bg xpos ypos max_xpos : Nat) :
    calls_of g (draw_indicator p f redraw start text hue_fg hue_bg xpos ypos max_xpos).draws =
      if redraw = true ∧ f = g then
        [ .qp_drawtext_recolor start ypos .font_oled text hue_fg 255 255 hue_bg 255 0,
          erase_rect p (uint16_add start (p.drawtext .font_oled text)) ypos
            (track_extent max_xpos (uint16_add start (p.drawtext .font_oled text))) ]
      else [] := by
  unfold draw_indicator
  cases redraw
  · simp [calls_of]
  · simp [calls_of_text_field]

theorem calls_of_lock_icons (p : painter_t) (x : display_ext_t) (inp : frame_inputs_t)
    (hue_redraw : Bool) (xpos ypos last_led_state : Nat) (g : field_t) :
    calls_of g (draw_lock_icons p x inp hue_redraw xpos ypos last_led_state).2.2 ≠ [] ↔
      (hue_redraw = true ∨ last_led_state ≠ inp.led_state) ∧ g = .lock_icons := by
  unfold draw_lock_icons
  by_cases hc : (hue_redraw || decide (last_led_state ≠ inp.led_state)) = true
  · rw [if_pos hc]
    have hc2 : hue_redraw = true ∨ last_led_state ≠ inp.led_state := by simpa using hc
    by_cases hg : g = .lock_icons
    · simp [calls_of, hg, hc2]
    · have hg2 : ¬ field_t.lock_icons = g := fun h => hg h.symm
      simp [calls_of, hg, hg2]
  · rw [if_neg hc]
    have hc2 : ¬ (hue_redraw = true ∨ last_led_state ≠ inp.led_state) := by simpa using hc
    simp [calls_of, hc2]

theorem calls_of_keymap_config (p : painter_t) (x : display_ext_t) (inp : frame_inputs_t)
    (hue_redraw : Bool) (xpos ypos last max_xpos : Nat) (g : field_t) :
    calls_of g (draw_keymap_config p x inp hue_redraw xpos ypos last max_xpos).2.draws ≠ [] ↔
      (hue_redraw = true ∨ last ≠ inp.keymap_config) ∧ g = .keymap_config := by
  unfold draw_keymap_config
  by_cases hc : (hue_redraw || decide (last ≠ inp.keymap_config)) = true
  · rw [if_pos hc]
    have hc2 : hue_redraw = true ∨ last ≠ inp.keymap_config := by simpa using hc
    by_cases hg : g = .keymap_config
    · simp [calls_of, toggle_label, hg, hc2]
    · have hg2 : ¬ field_t.keymap_config = g := fun h => hg h.symm
      simp [calls_of, toggle_label, hg, hg2]
  · rw [if_neg hc]
    have hc2 : ¬ (hue_redraw = true ∨ last ≠ inp.keymap_config) := by simpa using hc
    simp [calls_of, hc2]

theorem calls_of_user_state (p : painter_t) (x : display_ext_t) (inp : frame_inputs_t)
    (hue_redraw : Bool) (xpos ypos last max_xpos : Nat) (g : field_t) :
    calls_of g (draw_user_state p x inp hue_redraw xpos ypos last max_xpos).2.draws ≠ [] ↔
      (hue_redraw = true ∨ last ≠ inp.user_state) ∧ g = .user_state := by
  unfold draw_user_state
  by_cases hc : (hue_redraw || decide (last ≠ inp.user_state)) = true
  · rw [if_pos hc]
    have hc2 : hue_redraw = true ∨ last ≠ inp.user_state := by simpa using hc
    by_cases hg : g = .user_state
    · simp [calls_of, toggle_label, hg, hc2]
    · have hg2 : ¬ field_t.user_state = g := fun h => hg h.symm
      simp [calls_of, toggle_label, hg, hg2]
  · rw [if_neg hc]
    have hc2 : ¬ (hue_redraw = true ∨ last ≠ inp.user_state) := by simpa using hc
    simp [calls_of, hc2]

theorem calls_of_autocorrect (p : painter_t) (inp : frame_inputs_t) (hue_redraw : Bool)
    (xpos ypos max_xpos : Nat) (g : field_t) :
    calls_of g (draw_autocorrect p inp hue_redraw xpos ypos max_xpos).1.draws ≠ [] ↔
      (hue_redraw = true ∨ inp.autocorrect_str_has_changed = true) ∧ g = .autocorrect := by
  unfold draw_autocorrect
  by_cases hc : (hue_redraw || inp.autocorrect_str_has_changed) = true
  · rw [if_pos hc]
    have hc2 : hue_redraw = true ∨ inp.autocorrect_str_has_changed = true := by simpa using hc
    by_cases hg : g = .autocorrect
    · simp [calls_of_append, calls_of_text_field, hg, hc2]
    · have hg2 : ¬ field_t.autocorrect = g := fun h => hg h.symm
      simp [calls_of_append, calls_of_text_field, hg, hg2]
  · rw [if_neg hc]
    have hc2 : ¬ (hue_redraw = true ∨ inp.autocorrect_str_has_changed = true) := by
      simpa using hc
    simp [calls_of, hc2]

theorem calls_of_font_preview (x : display_ext_t) (inp : frame_inputs_t) (hue_redraw : Bool)
    (xpos ypos : Nat) (max_font_xpos : List Nat) (g : field_t) :
    calls_of g (draw_font_preview x inp hue_redraw xpos ypos max_font_xpos).2.2.2 ≠ [] ↔
      hue_redraw = true ∧ g = .font_preview := by
  unfold draw_font_preview
  cases hue_redraw
  · simp [calls_of]
  · by_cases hg : g = .font_preview
    · simp [calls_of, hg]
    · have hg2 : ¬ field_t.font_preview = g := fun h => hg h.symm
      simp [calls_of, hg, hg2]

theorem calls_of_keylogger (p : painter_t) (inp : frame_inputs_t) (xpos ypos max_xpos : Nat)
    (g : field_t) :
    calls_of g (draw_keylogger p inp xpos ypos max_xpos).1.draws ≠ [] ↔
      inp.keylogger_has_changed = true ∧ g = .keylogger := by
  unfold draw_keylogger
  by_cases hc : inp.keylogger_has_changed = true
  · rw [if_pos hc]
    by_cases hg : g = .keylogger
    · simp [calls_of, hg, hc]
    · have hg2 : ¬ field_t.keylogger = g := fun h => hg h.symm
      simp [calls_of, hg, hg2]
  · rw [if_neg hc]
    simp [calls_of, hc]

theorem append_ne_nil_iff_or {α : Type} (l1 l2 : List α) :
    l1 ++ l2 ≠ [] ↔ l1 ≠ [] ∨ l2 ≠ [] := by
  cases l1 <;> simp

theorem calls_of_hue_text_ne_nil (p : painter_t) (inp : frame_inputs_t) (f g : field_t)
    (redraw : Bool) (start : Nat) (text : String) (xpos ypos max_xpos : Nat) :
    calls_of g (draw_hue_text p inp f redraw start text xpos ypos max_xpos).draws ≠ [] ↔
      redraw = true ∧ g = f := by
  rw [calls_of_hue_text]
  by_cases h : redraw = true ∧ f = g
  · rw [if_pos h]; simp [h.1, h.2]
  · rw [if_neg h]
    simp only [ne_eq, not_true_eq_false, false_iff]
    exact fun h2 => h ⟨h2.1, h2.2.symm⟩

theorem calls_of_indicator_ne_nil (p : painter_t) (f g : field_t) (redraw : Bool) (start : Nat)
    (text : String) (hue_fg hue_bg xpos ypos max_xpos : Nat) :
    calls_of g (draw_indicator p f redraw start text hue_fg hue_bg xpos ypos max_xpos).draws
        ≠ [] ↔
      redraw = true ∧ g = f := by
  rw [calls_of_indicator]
  by_cases h : redraw = true ∧ f = g
  · rw [if_pos h]; simp [h.1, h.2]
  · rw [if_neg h]
    simp only [ne_eq, not_true_eq_false, false_iff]
    exact fun h2 => h ⟨h2.1, h2.2.symm⟩

theorem calls_of_lock_block (p : painter_t) (x : display_ext_t) (inp : frame_inputs_t)
    (q hue_redraw : Bool) (xpos ypos last_led_state : Nat) (g : field_t) :
    calls_of g (if q = true then draw_lock_icons p x inp hue_redraw xpos ypos last_led_state
      else (last_led_state, xpos, [])).2.2 ≠ [] ↔
      g = .lock_icons ∧ q = true ∧ (hue_redraw = true ∨ last_led_state ≠ inp.led_state) := by
  cases q
  · simp [calls_of]
  · simp only [if_true, calls_of_lock_icons]; tauto

theorem calls_of_autocorrect_block (p : painter_t) (inp : frame_inputs_t) (q hue_redraw : Bool)
    (xpos ypos max_xpos : Nat) (g : field_t) :
    calls_of g (if q = true then draw_autocorrect p inp hue_redraw xpos ypos max_xpos
      else (({ xpos := xpos, max_xpos := max_xpos, draws := [] } : block_t), ypos,
        inp.autocorrect_str_has_changed)).1.draws ≠ [] ↔
      g = .autocorrect ∧ q = true ∧
        (hue_redraw = true ∨ inp.autocorrect_str_has_changed = true) := by
  cases q
  · simp [calls_of]
  · simp only [if_true, calls_of_autocorrect]; tauto

theorem calls_of_keylogger_block (p : painter_t) (inp : frame_inputs_t) (q : Bool)
    (xpos ypos max_xpos : Nat) (g : field_t) :
    calls_of g (if q = true then draw_keylogger p inp xpos ypos max_xpos
      else (({ xpos := xpos, max_xpos := max_xpos, draws := [] } : block_t),
        inp.keylogger_has_changed)).1.draws ≠ [] ↔
      g = .keylogger ∧ q = true ∧ inp.keylogger_has_changed = true := by
  cases q
  · simp [calls_of]
  · simp only [if_true, calls_of_keylogger]; tauto

theorem left_frame_redrawn (p : painter_t) (x : display_ext_t) (feat : features_t)
    (inp : frame_inputs_t) (s : display_statics_t) (hleft : inp.is_keyboard_left = true)
    (g : field_t) :
    (ili9341_draw_user p x feat inp s).redrawn g ↔
      (g = .lock_icons ∧ feat.QP_LOCK_LOGO_ENABLE = true ∧
        (s.last_hue ≠ inp.curr_hue ∨ s.last_led_state ≠ inp.led_state)) ∨
      (g = .wpm ∧ feat.WPM_ENABLE = true ∧
        (s.last_hue ≠ inp.curr_hue ∨ inp.timer_elapsed32 s.last_wpm_update > 125)) ∨
      (g = .scans ∧
        (s.last_hue ≠ inp.curr_hue ∨ inp.timer_elapsed32 s.last_scan_update > 125)) ∨
      (g = .cpi ∧ feat.POINTING_DEVICE_ENABLE = true ∧
        (s.last_hue ≠ inp.curr_hue ∨
          s.last_cpi ≠ (if inp.sniping_enabled then inp.sniping_dpi else inp.default_dpi))) ∨
      (g = .drag_scroll ∧ feat.POINTING_DEVICE_ENABLE = true ∧
        s.last_ds_state ≠ bool_to_nat inp.dragscroll_enabled) ∨
      (g = .auto_layer ∧ feat.POINTING_DEVICE_ENABLE = true ∧
        s.last_am_state ≠ bool_to_nat inp.auto_mouse_enable) ∨
      (g = .sniping ∧ feat.POINTING_DEVICE_ENABLE = true ∧
        s.last_sp_state ≠ bool_to_nat inp.sniping_enabled) ∨
      (g = .keymap_config ∧
        (s.last_hue ≠ inp.curr_hue ∨ s.last_keymap_config ≠ inp.keymap_config)) ∨
      (g = .user_state ∧ (s.last_hue ≠ inp.curr_hue ∨ s.last_user_state ≠ inp.user_state)) ∨
      (g = .rgb_light ∧ feat.RGBLIGHT_ENABLE = true ∧
        (s.last_hue ≠ inp.curr_hue ∨ s.last_effect ≠ inp.curr_effect)) ∨
      (g = .rgb_matrix ∧ feat.RGB_MATRIX_ENABLE = true ∧
        (s.last_hue ≠ inp.curr_hue ∨ s.last_effect ≠ inp.curr_effect)) ∨
      (g = .layout ∧
        (s.last_hue ≠ inp.curr_hue ∨ s.last_dl_state ≠ inp.default_layer_state ∨
          s.last_layer_state ≠ inp.layer_state)) ∨
      (g = .layer ∧ (s.last_hue ≠ inp.curr_hue ∨ s.last_layer_state ≠ inp.layer_state)) ∨
      (g = .autocorrect ∧ feat.AUTOCORRECT_ENABLE = true ∧
        (s.last_hue ≠ inp.curr_hue ∨ inp.autocorrect_str_has_changed = true)) ∨
      (g = .font_preview ∧ s.last_hue ≠ inp.curr_hue) ∨
      (g = .keylogger ∧ feat.KEYLOGGER_ENABLE = true ∧ inp.keylogger_has_changed = true) := by
  have hflush : calls_of g [((none : Option field_t), draw_call_t.qp_flush)] = [] := by
    simp [calls_of]
  unfold frame_result_t.redrawn ili9341_draw_user
  simp only [hleft, if_true]
  simp only [append_ne_nil_iff_or, calls_of_append, calls_of_hue_text_ne_nil,
    calls_of_indicator_ne_nil, calls_of_lock_block, calls_of_autocorrect_block,
    calls_of_keylogger_block, calls_of_keymap_config, calls_of_user_state,
    calls_of_font_preview, hflush, ne_eq, not_true_eq_false, or_false, or_assoc,
    Bool.and_eq_true, Bool.or_eq_true, decide_eq_true_eq]
  refine or_congr ?_ (or_congr ?_ (or_congr ?_ (or_congr ?_ (or_congr ?_ (or_congr ?_
    (or_congr ?_ (or_congr ?_ (or_congr ?_ (or_congr ?_ (or_congr ?_ (or_congr ?_
    (or_congr ?_ (or_congr ?_ (or_congr ?_ ?_)))))))))))))) <;> tauto


theorem left_frame_tracks (p : painter_t) (x : display_ext_t) (feat : features_t)
    (inp : frame_inputs_t) (s : display_statics_t) (hleft : inp.is_keyboard_left = true) :
    (ili9341_draw_user p x feat inp s).statics.last_hue = inp.curr_hue ∧
    (ili9341_draw_user p x feat inp s).statics.last_layer_state = inp.layer_state ∧
    (ili9341_draw_user p x feat inp s).statics.last_dl_state = inp.default_layer_state ∧
    (ili9341_draw_user p x feat inp s).statics.last_keymap_config = inp.keymap_config ∧
    (ili9341_draw_user p x feat inp s).statics.last_user_state = inp.user_state ∧
    (feat.QP_LOCK_LOGO_ENABLE = true →
      (ili9341_draw_user p x feat inp s).statics.last_led_state = inp.led_state) ∧
    (feat.POINTING_DEVICE_ENABLE = true →
      (ili9341_draw_user p x feat inp s).statics.last_cpi =
          (if inp.sniping_enabled then inp.sniping_dpi else inp.default_dpi) ∧
        (ili9341_draw_user p x feat inp s).statics.last_ds_state =
          bool_to_nat inp.dragscroll_enabled ∧
        (ili9341_draw_user p x feat inp s).statics.last_am_state =
          bool_to_nat inp.auto_mouse_enable ∧
        (ili9341_draw_user p x feat inp s).statics.last_sp_state =
          bool_to_nat inp.sniping_enabled) ∧
    ((feat.RGB_MATRIX_ENABLE = true ∨ feat.RGBLIGHT_ENABLE = true) →
      (ili9341_draw_user p x feat inp s).statics.last_effect = inp.curr_effect) := by
  unfold ili9341_draw_user
  simp only [hleft, if_true]
  refine ⟨?_, ?_, ?_, ?_, ?_, ?_, ?_, ?_⟩
  · by_cases h : s.last_hue = inp.curr_hue <;> simp [h]
  · by_cases h : s.last_layer_state = inp.layer_state <;> simp [h]
  · by_cases h : s.last_dl_state = inp.default_layer_state <;> simp [h]
  · unfold draw_keymap_config
    by_cases h : s.last_keymap_config = inp.keymap_config <;>
      by_cases h2 : s.last_hue = inp.curr_hue <;> simp [h, h2]
  · unfold draw_user_state
    by_cases h : s.last_user_state = inp.user_state <;>
      by_cases h2 : s.last_hue = inp.curr_hue <;> simp [h, h2]
  · intro hq
    unfold draw_lock_icons
    by_cases h : s.last_led_state = inp.led_state <;>
      by_cases h2 : s.last_hue = inp.curr_hue <;> simp [h, h2, hq]
  · intro hq
    refine ⟨?_, ?_, ?_, ?_⟩
    · by_cases h : s.last_cpi = (if inp.sniping_enabled then inp.sniping_dpi
        else inp.default_dpi) <;> simp [h, hq]
    · by_cases h : s.last_ds_state = bool_to_nat inp.dragscroll_enabled <;> simp [h, hq]
    · by_cases h : s.last_am_state = bool_to_nat inp.auto_mouse_enable <;> simp [h, hq]
    · by_cases h : s.last_sp_state = bool_to_nat inp.sniping_enabled <;> simp [h, hq]
  · intro hq
    have hq2 : (feat.RGB_MATRIX_ENABLE || feat.RGBLIGHT_ENABLE) = true := by simpa using hq
    by_cases h : s.last_effect = inp.curr_effect <;> simp [h, hq2]

theorem sample_statics_tracks :
    sample_statics.last_hue = 10 ∧ sample_statics.last_ds_state = 0 ∧
      sample_statics.last_am_state = 0 ∧ sample_statics.last_sp_state = 0 ∧
      sample_statics.last_layer_state = 0 ∧ sample_statics.last_dl_state = 1 ∧
      sample_statics.last_cpi = 400 ∧ sample_statics.last_effect = 4 ∧
      sample_statics.last_led_state = 0 ∧ sample_statics.last_keymap_config = 0 ∧
      sample_statics.last_user_state = 0 ∧ sample_statics.last_scan_update = 0 ∧
      sample_statics.last_wpm_update = 0 :=
  ⟨rfl, rfl, rfl, rfl, rfl, rfl, rfl, rfl, rfl, rfl, rfl, rfl, rfl⟩

/-- C18 (counterexample): on the left half with every feature compiled in, a
frame whose hue (11) differs from the cached `last_hue` (10) while the
drag-scroll, auto-layer and sniping states are unchanged redraws none of the
three indicators. -/
theorem hue_change_skips_indicators :
    sample_inputs_hue.is_keyboard_left = true ∧
      sample_statics.last_hue ≠ sample_inputs_hue.curr_hue ∧
      ¬ (ili9341_draw_user sample_painter sample_display_ext sample_features sample_inputs_hue
          sample_statics).redrawn .drag_scroll ∧
      ¬ (ili9341_draw_user sample_painter sample_display_ext sample_features sample_inputs_hue
          sample_statics).redrawn .auto_layer ∧
      ¬ (ili9341_draw_user sample_painter sample_display_ext sample_features sample_inputs_hue
          sample_statics).redrawn .sniping := by
  have hleft : sample_inputs_hue.is_keyboard_left = true := rfl
  obtain ⟨h1, h2, h3, h4, -⟩ := sample_statics_tracks
  refine ⟨hleft, by rw [h1]; decide, ?_, ?_, ?_⟩
  · rw [left_frame_redrawn _ _ _ _ _ hleft]
    simp [h2, sample_inputs_hue, sample_inputs, bool_to_nat]
  · rw [left_frame_redrawn _ _ _ _ _ hleft]
    simp [h3, sample_inputs_hue, sample_inputs, bool_to_nat]
  · rw [left_frame_redrawn _ _ _ _ _ hleft]
    simp [h4, sample_inputs_hue, sample_inputs, bool_to_nat]

/-- C18 (amended): on the left half, a frame whose hue differs from the cached
`last_hue` redraws the lock icons, WPM, scan rate, CPI, the keymap-config and
user-state toggles, the RGB effect names, the layout and layer names, the
autocorrect banner and the font preview, each when its feature is compiled
in and whatever its own change state; the drag-scroll, auto-layer and sniping
indicators are redrawn exactly when their own state changed. -/
theorem hue_change_redraws_fields (p : painter_t) (x : display_ext_t) (feat : features_t)
    (inp : frame_inputs_t) (s : display_statics_t) (hleft : inp.is_keyboard_left = true)
    (hhue : s.last_hue ≠ inp.curr_hue) :
    (feat.QP_LOCK_LOGO_ENABLE = true → (ili9341_draw_user p x feat inp s).redrawn .lock_icons) ∧
    (feat.WPM_ENABLE = true → (ili9341_draw_user p x feat inp s).redrawn .wpm) ∧
    (ili9341_draw_user p x feat inp s).redrawn .scans ∧
    (feat.POINTING_DEVICE_ENABLE = true → (ili9341_draw_user p x feat inp s).redrawn .cpi) ∧
    (ili9341_draw_user p x feat inp s).redrawn .keymap_config ∧
    (ili9341_draw_user p x feat inp s).redrawn .user_state ∧
    (feat.RGBLIGHT_ENABLE = true → (ili9341_draw_user p x feat inp s).redrawn .rgb_light) ∧
    (feat.RGB_MATRIX_ENABLE = true → (ili9341_draw_user p x feat inp s).redrawn .rgb_matrix) ∧
    (ili9341_draw_user p x feat inp s).redrawn .layout ∧
    (ili9341_draw_user p x feat inp s).redrawn .layer ∧
    (feat.AUTOCORRECT_ENABLE = true → (ili9341_draw_user p x feat inp s).redrawn .autocorrect) ∧
    (ili9341_draw_user p x feat inp s).redrawn .font_preview ∧
    ((ili9341_draw_user p x feat inp s).redrawn .drag_scroll ↔
      feat.POINTING_DEVICE_ENABLE = true ∧
        s.last_ds_state ≠ bool_to_nat inp.dragscroll_enabled) ∧
    ((ili9341_draw_user p x feat inp s).redrawn .auto_layer ↔
      feat.POINTING_DEVICE_ENABLE = true ∧
        s.last_am_state ≠ bool_to_nat inp.auto_mouse_enable) ∧
    ((ili9341_draw_user p x feat inp s).redrawn .sniping ↔
      feat.POINTING_DEVICE_ENABLE = true ∧
        s.last_sp_state ≠ bool_to_nat inp.sniping_enabled) := by
  simp only [left_frame_redrawn p x feat inp s hleft]
  refine ⟨?_, ?_, ?_, ?_, ?_, ?_, ?_, ?_, ?_, ?_, ?_, ?_, ?_, ?_, ?_⟩ <;> simp [hhue]

theorem hue_change_redraws_fields_witness :
    sample_inputs_hue.is_keyboard_left = true ∧
      sample_statics.last_hue ≠ sample_inputs_hue.curr_hue ∧
      (ili9341_draw_user sample_painter sample_display_ext sample_features sample_inputs_hue
        sample_statics).redrawn .scans ∧
      (ili9341_draw_user sample_painter sample_display_ext sample_features sample_inputs_hue
        sample_statics).redrawn .font_preview :=
  have hhue : sample_statics.last_hue ≠ sample_inputs_hue.curr_hue := by
    rw [sample_statics_tracks.1]; decide
  have h := hue_change_redraws_fields sample_painter sample_display_ext sample_features
    sample_inputs_hue sample_statics rfl hhue
  ⟨rfl, hhue, h.2.2.1, h.2.2.2.2.2.2.2.2.2.2.2.1⟩

theorem bool_to_nat_ne (a b : Bool) : bool_to_nat a ≠ bool_to_nat b ↔ a ≠ b := by
  cases a <;> cases b <;> simp [bool_to_nat]

/-- C19 (counterexample): two consecutive frames on the left half with the same
hue whose inputs differ in `layer_state` only (0, then 32), no timer expired
and no changed-flag set: the second frame redraws the default-layout field as
well as the active-layer field. -/
theorem layer_change_redraws_layout :
    sample_inputs_layer = { sample_inputs with layer_state := 32 } ∧
      sample_inputs_layer.curr_hue = sample_inputs.curr_hue ∧
      sample_inputs_layer.default_layer_state = sample_inputs.default_layer_state ∧
      (second_frame sample_painter sample_display_ext sample_features sample_inputs
        sample_inputs_layer display_statics_init).redrawn .layer ∧
      (second_frame sample_painter sample_display_ext sample_features sample_inputs
        sample_inputs_layer display_statics_init).redrawn .layout := by
  have hleft : sample_inputs_layer.is_keyboard_left = true := rfl
  have ht := left_frame_tracks sample_painter sample_display_ext sample_features sample_inputs
    display_statics_init rfl
  have hl : sample_inputs.layer_state ≠ sample_inputs_layer.layer_state := by decide
  refine ⟨rfl, rfl, rfl, ?_, ?_⟩
  · unfold second_frame
    rw [left_frame_redrawn _ _ _ _ _ hleft, ht.2.1]
    simp [hl]
  · unfold second_frame
    rw [left_frame_redrawn _ _ _ _ _ hleft, ht.2.1]
    simp [hl]

/-- C19 (amended): for two consecutive frames on the left half with the same
hue, a field is redrawn in the second frame exactly when its own tracked input
differs between the two frames (for WPM and the scan rate: when the 125 ms
timer of the field has expired; for the autocorrect banner and the key log:
when the changed-flag of the field is set), with one exception: the
default-layout field is redrawn when `default_layer_state` or `layer_state`
differs. The font preview is not redrawn. So a change of `layer_state` alone
redraws both the active-layer and the default-layout field, and a change of
any other single tracked input redraws that field alone. -/
theorem second_frame_redrawn_fields (p : painter_t) (x : display_ext_t) (feat : features_t)
    (inp1 inp2 : frame_inputs_t) (s : display_statics_t)
    (hleft1 : inp1.is_keyboard_left = true) (hleft2 : inp2.is_keyboard_left = true)
    (hhue : inp2.curr_hue = inp1.curr_hue) :
    ((second_frame p x feat inp1 inp2 s).redrawn .lock_icons ↔
      feat.QP_LOCK_LOGO_ENABLE = true ∧ inp1.led_state ≠ inp2.led_state) ∧
    ((second_frame p x feat inp1 inp2 s).redrawn .wpm ↔
      feat.WPM_ENABLE = true ∧
        inp2.timer_elapsed32 (ili9341_draw_user p x feat inp1 s).statics.last_wpm_update > 125) ∧
    ((second_frame p x feat inp1 inp2 s).redrawn .scans ↔
      inp2.timer_elapsed32 (ili9341_draw_user p x feat inp1 s).statics.last_scan_update > 125) ∧
    ((second_frame p x feat inp1 inp2 s).redrawn .cpi ↔
      feat.POINTING_DEVICE_ENABLE = true ∧
        (if inp1.sniping_enabled then inp1.sniping_dpi else inp1.default_dpi) ≠
          (if inp2.sniping_enabled then inp2.sniping_dpi else inp2.default_dpi)) ∧
    ((second_frame p x feat inp1 inp2 s).redrawn .drag_scroll ↔
      feat.POINTING_DEVICE_ENABLE = true ∧ inp1.dragscroll_enabled ≠ inp2.dragscroll_enabled) ∧
    ((second_frame p x feat inp1 inp2 s).redrawn .auto_layer ↔
      feat.POINTING_DEVICE_ENABLE = true ∧ inp1.auto_mouse_enable ≠ inp2.auto_mouse_enable) ∧
    ((second_frame p x feat inp1 inp2 s).redrawn .sniping ↔
      feat.POINTING_DEVICE_ENABLE = true ∧ inp1.sniping_enabled ≠ inp2.sniping_enabled) ∧
    ((second_frame p x feat inp1 inp2 s).redrawn .keymap_config ↔
      inp1.keymap_config ≠ inp2.keymap_config) ∧
    ((second_frame p x feat inp1 inp2 s).redrawn .user_state ↔
      inp1.user_state ≠ inp2.user_state) ∧
    ((second_frame p x feat inp1 inp2 s).redrawn .rgb_light ↔
      feat.RGBLIGHT_ENABLE = true ∧ inp1.curr_effect ≠ inp2.curr_effect) ∧
    ((second_frame p x feat inp1 inp2 s).redrawn .rgb_matrix ↔
      feat.RGB_MATRIX_ENABLE = true ∧ inp1.curr_effect ≠ inp2.curr_effect) ∧
    ((second_frame p x feat inp1 inp2 s).redrawn .layout ↔
      inp1.default_layer_state ≠ inp2.default_layer_state ∨
        inp1.layer_state ≠ inp2.layer_state) ∧
    ((second_frame p x feat inp1 inp2 s).redrawn .layer ↔
      inp1.layer_state ≠ inp2.layer_state) ∧
    ((second_frame p x feat inp1 inp2 s).redrawn .autocorrect ↔
      feat.AUTOCORRECT_ENABLE = true ∧ inp2.autocorrect_str_has_changed = true) ∧
    ¬ (second_frame p x feat inp1 inp2 s).redrawn .font_preview ∧
    ((second_frame p x feat inp1 inp2 s).redrawn .keylogger ↔
      feat.KEYLOGGER_ENABLE = true ∧ inp2.keylogger_has_changed = true) := by
  obtain ⟨t1, t2, t3, t4, t5, t6, t7, t8⟩ := left_frame_tracks p x feat inp1 s hleft1
  have t1b : (ili9341_draw_user p x feat inp1 s).statics.last_hue = inp2.curr_hue := by
    rw [t1, hhue]
  unfold second_frame
  simp only [left_frame_redrawn p x feat inp2 _ hleft2, t1b, t2, t3, t4, t5]
  refine ⟨?_, ?_, ?_, ?_, ?_, ?_, ?_, ?_, ?_, ?_, ?_, ?_, ?_, ?_, ?_, ?_⟩
  · constructor
    · intro h
      have h2 : feat.QP_LOCK_LOGO_ENABLE = true ∧
          (ili9341_draw_user p x feat inp1 s).statics.last_led_state ≠ inp2.led_state := by
        simpa using h
      exact ⟨h2.1, by rw [← t6 h2.1]; exact h2.2⟩
    · intro h
      have h2 := t6 h.1
      simp [h.1, h2, h.2]
  · simp
  · simp
  · constructor
    · intro h
      have h2 : feat.POINTING_DEVICE_ENABLE = true ∧
          (ili9341_draw_user p x feat inp1 s).statics.last_cpi ≠
            (if inp2.sniping_enabled then inp2.sniping_dpi else inp2.default_dpi) := by
        simpa using h
      exact ⟨h2.1, by rw [← (t7 h2.1).1]; exact h2.2⟩
    · intro h
      have h2 := (t7 h.1).1
      simp [h.1, h2, h.2]
  · constructor
    · intro h
      have h2 : feat.POINTING_DEVICE_ENABLE = true ∧
          (ili9341_draw_user p x feat inp1 s).statics.last_ds_state ≠
            bool_to_nat inp2.dragscroll_enabled := by
        simpa using h
      exact ⟨h2.1, (bool_to_nat_ne _ _).1 (by rw [← (t7 h2.1).2.1]; exact h2.2)⟩
    · intro h
      have h2 := (t7 h.1).2.1
      have h3 := (bool_to_nat_ne _ _).2 h.2
      simp [h.1, h2, h3]
  · constructor
    · intro h
      have h2 : feat.POINTING_DEVICE_ENABLE = true ∧
          (ili9341_draw_user p x feat inp1 s).statics.last_am_state ≠
            bool_to_nat inp2.auto_mouse_enable := by
        simpa using h
      exact ⟨h2.1, (bool_to_nat_ne _ _).1 (by rw [← (t7 h2.1).2.2.1]; exact h2.2)⟩
    · intro h
      have h2 := (t7 h.1).2.2.1
      have h3 := (bool_to_nat_ne _ _).2 h.2
      simp [h.1, h2, h3]
  · constructor
    · intro h
      have h2 : feat.POINTING_DEVICE_ENABLE = true ∧
          (ili9341_draw_user p x feat inp1 s).statics.last_sp_state ≠
            bool_to_nat inp2.sniping_enabled := by
        simpa using h
      exact ⟨h2.1, (bool_to_nat_ne _ _).1 (by rw [← (t7 h2.1).2.2.2]; exact h2.2)⟩
    · intro h
      have h2 := (t7 h.1).2.2.2
      have h3 := (bool_to_nat_ne _ _).2 h.2
      simp [h.1, h2, h3]
  · simp
  · simp
  · constructor
    · intro h
      have h2 : feat.RGBLIGHT_ENABLE = true ∧
          (ili9341_draw_user p x feat inp1 s).statics.last_effect ≠ inp2.curr_effect := by
        simpa using h
      exact ⟨h2.1, by rw [← t8 (Or.inr h2.1)]; exact h2.2⟩
    · intro h
      have h2 := t8 (Or.inr h.1)
      simp [h.1, h2, h.2]
  · constructor
    · intro h
      have h2 : feat.RGB_MATRIX_ENABLE = true ∧
          (ili9341_draw_user p x feat inp1 s).statics.last_effect ≠ inp2.curr_effect := by
        simpa using h
      exact ⟨h2.1, by rw [← t8 (Or.inl h2.1)]; exact h2.2⟩
    · intro h
      have h2 := t8 (Or.inl h.1)
      simp [h.1, h2, h.2]
  · simp
  · simp
  · simp
  · simp
  · simp

theorem second_frame_redrawn_fields_witness :
    sample_inputs.is_keyboard_left = true ∧ sample_inputs_layer.is_keyboard_left = true ∧
      sample_inputs_layer.curr_hue = sample_inputs.curr_hue ∧
      ((second_frame sample_painter sample_display_ext sample_features sample_inputs
        sample_inputs_layer display_statics_init).redrawn .layer ↔
        sample_inputs.layer_state ≠ sample_inputs_layer.layer_state) ∧
      ¬ (second_frame sample_painter sample_display_ext sample_features sample_inputs
        sample_inputs_layer display_statics_init).redrawn .font_preview :=
  have h := second_frame_redrawn_fields sample_painter sample_display_ext sample_features
    sample_inputs sample_inputs_layer display_statics_init rfl rfl rfl
  ⟨rfl, rfl, rfl, h.2.2.2.2.2.2.2.2.2.2.2.2.1, h.2.2.2.2.2.2.2.2.2.2.2.2.2.2.1⟩

/-! ## Status display: the erase rectangle of a text field -/

theorem calls_of_eq_nil {g : field_t} {l : List tagged_call_t} {P : Prop}
    (h : calls_of g l ≠ [] ↔ P) (hn : ¬ P) : calls_of g l = [] := by
  by_contra hc
  exact hn (h.1 hc)

theorem left_frame_scans_calls (p : painter_t) (x : display_ext_t) (feat : features_t)
    (inp : frame_inputs_t) (s : display_statics_t) (hleft : inp.is_keyboard_left = true) :
    calls_of .scans (ili9341_draw_user p x feat inp s).draws =
      if s.last_hue ≠ inp.curr_hue ∨ inp.timer_elapsed32 s.last_scan_update > 125 then
        [ .qp_drawtext_recolor 50 (scans_ypos p feat) .font_oled (scans_text inp)
            inp.curr_hue 255 255 inp.curr_hue 255 0,
          erase_rect p (scans_extent p inp) (scans_ypos p feat)
            (track_extent s.max_scans_xpos (scans_extent p inp)) ]
      else [] := by
  have hflush : calls_of .scans [((none : Option field_t), draw_call_t.qp_flush)] = [] := by
    simp [calls_of]
  have hlock := fun q h xp yp l =>
    calls_of_eq_nil (calls_of_lock_block p x inp q h xp yp l .scans) (by simp)
  have hkey := fun h xp yp l m =>
    calls_of_eq_nil (calls_of_keymap_config p x inp h xp yp l m .scans) (by simp)
  have husr := fun h xp yp l m =>
    calls_of_eq_nil (calls_of_user_state p x inp h xp yp l m .scans) (by simp)
  have hac := fun q h xp yp m =>
    calls_of_eq_nil (calls_of_autocorrect_block p inp q h xp yp m .scans) (by simp)
  have hfont := fun h xp yp m =>
    calls_of_eq_nil (calls_of_font_preview x inp h xp yp m .scans) (by simp)
  have hklog := fun q xp yp m =>
    calls_of_eq_nil (calls_of_keylogger_block p inp q xp yp m .scans) (by simp)
  unfold ili9341_draw_user
  simp only [hleft, if_true]
  simp only [calls_of_append, calls_of_hue_text, calls_of_indicator, hlock, hkey, husr, hac,
    hfont, hklog, hflush, reduceCtorEq, and_false, and_true, if_false, List.nil_append,
    List.append_nil, Bool.or_eq_true, decide_eq_true_eq]
  rfl

set_option maxRecDepth 4096 in
theorem sample_scans_text : scans_text sample_inputs = "SCANS: 1234" := by
  decide

set_option maxRecDepth 4096 in
theorem sample_scans_text_short : scans_text sample_inputs_scan = "SCANS: 7" := by
  decide

theorem sample_scans_extent : scans_extent sample_painter sample_inputs = 116 := by
  unfold scans_extent
  rw [sample_scans_text]
  decide

theorem sample_scans_extent_short : scans_extent sample_painter sample_inputs_scan = 98 := by
  unfold scans_extent
  rw [sample_scans_text_short]
  decide

theorem left_frame_max_scans (p : painter_t) (x : display_ext_t) (feat : features_t)
    (inp : frame_inputs_t) (s : display_statics_t) (hleft : inp.is_keyboard_left = true) :
    (ili9341_draw_user p x feat inp s).statics.max_scans_xpos =
      if s.last_hue ≠ inp.curr_hue ∨ inp.timer_elapsed32 s.last_scan_update > 125 then
        track_extent s.max_scans_xpos (scans_extent p inp)
      else s.max_scans_xpos := by
  unfold ili9341_draw_user
  simp only [hleft, if_true]
  unfold draw_hue_text
  by_cases h : s.last_hue ≠ inp.curr_hue ∨ inp.timer_elapsed32 s.last_scan_update > 125
  · have hb : (decide (s.last_hue ≠ inp.curr_hue) ||
        decide (inp.timer_elapsed32 s.last_scan_update > 125)) = true := by simpa using h
    simp only [hb, if_true, if_pos h]
    rfl
  · have hb : (decide (s.last_hue ≠ inp.curr_hue) ||
        decide (inp.timer_elapsed32 s.last_scan_update > 125)) = false := by
      simpa [not_or] using h
    simp only [hb, if_neg h]
    rfl

theorem sample_statics_max_scans : sample_statics.max_scans_xpos = 116 := by
  unfold sample_statics
  rw [left_frame_max_scans _ _ _ _ _ rfl, sample_scans_extent]
  decide

/-- C20 (counterexample): the first frame drawn from the initialisers records
no earlier extent (0), so the new extent 116 of the scan-rate text is larger
than the recorded one, and the block still emits its black filled rectangle,
with both edges at the new extent. -/
theorem scans_rect_emitted_without_shrink :
    display_statics_init.max_scans_xpos ≤ scans_extent sample_painter sample_inputs ∧
      calls_of .scans (ili9341_draw_user sample_painter sample_display_ext sample_features
        sample_inputs display_statics_init).draws =
        [ .qp_drawtext_recolor 50 36 .font_oled "SCANS: 1234" 10 255 255 10 255 0,
          .qp_rect 116 36 116 44 0 0 0 true ] := by
  refine ⟨by rw [sample_scans_extent]; decide, ?_⟩
  rw [left_frame_scans_calls _ _ _ _ _ rfl, sample_scans_extent, sample_scans_text,
    if_pos (Or.inl (by decide))]
  decide

/-- The scan-rate block in full: position, text and colours of its text call,
and the two shapes of its rectangle. -/
theorem scans_block_calls (p : painter_t) (x : display_ext_t) (feat : features_t)
    (inp : frame_inputs_t) (s : display_statics_t) (hleft : inp.is_keyboard_left = true)
    (hredraw : s.last_hue ≠ inp.curr_hue ∨ inp.timer_elapsed32 s.last_scan_update > 125) :
    (scans_extent p inp < s.max_scans_xpos →
      calls_of .scans (ili9341_draw_user p x feat inp s).draws =
        [ .qp_drawtext_recolor 50 (scans_ypos p feat) .font_oled (scans_text inp)
            inp.curr_hue 255 255 inp.curr_hue 255 0,
          .qp_rect (scans_extent p inp) (scans_ypos p feat) s.max_scans_xpos
            (scans_ypos p feat + p.line_height .font_oled) 0 0 0 true ]) ∧
    (s.max_scans_xpos ≤ scans_extent p inp →
      calls_of .scans (ili9341_draw_user p x feat inp s).draws =
        [ .qp_drawtext_recolor 50 (scans_ypos p feat) .font_oled (scans_text inp)
            inp.curr_hue 255 255 inp.curr_hue 255 0,
          .qp_rect (scans_extent p inp) (scans_ypos p feat) (scans_extent p inp)
            (scans_ypos p feat + p.line_height .font_oled) 0 0 0 true ]) := by
  rw [left_frame_scans_calls p x feat inp s hleft, if_pos hredraw]
  constructor
  · intro h
    have ht : track_extent s.max_scans_xpos (scans_extent p inp) = s.max_scans_xpos := by
      unfold track_extent
      rw [if_neg (by omega)]
    rw [ht]
    rfl
  · intro h
    have ht : track_extent s.max_scans_xpos (scans_extent p inp) = scans_extent p inp := by
      unfold track_extent
      split_ifs with h2
      · rfl
      · omega
    rw [ht]
    rfl

theorem sample_scans_block_calls :
    sample_inputs_scan.is_keyboard_left = true ∧
      sample_inputs_scan.timer_elapsed32 sample_statics.last_scan_update > 125 ∧
      scans_extent sample_painter sample_inputs_scan < sample_statics.max_scans_xpos ∧
      calls_of .scans (ili9341_draw_user sample_painter sample_display_ext sample_features
        sample_inputs_scan sample_statics).draws =
        [ .qp_drawtext_recolor 50 36 .font_oled "SCANS: 7" 10 255 255 10 255 0,
          .qp_rect 98 36 116 44 0 0 0 true ] := by
  have ht : sample_inputs_scan.timer_elapsed32 sample_statics.last_scan_update > 125 := by
    decide
  have hlt : scans_extent sample_painter sample_inputs_scan < sample_statics.max_scans_xpos := by
    rw [sample_scans_extent_short, sample_statics_max_scans]; decide
  refine ⟨rfl, ht, hlt, ?_⟩
  rw [(scans_block_calls sample_painter sample_display_ext sample_features sample_inputs_scan
    sample_statics rfl (Or.inr ht)).1 hlt, sample_scans_extent_short, sample_scans_text_short,
    sample_statics_max_scans]
  decide

/-! ## Depth of the navigation stack on the configured tree -/

theorem selected_item_closed (rt : menu_entry_t) (st : menu_state_t)
    (h : st.selected_child = 0xFF) : get_selected_menu_item rt st = none := by
  simp [get_selected_menu_item, get_current_menu, h]

theorem selected_item_unicode (c : Nat) (d m : Bool) (s : Nat) (hs : s < 2) (sel : menu_entry_t)
    (hsel : get_selected_menu_item (root c) ⟨d, m, s, single_stack 1⟩ = some sel) :
    sel.flags &&& menu_flag_is_parent = 0 := by
  unfold get_selected_menu_item at hsel
  rw [current_menu_unicode c d m s (by omega)] at hsel
  have h2 : s = 0 ∨ s = 1 := by omega
  rcases h2 with rfl | rfl
  · simp [menu_entry_t.parent_child, unicode_entries] at hsel
    subst hsel
    decide
  · simp [menu_entry_t.parent_child, unicode_entries] at hsel
    subst hsel
    show menu_flag_is_value &&& menu_flag_is_parent = 0
    decide

theorem selected_item_rgb (c : Nat) (d m : Bool) (s : Nat) (hs : s < 6) (sel : menu_entry_t)
    (hsel : get_selected_menu_item (root c) ⟨d, m, s, single_stack 2⟩ = some sel) :
    sel.flags &&& menu_flag_is_parent = 0 := by
  unfold get_selected_menu_item at hsel
  rw [current_menu_rgb c d m s (by omega)] at hsel
  have h2 : s = 0 ∨ s = 1 ∨ s = 2 ∨ s = 3 ∨ s = 4 ∨ s = 5 := by omega
  rcases h2 with rfl | rfl | rfl | rfl | rfl | rfl <;>
    · simp [menu_entry_t.parent_child, rgb_matrix_entries] at hsel
      subst hsel
      decide

theorem nav_inv_stack_depth (st : menu_state_t) (h : nav_inv st) :
    (st.menu_stack.toList.filter fun a => a != 0xFF).length ≤ 1 ∧
      ∀ i : Fin 8, 0 < i.val → st.menu_stack.get i = 0xFF := by
  rcases h with ⟨-, hv, -⟩ | ⟨-, hv, -⟩ | ⟨-, hv, -⟩ | ⟨-, hv, -⟩ <;>
    · rw [hv]
      exact ⟨by decide, by decide⟩

theorem nav_inv_enter_parent (c : Nat) (st : menu_state_t) (h : nav_inv st) (env : env_t)
    (sel : menu_entry_t) (hsel : get_selected_menu_item (root c) st = some sel)
    (hpar : sel.flags &&& menu_flag_is_parent ≠ 0) :
    st.menu_stack = empty_stack ∧ st.selected_child ≠ 0xFF ∧
      menu_handle_input (root c) menu_input_enter st env =
        some (false,
          { st with menu_stack := st.menu_stack.set 0 st.selected_child, selected_child := 0 },
          env) := by
  obtain ⟨d, m, s, v⟩ := st
  rcases h with ⟨-, -, hs⟩ | ⟨-, hv, hs⟩ | ⟨-, hv, hs⟩ | ⟨-, hv, hs⟩
  · simp only at hs
    rw [selected_item_closed _ _ hs] at hsel
    cases hsel
  · simp only at hv hs
    subst hv
    refine ⟨rfl, by simp only; omega, ?_⟩
    exact menu_enter_push (root c) _ env sel 0 hsel hpar rfl
      (fun j hj => absurd hj (by simp))
  · simp only at hv hs
    subst hv
    exact absurd (selected_item_unicode c d m s hs sel hsel) hpar
  · simp only at hv hs
    subst hv
    exact absurd (selected_item_rgb c d m s hs sel hsel) hpar

/-- C22: on the configured tree every navigation state reachable through
`process_record_menu` has at most one occupied slot of `menu_stack`, and only
slot 0 can be the occupied one; so the eight slots are never all occupied,
and an enter input on a selected entry with the parent flag always pushes:
the stack is empty at that moment, the old `selected_child` is stored in slot
0 and `selected_child` becomes 0. -/
theorem reachable_stack_depth (k : keycodes_t) (c : Nat) (st : menu_state_t)
    (hr : reachable k c st) :
    (st.menu_stack.toList.filter fun a => a != 0xFF).length ≤ 1 ∧
    (∀ i : Fin 8, 0 < i.val → st.menu_stack.get i = 0xFF) ∧
    ¬ (∀ i : Fin 8, st.menu_stack.get i ≠ 0xFF) ∧
    ∀ (env : env_t) (sel : menu_entry_t), get_selected_menu_item (root c) st = some sel →
      sel.flags &&& menu_flag_is_parent ≠ 0 →
      st.menu_stack = empty_stack ∧ st.selected_child ≠ 0xFF ∧
        menu_handle_input (root c) menu_input_enter st env =
          some (false,
            { st with menu_stack := st.menu_stack.set 0 st.selected_child, selected_child := 0 },
            env) := by
  have hinv := reachable_nav_inv hr
  obtain ⟨h1, h2⟩ := nav_inv_stack_depth st hinv
  exact ⟨h1, h2, fun hall => hall 1 (h2 1 (by decide)),
    fun env sel hsel hpar => nav_inv_enter_parent c st hinv env sel hsel hpar⟩

theorem reachable_stack_depth_witness :
    reachable sample_keycodes 6 { opened_state with selected_child := 1 } ∧
      menu_handle_input (root 6) menu_input_enter { opened_state with selected_child := 1 }
        sample_env =
        some (false, { opened_state with menu_stack := single_stack 1, selected_child := 0 },
          sample_env) :=
  ⟨unicode_settings_selected_reachable,
    ((reachable_stack_depth sample_keycodes 6 { opened_state with selected_child := 1 }
      unicode_settings_selected_reachable).2.2.2 sample_env
      (.parent menu_flag_is_parent "Unicode Settings" (unicode_entries 6) 2) rfl
      (by decide)).2.2⟩

/-! ## The typing-mode handler -/

theorem unicode_typing_right (c m : Nat) (calls : List ext_call_t) (hm : m < c)
    (hc : c ≤ 256) :
    (menu_handler_unicode_typing c menu_input_right
      { unicode_typing_mode := m, calls := calls }).2.unicode_typing_mode = (m + 1) % c := by
  have hlt : (m + 1) % c < c := Nat.mod_lt _ (by omega)
  have h1 : Int.tmod ((m : Int) + 1) (c : Int) = (((m + 1) % c : Nat) : Int) := by
    have : ((m : Int) + 1) = ((m + 1 : Nat) : Int) := by push_cast; rfl
    rw [this]
    rfl
  simp only [menu_handler_unicode_typing, int_to_uint8, h1]
  omega

theorem unicode_typing_left_pos (c m : Nat) (calls : List ext_call_t) (h0 : 0 < m) (hm : m < c)
    (hc : c ≤ 256) :
    (menu_handler_unicode_typing c menu_input_left
      { unicode_typing_mode := m, calls := calls }).2.unicode_typing_mode = m - 1 := by
  have h1 : Int.tmod ((m : Int) - 1) (c : Int) = ((m - 1 : Nat) : Int) := by
    have : ((m : Int) - 1) = ((m - 1 : Nat) : Int) := by omega
    rw [this]
    show (((m - 1) % c : Nat) : Int) = _
    rw [Nat.mod_eq_of_lt (by omega)]
  simp only [menu_handler_unicode_typing, int_to_uint8, h1]
  omega

theorem unicode_typing_left_zero (c : Nat) (calls : List ext_call_t) (hc : 1 < c) :
    (menu_handler_unicode_typing c menu_input_left
      { unicode_typing_mode := 0, calls := calls }).2.unicode_typing_mode = 255 := by
  have h1 : Int.tmod ((0 : Nat) - 1 : Int) (c : Int) = -1 := by
    have : ((0 : Nat) - 1 : Int) = Int.negSucc 0 := by decide
    rw [this]
    show -(((1 % c : Nat)) : Int) = -1
    rw [Nat.mod_eq_of_lt hc]
    rfl
  simp only [menu_handler_unicode_typing, int_to_uint8, h1]
  decide

/-- C23: the left input on typing mode 0 leaves the range. For every
`UNICODE_MODE_COUNT` from 2 to 255, `(0 - 1) % UNICODE_MODE_COUNT` is -1 in
`int`, and the 8-bit mode variable then holds 255, which is not below
`UNICODE_MODE_COUNT`. -/
theorem unicode_typing_left_from_zero (c : Nat) (calls : List ext_call_t) (hc : 1 < c)
    (hc255 : c ≤ 255) :
    (menu_handler_unicode_typing c menu_input_left
      { unicode_typing_mode := 0, calls := calls }).2.unicode_typing_mode = 255 ∧
    ¬ (menu_handler_unicode_typing c menu_input_left
      { unicode_typing_mode := 0, calls := calls }).2.unicode_typing_mode < c ∧
    (menu_handler_unicode_typing c menu_input_left
      { unicode_typing_mode := 0, calls := calls }).2.unicode_typing_mode ≠ c - 1 := by
  rw [unicode_typing_left_zero c calls hc]
  omega

theorem unicode_typing_left_from_zero_witness :
    (menu_handler_unicode_typing 6 menu_input_left sample_env).2.unicode_typing_mode = 255 ∧
      ¬ (menu_handler_unicode_typing 6 menu_input_left sample_env).2.unicode_typing_mode < 6 ∧
      (menu_handler_unicode_typing 6 menu_input_left sample_env).2.unicode_typing_mode ≠ 6 - 1 :=
  unicode_typing_left_from_zero 6 [] (by decide) (by decide)
/-! ## Status display: the recorded extent of a text field -/

theorem track_extent_eq_max (m e : Nat) : track_extent m e = max m e := by
  unfold track_extent
  split_ifs <;> omega

theorem tracked_transfer {p : painter_t} {f : field_t} {m M : Nat}
    {bd draws : List tagged_call_t} (hsub : ∀ c ∈ bd, c ∈ draws)
    (h : ∃ e y, (some f, erase_rect p e y M) ∈ bd ∧ M = max m e) :
    ∃ e y, (some f, erase_rect p e y M) ∈ draws ∧ M = max m e := by
  obtain ⟨e, y, hmem, hmax⟩ := h
  exact ⟨e, y, hsub _ hmem, hmax⟩

theorem hue_text_tracked (p : painter_t) (inp : frame_inputs_t) (f : field_t) (redraw : Bool)
    (start : Nat) (text : String) (xpos ypos m : Nat) :
    m ≤ (draw_hue_text p inp f redraw start text xpos ypos m).max_xpos ∧
      (redraw = true → ∃ e y,
        (some f, erase_rect p e y (draw_hue_text p inp f redraw start text xpos ypos m).max_xpos)
          ∈ (draw_hue_text p inp f redraw start text xpos ypos m).draws ∧
        (draw_hue_text p inp f redraw start text xpos ypos m).max_xpos = max m e) := by
  unfold draw_hue_text
  cases redraw
  · simp
  · simp only [if_true, draw_text_field, track_extent_eq_max]
    exact ⟨le_max_left _ _, fun _ => ⟨_, ypos, by simp, rfl⟩⟩

theorem keymap_config_tracked (p : painter_t) (x : display_ext_t) (inp : frame_inputs_t)
    (hue_redraw : Bool) (xpos ypos last m : Nat) :
    m ≤ (draw_keymap_config p x inp hue_redraw xpos ypos last m).2.max_xpos ∧
      ((hue_redraw = true ∨ last ≠ inp.keymap_config) → ∃ e y,
        (some .keymap_config,
          erase_rect p e y (draw_keymap_config p x inp hue_redraw xpos ypos last m).2.max_xpos)
          ∈ (draw_keymap_config p x inp hue_redraw xpos ypos last m).2.draws ∧
        (draw_keymap_config p x inp hue_redraw xpos ypos last m).2.max_xpos = max m e) := by
  unfold draw_keymap_config
  by_cases hc : (hue_redraw || decide (last ≠ inp.keymap_config)) = true
  · simp only [hc, if_true, track_extent_eq_max]
    exact ⟨le_max_left _ _, fun _ => ⟨_, ypos, by simp, rfl⟩⟩
  · have hc2 : ¬ (hue_redraw = true ∨ last ≠ inp.keymap_config) := by simpa using hc
    simp only [hc, if_false]
    exact ⟨le_refl _, fun h => absurd h hc2⟩

theorem user_state_tracked (p : painter_t) (x : display_ext_t) (inp : frame_inputs_t)
    (hue_redraw : Bool) (xpos ypos last m : Nat) :
    m ≤ (draw_user_state p x inp hue_redraw xpos ypos last m).2.max_xpos ∧
      ((hue_redraw = true ∨ last ≠ inp.user_state) → ∃ e y,
        (some .user_state,
          erase_rect p e y (draw_user_state p x inp hue_redraw xpos ypos last m).2.max_xpos)
          ∈ (draw_user_state p x inp hue_redraw xpos ypos last m).2.draws ∧
        (draw_user_state p x inp hue_redraw xpos ypos last m).2.max_xpos = max m e) := by
  unfold draw_user_state
  by_cases hc : (hue_redraw || decide (last ≠ inp.user_state)) = true
  · simp only [hc, if_true, track_extent_eq_max]
    exact ⟨le_max_left _ _, fun _ => ⟨_, ypos, by simp, rfl⟩⟩
  · have hc2 : ¬ (hue_redraw = true ∨ last ≠ inp.user_state) := by simpa using hc
    simp only [hc, if_false]
    exact ⟨le_refl _, fun h => absurd h hc2⟩

theorem left_frame_wpm_tracked (p : painter_t) (x : display_ext_t) (feat : features_t)
    (inp : frame_inputs_t) (s : display_statics_t) (hleft : inp.is_keyboard_left = true) :
    s.max_xpos .wpm ≤ (ili9341_draw_user p x feat inp s).statics.max_xpos .wpm ∧
      ((ili9341_draw_user p x feat inp s).redrawn .wpm → ∃ e y,
        (some .wpm,
          erase_rect p e y ((ili9341_draw_user p x feat inp s).statics.max_xpos .wpm))
          ∈ (ili9341_draw_user p x feat inp s).draws ∧
        (ili9341_draw_user p x feat inp s).statics.max_xpos .wpm =
          max (s.max_xpos .wpm) e) := by
  have hred := left_frame_redrawn p x feat inp s hleft .wpm
  simp only [reduceCtorEq, false_and, and_false, or_false, false_or, true_and] at hred
  rw [hred]
  unfold ili9341_draw_user display_statics_t.max_xpos
  simp only [hleft, if_true]
  refine ⟨(hue_text_tracked _ _ _ _ _ _ _ _ _).1, fun hc => ?_⟩
  refine tracked_transfer ?_ ((hue_text_tracked _ _ _ _ _ _ _ _ _).2 ?_)
  · intro c hc
    simp only [List.mem_append]
    tauto
  · simp [hc]

theorem left_frame_scans_tracked (p : painter_t) (x : display_ext_t) (feat : features_t)
    (inp : frame_inputs_t) (s : display_statics_t) (hleft : inp.is_keyboard_left = true) :
    s.max_xpos .scans ≤ (ili9341_draw_user p x feat inp s).statics.max_xpos .scans ∧
      ((ili9341_draw_user p x feat inp s).redrawn .scans → ∃ e y,
        (some .scans,
          erase_rect p e y ((ili9341_draw_user p x feat inp s).statics.max_xpos .scans))
          ∈ (ili9341_draw_user p x feat inp s).draws ∧
        (ili9341_draw_user p x feat inp s).statics.max_xpos .scans =
          max (s.max_xpos .scans) e) := by
  have hred := left_frame_redrawn p x feat inp s hleft .scans
  simp only [reduceCtorEq, false_and, and_false, or_false, false_or, true_and] at hred
  rw [hred]
  unfold ili9341_draw_user display_statics_t.max_xpos
  simp only [hleft, if_true]
  refine ⟨(hue_text_tracked _ _ _ _ _ _ _ _ _).1, fun hc => ?_⟩
  refine tracked_transfer ?_ ((hue_text_tracked _ _ _ _ _ _ _ _ _).2 ?_)
  · intro c hc
    simp only [List.mem_append]
    tauto
  · simp [hc]

theorem left_frame_cpi_tracked (p : painter_t) (x : display_ext_t) (feat : features_t)
    (inp : frame_inputs_t) (s : display_statics_t) (hleft : inp.is_keyboard_left = true) :
    s.max_xpos .cpi ≤ (ili9341_draw_user p x feat inp s).statics.max_xpos .cpi ∧
      ((ili9341_draw_user p x feat inp s).redrawn .cpi → ∃ e y,
        (some .cpi,
          erase_rect p e y ((ili9341_draw_user p x feat inp s).statics.max_xpos .cpi))
          ∈ (ili9341_draw_user p x feat inp s).draws ∧
        (ili9341_draw_user p x feat inp s).statics.max_xpos .cpi =
          max (s.max_xpos .cpi) e) := by
  have hred := left_frame_redrawn p x feat inp s hleft .cpi
  simp only [reduceCtorEq, false_and, and_false, or_false, false_or, true_and] at hred
  rw [hred]
  unfold ili9341_draw_user display_statics_t.max_xpos
  simp only [hleft, if_true]
  refine ⟨(hue_text_tracked _ _ _ _ _ _ _ _ _).1, fun hc => ?_⟩
  refine tracked_transfer ?_ ((hue_text_tracked _ _ _ _ _ _ _ _ _).2 ?_)
  · intro c hc
    simp only [List.mem_append]
    tauto
  · simp [hc]

theorem left_frame_keymap_config_tracked (p : painter_t) (x : display_ext_t) (feat : features_t)
    (inp : frame_inputs_t) (s : display_statics_t) (hleft : inp.is_keyboard_left = true) :
    s.max_xpos .keymap_config ≤ (ili9341_draw_user p x feat inp s).statics.max_xpos .keymap_config ∧
      ((ili9341_draw_user p x feat inp s).redrawn .keymap_config → ∃ e y,
        (some .keymap_config,
          erase_rect p e y ((ili9341_draw_user p x feat inp s).statics.max_xpos .keymap_config))
          ∈ (ili9341_draw_user p x feat inp s).draws ∧
        (ili9341_draw_user p x feat inp s).statics.max_xpos .keymap_config =
          max (s.max_xpos .keymap_config) e) := by
  have hred := left_frame_redrawn p x feat inp s hleft .keymap_config
  simp only [reduceCtorEq, false_and, and_false, or_false, false_or, true_and] at hred
  rw [hred]
  unfold ili9341_draw_user display_statics_t.max_xpos
  simp only [hleft, if_true]
  refine ⟨(keymap_config_tracked _ _ _ _ _ _ _ _).1, fun hc => ?_⟩
  refine tracked_transfer ?_ ((keymap_config_tracked _ _ _ _ _ _ _ _).2 ?_)
  · intro c hc
    simp only [List.mem_append]
    tauto
  · simpa using hc

theorem left_frame_user_state_tracked (p : painter_t) (x : display_ext_t) (feat : features_t)
    (inp : frame_inputs_t) (s : display_statics_t) (hleft : inp.is_keyboard_left = true) :
    s.max_xpos .user_state ≤ (ili9341_draw_user p x feat inp s).statics.max_xpos .user_state ∧
      ((ili9341_draw_user p x feat inp s).redrawn .user_state → ∃ e y,
        (some .user_state,
          erase_rect p e y ((ili9341_draw_user p x feat inp s).statics.max_xpos .user_state))
          ∈ (ili9341_draw_user p x feat inp s).draws ∧
        (ili9341_draw_user p x feat inp s).statics.max_xpos .user_state =
          max (s.max_xpos .user_state) e) := by
  have hred := left_frame_redrawn p x feat inp s hleft .user_state
  simp only [reduceCtorEq, false_and, and_false, or_false, false_or, true_and] at hred
  rw [hred]
  unfold ili9341_draw_user display_statics_t.max_xpos
  simp only [hleft, if_true]
  refine ⟨(user_state_tracked _ _ _ _ _ _ _ _).1, fun hc => ?_⟩
  refine tracked_transfer ?_ ((user_state_tracked _ _ _ _ _ _ _ _).2 ?_)
  · intro c hc
    simp only [List.mem_append]
    tauto
  · simpa using hc

theorem left_frame_rgb_light_tracked (p : painter_t) (x : display_ext_t) (feat : features_t)
    (inp : frame_inputs_t) (s : display_statics_t) (hleft : inp.is_keyboard_left = true) :
    s.max_xpos .rgb_light ≤ (ili9341_draw_user p x feat inp s).statics.max_xpos .rgb_light ∧
      ((ili9341_draw_user p x feat inp s).redrawn .rgb_light → ∃ e y,
        (some .rgb_light,
          erase_rect p e y ((ili9341_draw_user p x feat inp s).statics.max_xpos .rgb_light))
          ∈ (ili9341_draw_user p x feat inp s).draws ∧
        (ili9341_draw_user p x feat inp s).statics.max_xpos .rgb_light =
          max (s.max_xpos .rgb_light) e) := by
  have hred := left_frame_redrawn p x feat inp s hleft .rgb_light
  simp only [reduceCtorEq, false_and, and_false, or_false, false_or, true_and] at hred
  rw [hred]
  unfold ili9341_draw_user display_statics_t.max_xpos
  simp only [hleft, if_true]
  refine ⟨(hue_text_tracked _ _ _ _ _ _ _ _ _).1, fun hc => ?_⟩
  refine tracked_transfer ?_ ((hue_text_tracked _ _ _ _ _ _ _ _ _).2 ?_)
  · intro c hc
    simp only [List.mem_append]
    tauto
  · simp [hc]

theorem left_frame_rgb_matrix_tracked (p : painter_t) (x : display_ext_t) (feat : features_t)
    (inp : frame_inputs_t) (s : display_statics_t) (hleft : inp.is_keyboard_left = true) :
    s.max_xpos .rgb_matrix ≤ (ili9341_draw_user p x feat inp s).statics.max_xpos .rgb_matrix ∧
      ((ili9341_draw_user p x feat inp s).redrawn .rgb_matrix → ∃ e y,
        (some .rgb_matrix,
          erase_rect p e y ((ili9341_draw_user p x feat inp s).statics.max_xpos .rgb_matrix))
          ∈ (ili9341_draw_user p x feat inp s).draws ∧
        (ili9341_draw_user p x feat inp s).statics.max_xpos .rgb_matrix =
          max (s.max_xpos .rgb_matrix) e) := by
  have hred := left_frame_redrawn p x feat inp s hleft .rgb_matrix
  simp only [reduceCtorEq, false_and, and_false, or_false, false_or, true_and] at hred
  rw [hred]
  unfold ili9341_draw_user display_statics_t.max_xpos
  simp only [hleft, if_true]
  refine ⟨(hue_text_tracked _ _ _ _ _ _ _ _ _).1, fun hc => ?_⟩
  refine tracked_transfer ?_ ((hue_text_tracked _ _ _ _ _ _ _ _ _).2 ?_)
  · intro c hc
    simp only [List.mem_append]
    tauto
  · simp [hc]

theorem left_frame_layout_tracked (p : painter_t) (x : display_ext_t) (feat : features_t)
    (inp : frame_inputs_t) (s : display_statics_t) (hleft : inp.is_keyboard_left = true) :
    s.max_xpos .layout ≤ (ili9341_draw_user p x feat inp s).statics.max_xpos .layout ∧
      ((ili9341_draw_user p x feat inp s).redrawn .layout → ∃ e y,
        (some .layout,
          erase_rect p e y ((ili9341_draw_user p x feat inp s).statics.max_xpos .layout))
          ∈ (ili9341_draw_user p x feat inp s).draws ∧
        (ili9341_draw_user p x feat inp s).statics.max_xpos .layout =
          max (s.max_xpos .layout) e) := by
  have hred := left_frame_redrawn p x feat inp s hleft .layout
  simp only [reduceCtorEq, false_and, and_false, or_false, false_or, true_and] at hred
  rw [hred]
  unfold ili9341_draw_user display_statics_t.max_xpos
  simp only [hleft, if_true]
  refine ⟨(hue_text_tracked _ _ _ _ _ _ _ _ _).1, fun hc => ?_⟩
  refine tracked_transfer ?_ ((hue_text_tracked _ _ _ _ _ _ _ _ _).2 ?_)
  · intro c hc
    simp only [List.mem_append]
    tauto
  · simp only [Bool.or_eq_true, decide_eq_true_eq, ne_eq] at hc ⊢
    tauto

theorem left_frame_layer_tracked (p : painter_t) (x : display_ext_t) (feat : features_t)
    (inp : frame_inputs_t) (s : display_statics_t) (hleft : inp.is_keyboard_left = true) :
    s.max_xpos .layer ≤ (ili9341_draw_user p x feat inp s).statics.max_xpos .layer ∧
      ((ili9341_draw_user p x feat inp s).redrawn .layer → ∃ e y,
        (some .layer,
          erase_rect p e y ((ili9341_draw_user p x feat inp s).statics.max_xpos .layer))
          ∈ (ili9341_draw_user p x feat inp s).draws ∧
        (ili9341_draw_user p x feat inp s).statics.max_xpos .layer =
          max (s.max_xpos .layer) e) := by
  have hred := left_frame_redrawn p x feat inp s hleft .layer
  simp only [reduceCtorEq, false_and, and_false, or_false, false_or, true_and] at hred
  rw [hred]
  unfold ili9341_draw_user display_statics_t.max_xpos
  simp only [hleft, if_true]
  refine ⟨(hue_text_tracked _ _ _ _ _ _ _ _ _).1, fun hc => ?_⟩
  refine tracked_transfer ?_ ((hue_text_tracked _ _ _ _ _ _ _ _ _).2 ?_)
  · intro c hc
    simp only [List.mem_append]
    tauto
  · simp [hc]

/-- For each field of `tracked_fields`: the recorded extent does not decrease
over a frame on the left half, and when the frame redraws the field it is
the maximum of the extent recorded before and `e`, the `xpos` the block has
reached when it calls `qp_rect` (the left edge of the rectangle). -/
theorem left_frame_tracked (p : painter_t) (x : display_ext_t) (feat : features_t)
    (inp : frame_inputs_t) (s : display_statics_t) (hleft : inp.is_keyboard_left = true)
    (f : field_t) (hf : f ∈ tracked_fields) :
    s.max_xpos f ≤ (ili9341_draw_user p x feat inp s).statics.max_xpos f ∧
      ((ili9341_draw_user p x feat inp s).redrawn f → ∃ e y,
        (some f, erase_rect p e y ((ili9341_draw_user p x feat inp s).statics.max_xpos f))
          ∈ (ili9341_draw_user p x feat inp s).draws ∧
        (ili9341_draw_user p x feat inp s).statics.max_xpos f = max (s.max_xpos f) e) := by
  simp only [tracked_fields, List.mem_cons, List.mem_singleton, List.not_mem_nil, or_false] at hf
  rcases hf with rfl | rfl | rfl | rfl | rfl | rfl | rfl | rfl | rfl
  · exact left_frame_wpm_tracked p x feat inp s hleft
  · exact left_frame_scans_tracked p x feat inp s hleft
  · exact left_frame_cpi_tracked p x feat inp s hleft
  · exact left_frame_keymap_config_tracked p x feat inp s hleft
  · exact left_frame_user_state_tracked p x feat inp s hleft
  · exact left_frame_rgb_light_tracked p x feat inp s hleft
  · exact left_frame_rgb_matrix_tracked p x feat inp s hleft
  · exact left_frame_layout_tracked p x feat inp s hleft
  · exact left_frame_layer_tracked p x feat inp s hleft

theorem frame_tracked_monotone (p : painter_t) (x : display_ext_t) (feat : features_t)
    (inp : frame_inputs_t) (s : display_statics_t) (f : field_t) (hf : f ∈ tracked_fields) :
    s.max_xpos f ≤ (ili9341_draw_user p x feat inp s).statics.max_xpos f := by
  by_cases hleft : inp.is_keyboard_left = true
  · exact (left_frame_tracked p x feat inp s hleft f hf).1
  · simp only [tracked_fields, List.mem_cons, List.mem_singleton, List.not_mem_nil,
      or_false] at hf
    unfold ili9341_draw_user
    simp only [hleft, if_false]
    rcases hf with rfl | rfl | rfl | rfl | rfl | rfl | rfl | rfl | rfl <;> exact le_refl _
theorem draw_frames_monotone (p : painter_t) (x : display_ext_t) (feat : features_t)
    (f : field_t) (hf : f ∈ tracked_fields) :
    ∀ (frames : List frame_inputs_t) (s : display_statics_t),
      s.max_xpos f ≤ (draw_frames p x feat frames s).max_xpos f
  | [], _ => le_refl _
  | inp :: rest, s =>
    le_trans (frame_tracked_monotone p x feat inp s f hf)
      (draw_frames_monotone p x feat f hf rest _)

/-! ## Status display: the edges of the erase rectangles -/

theorem erase_rect_edges (p : painter_t) (xpos ypos m : Nat) :
    (erase_rect p xpos ypos (track_extent m xpos)).edges_ordered := by
  have h : xpos ≤ track_extent m xpos := by
    rw [track_extent_eq_max]
    exact le_max_right _ _
  show ((xpos : Nat) : Int) ≤ ((track_extent m xpos : Nat) : Int)
  exact_mod_cast h

theorem text_field_edges (p : painter_t) (f : field_t) (xpos ypos m : Nat) (text : String)
    (a b c d e h : Nat) :
    ∀ t ∈ (draw_text_field p f xpos ypos m text a b c d e h).draws, t.2.edges_ordered := by
  intro t ht
  simp only [draw_text_field, List.mem_cons, List.mem_singleton, List.not_mem_nil,
    or_false] at ht
  rcases ht with rfl | rfl
  · exact True.intro
  · exact erase_rect_edges p _ _ _

theorem hue_text_edges (p : painter_t) (inp : frame_inputs_t) (f : field_t) (redraw : Bool)
    (start : Nat) (text : String) (xpos ypos m : Nat) :
    ∀ t ∈ (draw_hue_text p inp f redraw start text xpos ypos m).draws, t.2.edges_ordered := by
  unfold draw_hue_text
  cases redraw
  · simp
  · exact text_field_edges p f _ _ _ _ _ _ _ _ _ _

theorem indicator_edges (p : painter_t) (f : field_t) (redraw : Bool) (start : Nat)
    (text : String) (hue_fg hue_bg xpos ypos m : Nat) :
    ∀ t ∈ (draw_indicator p f redraw start text hue_fg hue_bg xpos ypos m).draws,
      t.2.edges_ordered := by
  unfold draw_indicator
  cases redraw
  · simp
  · exact text_field_edges p f _ _ _ _ _ _ _ _ _ _

theorem lock_block_edges (p : painter_t) (x : display_ext_t) (inp : frame_inputs_t)
    (q hue_redraw : Bool) (xpos ypos last : Nat) :
    ∀ t ∈ (if q = true then draw_lock_icons p x inp hue_redraw xpos ypos last
      else (last, xpos, [])).2.2, t.2.edges_ordered := by
  intro t ht
  cases q
  · simp at ht
  · simp only [if_true, draw_lock_icons] at ht
    by_cases hc : (hue_redraw || decide (last ≠ inp.led_state)) = true
    · rw [if_pos hc] at ht
      simp only [List.mem_cons, List.mem_singleton, List.not_mem_nil, or_false] at ht
      rcases ht with rfl | rfl | rfl <;> exact True.intro
    · rw [if_neg hc] at ht
      simp at ht

theorem keymap_config_edges (p : painter_t) (x : display_ext_t) (inp : frame_inputs_t)
    (hue_redraw : Bool) (xpos ypos last m : Nat) :
    ∀ t ∈ (draw_keymap_config p x inp hue_redraw xpos ypos last m).2.draws,
      t.2.edges_ordered := by
  intro t ht
  unfold draw_keymap_config at ht
  by_cases hc : (hue_redraw || decide (last ≠ inp.keymap_config)) = true
  · rw [if_pos hc] at ht
    simp only [List.mem_cons, List.mem_singleton, List.not_mem_nil, or_false, toggle_label] at ht
    rcases ht with rfl | rfl | rfl | rfl | rfl
    · exact True.intro
    · exact True.intro
    · exact True.intro
    · exact True.intro
    · exact erase_rect_edges p _ _ _
  · rw [if_neg hc] at ht
    simp at ht

theorem user_state_edges (p : painter_t) (x : display_ext_t) (inp : frame_inputs_t)
    (hue_redraw : Bool) (xpos ypos last m : Nat) :
    ∀ t ∈ (draw_user_state p x inp hue_redraw xpos ypos last m).2.draws,
      t.2.edges_ordered := by
  intro t ht
  unfold draw_user_state at ht
  by_cases hc : (hue_redraw || decide (last ≠ inp.user_state)) = true
  · rw [if_pos hc] at ht
    simp only [List.mem_cons, List.mem_singleton, List.not_mem_nil, or_false, toggle_label] at ht
    rcases ht with rfl | rfl | rfl | rfl | rfl
    · exact True.intro
    · exact True.intro
    · exact True.intro
    · exact True.intro
    · exact erase_rect_edges p _ _ _
  · rw [if_neg hc] at ht
    simp at ht

theorem autocorrect_block_edges (p : painter_t) (inp : frame_inputs_t) (q hue_redraw : Bool)
    (xpos ypos m : Nat) :
    ∀ t ∈ (if q = true then draw_autocorrect p inp hue_redraw xpos ypos m
      else (({ xpos := xpos, max_xpos := m, draws := [] } : block_t), ypos,
        inp.autocorrect_str_has_changed)).1.draws, t.2.edges_ordered := by
  intro t ht
  cases q
  · simp at ht
  · simp only [if_true, draw_autocorrect] at ht
    by_cases hc : (hue_redraw || inp.autocorrect_str_has_changed) = true
    · rw [if_pos hc] at ht
      simp only [List.mem_append] at ht
      rcases ht with ht | ht
      · exact text_field_edges p _ _ _ _ _ _ _ _ _ _ _ t ht
      · exact text_field_edges p _ _ _ _ _ _ _ _ _ _ _ t ht
    · rw [if_neg hc] at ht
      simp at ht

theorem font_preview_edges (x : display_ext_t) (inp : frame_inputs_t) (hue_redraw : Bool)
    (xpos ypos : Nat) (m : List Nat) :
    ∀ t ∈ (draw_font_preview x inp hue_redraw xpos ypos m).2.2.2, t.2.edges_ordered := by
  intro t ht
  unfold draw_font_preview at ht
  cases hue_redraw
  · simp at ht
  · simp only [if_true, List.mem_cons, List.mem_singleton, List.not_mem_nil, or_false] at ht
    rcases ht with rfl | rfl | rfl <;> exact True.intro

theorem keylogger_block_edges (p : painter_t) (inp : frame_inputs_t) (q : Bool)
    (xpos ypos m : Nat) :
    ∀ t ∈ (if q = true then draw_keylogger p inp xpos ypos m
      else (({ xpos := xpos, max_xpos := m, draws := [] } : block_t),
        inp.keylogger_has_changed)).1.draws, t.2.edges_ordered := by
  intro t ht
  cases q
  · simp at ht
  · simp only [if_true, draw_keylogger] at ht
    by_cases hc : inp.keylogger_has_changed = true
    · rw [if_pos hc] at ht
      simp only [List.mem_singleton] at ht
      subst ht
      exact True.intro
    · rw [if_neg hc] at ht
      simp at ht

theorem frame_edges (p : painter_t) (x : display_ext_t) (feat : features_t)
    (inp : frame_inputs_t) (s : display_statics_t) :
    ∀ t ∈ (ili9341_draw_user p x feat inp s).draws, t.2.edges_ordered := by
  unfold ili9341_draw_user
  by_cases hleft : inp.is_keyboard_left = true
  · simp only [hleft, if_true, List.forall_mem_append]
    refine ⟨⟨⟨⟨⟨⟨⟨⟨⟨⟨⟨⟨⟨⟨⟨⟨?_, ?_⟩, ?_⟩, ?_⟩, ?_⟩, ?_⟩, ?_⟩, ?_⟩, ?_⟩, ?_⟩, ?_⟩, ?_⟩, ?_⟩, ?_⟩,
      ?_⟩, ?_⟩, ?_⟩
    · exact lock_block_edges p x inp _ _ _ _ _
    · exact hue_text_edges p inp _ _ _ _ _ _ _
    · exact hue_text_edges p inp _ _ _ _ _ _ _
    · exact hue_text_edges p inp _ _ _ _ _ _ _
    · exact indicator_edges p _ _ _ _ _ _ _ _ _
    · exact indicator_edges p _ _ _ _ _ _ _ _ _
    · exact indicator_edges p _ _ _ _ _ _ _ _ _
    · exact keymap_config_edges p x inp _ _ _ _ _
    · exact user_state_edges p x inp _ _ _ _ _
    · exact hue_text_edges p inp _ _ _ _ _ _ _
    · exact hue_text_edges p inp _ _ _ _ _ _ _
    · exact hue_text_edges p inp _ _ _ _ _ _ _
    · exact hue_text_edges p inp _ _ _ _ _ _ _
    · exact autocorrect_block_edges p inp _ _ _ _ _
    · exact font_preview_edges x inp _ _ _ _
    · exact keylogger_block_edges p inp _ _ _ _
    · intro t ht
      simp only [List.mem_singleton] at ht
      subst ht
      exact True.intro
  · intro t ht
    have hl : inp.is_keyboard_left = false := by simpa using hleft
    simp only [hl, Bool.false_eq_true, if_false, List.mem_singleton] at ht
    subst ht
    exact True.intro
theorem right_frame_not_redrawn (p : painter_t) (x : display_ext_t) (feat : features_t)
    (inp : frame_inputs_t) (s : display_statics_t) (hright : ¬ inp.is_keyboard_left = true)
    (f : field_t) : ¬ (ili9341_draw_user p x feat inp s).redrawn f := by
  have hl : inp.is_keyboard_left = false := by simpa using hright
  unfold frame_result_t.redrawn ili9341_draw_user
  simp [hl, calls_of]

theorem left_frame_max_autocorrect (p : painter_t) (x : display_ext_t) (feat : features_t)
    (inp : frame_inputs_t) (s : display_statics_t) (hleft : inp.is_keyboard_left = true)
    (hfeat : feat.AUTOCORRECT_ENABLE = true)
    (hc : s.last_hue ≠ inp.curr_hue ∨ inp.autocorrect_str_has_changed = true) :
    (ili9341_draw_user p x feat inp s).statics.max_xpos .autocorrect =
      uint16_add 5 (p.drawtext .font_oled
        (snprintf 50 ("Original Text: " ++ inp.autocorrected_str_raw.2))) := by
  have hb : (decide (s.last_hue ≠ inp.curr_hue) || inp.autocorrect_str_has_changed) = true := by
    simpa using hc
  unfold ili9341_draw_user display_statics_t.max_xpos
  simp only [hleft, hfeat, if_true]
  unfold draw_autocorrect
  simp only [hb, if_true, draw_text_field, track_extent_eq_max]
  exact Nat.zero_max _

set_option maxRecDepth 4096 in
theorem sample_typo_long_extent :
    uint16_add 5 (sample_painter.drawtext .font_oled
      (snprintf 50 ("Original Text: " ++ sample_inputs_typo_long.autocorrected_str_raw.2))) = 155 := by
  decide

set_option maxRecDepth 4096 in
theorem sample_typo_short_extent :
    uint16_add 5 (sample_painter.drawtext .font_oled
      (snprintf 50 ("Original Text: " ++ sample_inputs_typo_short.autocorrected_str_raw.2))) = 113 := by
  decide

/-! ## Status display: text and erase rectangle of every single-text field -/

theorem erase_rect_track (p : painter_t) (e y m : Nat) :
    erase_rect p e y (track_extent m e) =
      .qp_rect e y (if e < m then m else e) (y + p.line_height .font_oled) 0 0 0 true := by
  unfold erase_rect track_extent
  by_cases h1 : m < e
  · rw [if_pos h1, if_neg (by omega)]
  · by_cases h2 : e < m
    · rw [if_neg h1, if_pos h2]
    · have : m = e := by omega
      subst this
      rw [if_neg h1, if_neg h2]

theorem block_calls_form {calls : List draw_call_t} {c : Bool} {a : draw_call_t}
    {p : painter_t} {e y m : Nat}
    (hk : calls = if c = true then [a, erase_rect p e y (track_extent m e)] else [])
    (hne : calls ≠ []) :
    calls =
      [a, .qp_rect e y (if e < m then m else e) (y + p.line_height .font_oled) 0 0 0 true] := by
  cases c
  · rw [hk] at hne
    exact absurd rfl hne
  · rw [hk, if_pos rfl, erase_rect_track]

theorem left_frame_calls_wpm (p : painter_t) (x : display_ext_t) (feat : features_t)
    (inp : frame_inputs_t) (s : display_statics_t) (hleft : inp.is_keyboard_left = true) :
    ∃ (c : Bool) (start ypos hue_fg hue_bg : Nat) (text : String),
      field_text x inp .wpm = some text ∧
      calls_of .wpm (ili9341_draw_user p x feat inp s).draws =
        if c = true then
          [ .qp_drawtext_recolor start ypos .font_oled text hue_fg 255 255 hue_bg 255 0,
            erase_rect p (uint16_add start (p.drawtext .font_oled text)) ypos
              (track_extent (s.max_xpos .wpm)
                (uint16_add start (p.drawtext .font_oled text))) ]
        else [] := by
  have hflush : calls_of .wpm [((none : Option field_t), draw_call_t.qp_flush)] = [] := by
    simp [calls_of]
  have hlock := fun q h xp yp l =>
    calls_of_eq_nil (calls_of_lock_block p x inp q h xp yp l .wpm) (by simp)
  have hkey := fun h xp yp l m =>
    calls_of_eq_nil (calls_of_keymap_config p x inp h xp yp l m .wpm) (by simp)
  have husr := fun h xp yp l m =>
    calls_of_eq_nil (calls_of_user_state p x inp h xp yp l m .wpm) (by simp)
  have hac := fun q h xp yp m =>
    calls_of_eq_nil (calls_of_autocorrect_block p inp q h xp yp m .wpm) (by simp)
  have hfont := fun h xp yp m =>
    calls_of_eq_nil (calls_of_font_preview x inp h xp yp m .wpm) (by simp)
  have hklog := fun q xp yp m =>
    calls_of_eq_nil (calls_of_keylogger_block p inp q xp yp m .wpm) (by simp)
  unfold ili9341_draw_user
  simp only [hleft, if_true]
  simp only [calls_of_append, calls_of_hue_text, calls_of_indicator, hlock, hkey, husr, hac,
    hfont, hklog, hflush, reduceCtorEq, and_false, and_true, if_false, List.nil_append,
    List.append_nil]
  exact ⟨_, _, _, _, _, _, rfl, rfl⟩

theorem left_frame_calls_scans (p : painter_t) (x : display_ext_t) (feat : features_t)
    (inp : frame_inputs_t) (s : display_statics_t) (hleft : inp.is_keyboard_left = true) :
    ∃ (c : Bool) (start ypos hue_fg hue_bg : Nat) (text : String),
      field_text x inp .scans = some text ∧
      calls_of .scans (ili9341_draw_user p x feat inp s).draws =
        if c = true then
          [ .qp_drawtext_recolor start ypos .font_oled text hue_fg 255 255 hue_bg 255 0,
            erase_rect p (uint16_add start (p.drawtext .font_oled text)) ypos
              (track_extent (s.max_xpos .scans)
                (uint16_add start (p.drawtext .font_oled text))) ]
        else [] := by
  have hflush : calls_of .scans [((none : Option field_t), draw_call_t.qp_flush)] = [] := by
    simp [calls_of]
  have hlock := fun q h xp yp l =>
    calls_of_eq_nil (calls_of_lock_block p x inp q h xp yp l .scans) (by simp)
  have hkey := fun h xp yp l m =>
    calls_of_eq_nil (calls_of_keymap_config p x inp h xp yp l m .scans) (by simp)
  have husr := fun h xp yp l m =>
    calls_of_eq_nil (calls_of_user_state p x inp h xp yp l m .scans) (by simp)
  have hac := fun q h xp yp m =>
    calls_of_eq_nil (calls_of_autocorrect_block p inp q h xp yp m .scans) (by simp)
  have hfont := fun h xp yp m =>
    calls_of_eq_nil (calls_of_font_preview x inp h xp yp m .scans) (by simp)
  have hklog := fun q xp yp m =>
    calls_of_eq_nil (calls_of_keylogger_block p inp q xp yp m .scans) (by simp)
  unfold ili9341_draw_user
  simp only [hleft, if_true]
  simp only [calls_of_append, calls_of_hue_text, calls_of_indicator, hlock, hkey, husr, hac,
    hfont, hklog, hflush, reduceCtorEq, and_false, and_true, if_false, List.nil_append,
    List.append_nil]
  exact ⟨_, _, _, _, _, _, rfl, rfl⟩

theorem left_frame_calls_cpi (p : painter_t) (x : display_ext_t) (feat : features_t)
    (inp : frame_inputs_t) (s : display_statics_t) (hleft : inp.is_keyboard_left = true) :
    ∃ (c : Bool) (start ypos hue_fg hue_bg : Nat) (text : String),
      field_text x inp .cpi = some text ∧
      calls_of .cpi (ili9341_draw_user p x feat inp s).draws =
        if c = true then
          [ .qp_drawtext_recolor start ypos .font_oled text hue_fg 255 255 hue_bg 255 0,
            erase_rect p (uint16_add start (p.drawtext .font_oled text)) ypos
              (track_extent (s.max_xpos .cpi)
                (uint16_add start (p.drawtext .font_oled text))) ]
        else [] := by
  have hflush : calls_of .cpi [((none : Option field_t), draw_call_t.qp_flush)] = [] := by
    simp [calls_of]
  have hlock := fun q h xp yp l =>
    calls_of_eq_nil (calls_of_lock_block p x inp q h xp yp l .cpi) (by simp)
  have hkey := fun h xp yp l m =>
    calls_of_eq_nil (calls_of_keymap_config p x inp h xp yp l m .cpi) (by simp)
  have husr := fun h xp yp l m =>
    calls_of_eq_nil (calls_of_user_state p x inp h xp yp l m .cpi) (by simp)
  have hac := fun q h xp yp m =>
    calls_of_eq_nil (calls_of_autocorrect_block p inp q h xp yp m .cpi) (by simp)
  have hfont := fun h xp yp m =>
    calls_of_eq_nil (calls_of_font_preview x inp h xp yp m .cpi) (by simp)
  have hklog := fun q xp yp m =>
    calls_of_eq_nil (calls_of_keylogger_block p inp q xp yp m .cpi) (by simp)
  unfold ili9341_draw_user
  simp only [hleft, if_true]
  simp only [calls_of_append, calls_of_hue_text, calls_of_indicator, hlock, hkey, husr, hac,
    hfont, hklog, hflush, reduceCtorEq, and_false, and_true, if_false, List.nil_append,
    List.append_nil]
  exact ⟨_, _, _, _, _, _, rfl, rfl⟩

theorem left_frame_calls_drag_scroll (p : painter_t) (x : display_ext_t) (feat : features_t)
    (inp : frame_inputs_t) (s : display_statics_t) (hleft : inp.is_keyboard_left = true) :
    ∃ (c : Bool) (start ypos hue_fg hue_bg : Nat) (text : String),
      field_text x inp .drag_scroll = some text ∧
      calls_of .drag_scroll (ili9341_draw_user p x feat inp s).draws =
        if c = true then
          [ .qp_drawtext_recolor start ypos .font_oled text hue_fg 255 255 hue_bg 255 0,
            erase_rect p (uint16_add start (p.drawtext .font_oled text)) ypos
              (track_extent (s.max_xpos .drag_scroll)
                (uint16_add start (p.drawtext .font_oled text))) ]
        else [] := by
  have hflush : calls_of .drag_scroll [((none : Option field_t), draw_call_t.qp_flush)] = [] := by
    simp [calls_of]
  have hlock := fun q h xp yp l =>
    calls_of_eq_nil (calls_of_lock_block p x inp q h xp yp l .drag_scroll) (by simp)
  have hkey := fun h xp yp l m =>
    calls_of_eq_nil (calls_of_keymap_config p x inp h xp yp l m .drag_scroll) (by simp)
  have husr := fun h xp yp l m =>
    calls_of_eq_nil (calls_of_user_state p x inp h xp yp l m .drag_scroll) (by simp)
  have hac := fun q h xp yp m =>
    calls_of_eq_nil (calls_of_autocorrect_block p inp q h xp yp m .drag_scroll) (by simp)
  have hfont := fun h xp yp m =>
    calls_of_eq_nil (calls_of_font_preview x inp h xp yp m .drag_scroll) (by simp)
  have hklog := fun q xp yp m =>
    calls_of_eq_nil (calls_of_keylogger_block p inp q xp yp m .drag_scroll) (by simp)
  unfold ili9341_draw_user
  simp only [hleft, if_true]
  simp only [calls_of_append, calls_of_hue_text, calls_of_indicator, hlock, hkey, husr, hac,
    hfont, hklog, hflush, reduceCtorEq, and_false, and_true, if_false, List.nil_append,
    List.append_nil]
  exact ⟨_, _, _, _, _, _, rfl, rfl⟩

theorem left_frame_calls_auto_layer (p : painter_t) (x : display_ext_t) (feat : features_t)
    (inp : frame_inputs_t) (s : display_statics_t) (hleft : inp.is_keyboard_left = true) :
    ∃ (c : Bool) (start ypos hue_fg hue_bg : Nat) (text : String),
      field_text x inp .auto_layer = some text ∧
      calls_of .auto_layer (ili9341_draw_user p x feat inp s).draws =
        if c = true then
          [ .qp_drawtext_recolor start ypos .font_oled text hue_fg 255 255 hue_bg 255 0,
            erase_rect p (uint16_add start (p.drawtext .font_oled text)) ypos
              (track_extent (s.max_xpos .auto_layer)
                (uint16_add start (p.drawtext .font_oled text))) ]
        else [] := by
  have hflush : calls_of .auto_layer [((none : Option field_t), draw_call_t.qp_flush)] = [] := by
    simp [calls_of]
  have hlock := fun q h xp yp l =>
    calls_of_eq_nil (calls_of_lock_block p x inp q h xp yp l .auto_layer) (by simp)
  have hkey := fun h xp yp l m =>
    calls_of_eq_nil (calls_of_keymap_config p x inp h xp yp l m .auto_layer) (by simp)
  have husr := fun h xp yp l m =>
    calls_of_eq_nil (calls_of_user_state p x inp h xp yp l m .auto_layer) (by simp)
  have hac := fun q h xp yp m =>
    calls_of_eq_nil (calls_of_autocorrect_block p inp q h xp yp m .auto_layer) (by simp)
  have hfont := fun h xp yp m =>
    calls_of_eq_nil (calls_of_font_preview x inp h xp yp m .auto_layer) (by simp)
  have hklog := fun q xp yp m =>
    calls_of_eq_nil (calls_of_keylogger_block p inp q xp yp m .auto_layer) (by simp)
  unfold ili9341_draw_user
  simp only [hleft, if_true]
  simp only [calls_of_append, calls_of_hue_text, calls_of_indicator, hlock, hkey, husr, hac,
    hfont, hklog, hflush, reduceCtorEq, and_false, and_true, if_false, List.nil_append,
    List.append_nil]
  exact ⟨_, _, _, _, _, _, rfl, rfl⟩

theorem left_frame_calls_sniping (p : painter_t) (x : display_ext_t) (feat : features_t)
    (inp : frame_inputs_t) (s : display_statics_t) (hleft : inp.is_keyboard_left = true) :
    ∃ (c : Bool) (start ypos hue_fg hue_bg : Nat) (text : String),
      field_text x inp .sniping = some text ∧
      calls_of .sniping (ili9341_draw_user p x feat inp s).draws =
        if c = true then
          [ .qp_drawtext_recolor start ypos .font_oled text hue_fg 255 255 hue_bg 255 0,
            erase_rect p (uint16_add start (p.drawtext .font_oled text)) ypos
              (track_extent (s.max_xpos .sniping)
                (uint16_add start (p.drawtext .font_oled text))) ]
        else [] := by
  have hflush : calls_of .sniping [((none : Option field_t), draw_call_t.qp_flush)] = [] := by
    simp [calls_of]
  have hlock := fun q h xp yp l =>
    calls_of_eq_nil (calls_of_lock_block p x inp q h xp yp l .sniping) (by simp)
  have hkey := fun h xp yp l m =>
    calls_of_eq_nil (calls_of_keymap_config p x inp h xp yp l m .sniping) (by simp)
  have husr := fun h xp yp l m =>
    calls_of_eq_nil (calls_of_user_state p x inp h xp yp l m .sniping) (by simp)
  have hac := fun q h xp yp m =>
    calls_of_eq_nil (calls_of_autocorrect_block p inp q h xp yp m .sniping) (by simp)
  have hfont := fun h xp yp m =>
    calls_of_eq_nil (calls_of_font_preview x inp h xp yp m .sniping) (by simp)
  have hklog := fun q xp yp m =>
    calls_of_eq_nil (calls_of_keylogger_block p inp q xp yp m .sniping) (by simp)
  unfold ili9341_draw_user
  simp only [hleft, if_true]
  simp only [calls_of_append, calls_of_hue_text, calls_of_indicator, hlock, hkey, husr, hac,
    hfont, hklog, hflush, reduceCtorEq, and_false, and_true, if_false, List.nil_append,
    List.append_nil]
  exact ⟨_, _, _, _, _, _, rfl, rfl⟩

theorem left_frame_calls_rgb_light (p : painter_t) (x : display_ext_t) (feat : features_t)
    (inp : frame_inputs_t) (s : display_statics_t) (hleft : inp.is_keyboard_left = true) :
    ∃ (c : Bool) (start ypos hue_fg hue_bg : Nat) (text : String),
      field_text x inp .rgb_light = some text ∧
      calls_of .rgb_light (ili9341_draw_user p x feat inp s).draws =
        if c = true then
          [ .qp_drawtext_recolor start ypos .font_oled text hue_fg 255 255 hue_bg 255 0,
            erase_rect p (uint16_add start (p.drawtext .font_oled text)) ypos
              (track_extent (s.max_xpos .rgb_light)
                (uint16_add start (p.drawtext .font_oled text))) ]
        else [] := by
  have hflush : calls_of .rgb_light [((none : Option field_t), draw_call_t.qp_flush)] = [] := by
    simp [calls_of]
  have hlock := fun q h xp yp l =>
    calls_of_eq_nil (calls_of_lock_block p x inp q h xp yp l .rgb_light) (by simp)
  have hkey := fun h xp yp l m =>
    calls_of_eq_nil (calls_of_keymap_config p x inp h xp yp l m .rgb_light) (by simp)
  have husr := fun h xp yp l m =>
    calls_of_eq_nil (calls_of_user_state p x inp h xp yp l m .rgb_light) (by simp)
  have hac := fun q h xp yp m =>
    calls_of_eq_nil (calls_of_autocorrect_block p inp q h xp yp m .rgb_light) (by simp)
  have hfont := fun h xp yp m =>
    calls_of_eq_nil (calls_of_font_preview x inp h xp yp m .rgb_light) (by simp)
  have hklog := fun q xp yp m =>
    calls_of_eq_nil (calls_of_keylogger_block p inp q xp yp m .rgb_light) (by simp)
  unfold ili9341_draw_user
  simp only [hleft, if_true]
  simp only [calls_of_append, calls_of_hue_text, calls_of_indicator, hlock, hkey, husr, hac,
    hfont, hklog, hflush, reduceCtorEq, and_false, and_true, if_false, List.nil_append,
    List.append_nil]
  exact ⟨_, _, _, _, _, _, rfl, rfl⟩

theorem left_frame_calls_rgb_matrix (p : painter_t) (x : display_ext_t) (feat : features_t)
    (inp : frame_inputs_t) (s : display_statics_t) (hleft : inp.is_keyboard_left = true) :
    ∃ (c : Bool) (start ypos hue_fg hue_bg : Nat) (text : String),
      field_text x inp .rgb_matrix = some text ∧
      calls_of .rgb_matrix (ili9341_draw_user p x feat inp s).draws =
        if c = true then
          [ .qp_drawtext_recolor start ypos .font_oled text hue_fg 255 255 hue_bg 255 0,
            erase_rect p (uint16_add start (p.drawtext .font_oled text)) ypos
              (track_extent (s.max_xpos .rgb_matrix)
                (uint16_add start (p.drawtext .font_oled text))) ]
        else [] := by
  have hflush : calls_of .rgb_matrix [((none : Option field_t), draw_call_t.qp_flush)] = [] := by
    simp [calls_of]
  have hlock := fun q h xp yp l =>
    calls_of_eq_nil (calls_of_lock_block p x inp q h xp yp l .rgb_matrix) (by simp)
  have hkey := fun h xp yp l m =>
    calls_of_eq_nil (calls_of_keymap_config p x inp h xp yp l m .rgb_matrix) (by simp)
  have husr := fun h xp yp l m =>
    calls_of_eq_nil (calls_of_user_state p x inp h xp yp l m .rgb_matrix) (by simp)
  have hac := fun q h xp yp m =>
    calls_of_eq_nil (calls_of_autocorrect_block p inp q h xp yp m .rgb_matrix) (by simp)
  have hfont := fun h xp yp m =>
    calls_of_eq_nil (calls_of_font_preview x inp h xp yp m .rgb_matrix) (by simp)
  have hklog := fun q xp yp m =>
    calls_of_eq_nil (calls_of_keylogger_block p inp q xp yp m .rgb_matrix) (by simp)
  unfold ili9341_draw_user
  simp only [hleft, if_true]
  simp only [calls_of_append, calls_of_hue_text, calls_of_indicator, hlock, hkey, husr, hac,
    hfont, hklog, hflush, reduceCtorEq, and_false, and_true, if_false, List.nil_append,
    List.append_nil]
  exact ⟨_, _, _, _, _, _, rfl, rfl⟩

theorem left_frame_calls_layout (p : painter_t) (x : display_ext_t) (feat : features_t)
    (inp : frame_inputs_t) (s : display_statics_t) (hleft : inp.is_keyboard_left = true) :
    ∃ (c : Bool) (start ypos hue_fg hue_bg : Nat) (text : String),
      field_text x inp .layout = some text ∧
      calls_of .layout (ili9341_draw_user p x feat inp s).draws =
        if c = true then
          [ .qp_drawtext_recolor start ypos .font_oled text hue_fg 255 255 hue_bg 255 0,
            erase_rect p (uint16_add start (p.drawtext .font_oled text)) ypos
              (track_extent (s.max_xpos .layout)
                (uint16_add start (p.drawtext .font_oled text))) ]
        else [] := by
  have hflush : calls_of .layout [((none : Option field_t), draw_call_t.qp_flush)] = [] := by
    simp [calls_of]
  have hlock := fun q h xp yp l =>
    calls_of_eq_nil (calls_of_lock_block p x inp q h xp yp l .layout) (by simp)
  have hkey := fun h xp yp l m =>
    calls_of_eq_nil (calls_of_keymap_config p x inp h xp yp l m .layout) (by simp)
  have husr := fun h xp yp l m =>
    calls_of_eq_nil (calls_of_user_state p x inp h xp yp l m .layout) (by simp)
  have hac := fun q h xp yp m =>
    calls_of_eq_nil (calls_of_autocorrect_block p inp q h xp yp m .layout) (by simp)
  have hfont := fun h xp yp m =>
    calls_of_eq_nil (calls_of_font_preview x inp h xp yp m .layout) (by simp)
  have hklog := fun q xp yp m =>
    calls_of_eq_nil (calls_of_keylogger_block p inp q xp yp m .layout) (by simp)
  unfold ili9341_draw_user
  simp only [hleft, if_true]
  simp only [calls_of_append, calls_of_hue_text, calls_of_indicator, hlock, hkey, husr, hac,
    hfont, hklog, hflush, reduceCtorEq, and_false, and_true, if_false, List.nil_append,
    List.append_nil]
  exact ⟨_, _, _, _, _, _, rfl, rfl⟩

theorem left_frame_calls_layer (p : painter_t) (x : display_ext_t) (feat : features_t)
    (inp : frame_inputs_t) (s : display_statics_t) (hleft : inp.is_keyboard_left = true) :
    ∃ (c : Bool) (start ypos hue_fg hue_bg : Nat) (text : String),
      field_text x inp .layer = some text ∧
      calls_of .layer (ili9341_draw_user p x feat inp s).draws =
        if c = true then
          [ .qp_drawtext_recolor start ypos .font_oled text hue_fg 255 255 hue_bg 255 0,
            erase_rect p (uint16_add start (p.drawtext .font_oled text)) ypos
              (track_extent (s.max_xpos .layer)
                (uint16_add start (p.drawtext .font_oled text))) ]
        else [] := by
  have hflush : calls_of .layer [((none : Option field_t), draw_call_t.qp_flush)] = [] := by
    simp [calls_of]
  have hlock := fun q h xp yp l =>
    calls_of_eq_nil (calls_of_lock_block p x inp q h xp yp l .layer) (by simp)
  have hkey := fun h xp yp l m =>
    calls_of_eq_nil (calls_of_keymap_config p x inp h xp yp l m .layer) (by simp)
  have husr := fun h xp yp l m =>
    calls_of_eq_nil (calls_of_user_state p x inp h xp yp l m .layer) (by simp)
  have hac := fun q h xp yp m =>
    calls_of_eq_nil (calls_of_autocorrect_block p inp q h xp yp m .layer) (by simp)
  have hfont := fun h xp yp m =>
    calls_of_eq_nil (calls_of_font_preview x inp h xp yp m .layer) (by simp)
  have hklog := fun q xp yp m =>
    calls_of_eq_nil (calls_of_keylogger_block p inp q xp yp m .layer) (by simp)
  unfold ili9341_draw_user
  simp only [hleft, if_true]
  simp only [calls_of_append, calls_of_hue_text, calls_of_indicator, hlock, hkey, husr, hac,
    hfont, hklog, hflush, reduceCtorEq, and_false, and_true, if_false, List.nil_append,
    List.append_nil]
  exact ⟨_, _, _, _, _, _, rfl, rfl⟩

theorem erase_rect_of_redrawn (p : painter_t) (x : display_ext_t) (feat : features_t)
    (inp : frame_inputs_t) (s : display_statics_t) (hleft : inp.is_keyboard_left = true)
    (f : field_t) (hf : f ∈ single_text_fields)
    (hred : (ili9341_draw_user p x feat inp s).redrawn f) :
    ∃ (start ypos hue_fg hue_bg : Nat) (text : String),
      field_text x inp f = some text ∧
      calls_of f (ili9341_draw_user p x feat inp s).draws =
        [ .qp_drawtext_recolor start ypos .font_oled text hue_fg 255 255 hue_bg 255 0,
          .qp_rect (uint16_add start (p.drawtext .font_oled text)) ypos
            (if uint16_add start (p.drawtext .font_oled text) < s.max_xpos f then s.max_xpos f
              else uint16_add start (p.drawtext .font_oled text))
            (ypos + p.line_height .font_oled) 0 0 0 true ] := by
  simp only [single_text_fields, List.mem_cons, List.mem_singleton, List.not_mem_nil,
    or_false] at hf
  rcases hf with rfl | rfl | rfl | rfl | rfl | rfl | rfl | rfl | rfl | rfl
  · obtain ⟨c, a, y, hfg, hbg, text, ht, hk⟩ := left_frame_calls_wpm p x feat inp s hleft
    exact ⟨a, y, hfg, hbg, text, ht, block_calls_form hk hred⟩
  · obtain ⟨c, a, y, hfg, hbg, text, ht, hk⟩ := left_frame_calls_scans p x feat inp s hleft
    exact ⟨a, y, hfg, hbg, text, ht, block_calls_form hk hred⟩
  · obtain ⟨c, a, y, hfg, hbg, text, ht, hk⟩ := left_frame_calls_cpi p x feat inp s hleft
    exact ⟨a, y, hfg, hbg, text, ht, block_calls_form hk hred⟩
  · obtain ⟨c, a, y, hfg, hbg, text, ht, hk⟩ := left_frame_calls_drag_scroll p x feat inp s hleft
    exact ⟨a, y, hfg, hbg, text, ht, block_calls_form hk hred⟩
  · obtain ⟨c, a, y, hfg, hbg, text, ht, hk⟩ := left_frame_calls_auto_layer p x feat inp s hleft
    exact ⟨a, y, hfg, hbg, text, ht, block_calls_form hk hred⟩
  · obtain ⟨c, a, y, hfg, hbg, text, ht, hk⟩ := left_frame_calls_sniping p x feat inp s hleft
    exact ⟨a, y, hfg, hbg, text, ht, block_calls_form hk hred⟩
  · obtain ⟨c, a, y, hfg, hbg, text, ht, hk⟩ := left_frame_calls_rgb_light p x feat inp s hleft
    exact ⟨a, y, hfg, hbg, text, ht, block_calls_form hk hred⟩
  · obtain ⟨c, a, y, hfg, hbg, text, ht, hk⟩ := left_frame_calls_rgb_matrix p x feat inp s hleft
    exact ⟨a, y, hfg, hbg, text, ht, block_calls_form hk hred⟩
  · obtain ⟨c, a, y, hfg, hbg, text, ht, hk⟩ := left_frame_calls_layout p x feat inp s hleft
    exact ⟨a, y, hfg, hbg, text, ht, block_calls_form hk hred⟩
  · obtain ⟨c, a, y, hfg, hbg, text, ht, hk⟩ := left_frame_calls_layer p x feat inp s hleft
    exact ⟨a, y, hfg, hbg, text, ht, block_calls_form hk hred⟩

/-- C20 (amended): when a frame redraws one of the fields WPM, scan rate, CPI,
drag-scroll, auto-layer, sniping, RGB effect, layout or layer, the calls of
its block are the text and then one black filled rectangle, on the row of the
text. The left edge of the rectangle is the right extent of the text just
drawn: the `xpos` the text is drawn at plus the width the draw call returns.
When that extent is smaller than the recorded extent of the field, the right
edge is the recorded extent; when it is equal or larger, the rectangle is
still emitted, with its right edge at the new extent as well. -/
theorem text_field_erase_rect (p : painter_t) (x : display_ext_t) (feat : features_t)
    (inp : frame_inputs_t) (s : display_statics_t) (f : field_t)
    (hf : f ∈ single_text_fields) (hred : (ili9341_draw_user p x feat inp s).redrawn f) :
    ∃ (start ypos hue_fg hue_bg : Nat) (text : String),
      field_text x inp f = some text ∧
      calls_of f (ili9341_draw_user p x feat inp s).draws =
        [ .qp_drawtext_recolor start ypos .font_oled text hue_fg 255 255 hue_bg 255 0,
          .qp_rect (uint16_add start (p.drawtext .font_oled text)) ypos
            (if uint16_add start (p.drawtext .font_oled text) < s.max_xpos f then s.max_xpos f
              else uint16_add start (p.drawtext .font_oled text))
            (ypos + p.line_height .font_oled) 0 0 0 true ] := by
  by_cases hleft : inp.is_keyboard_left = true
  · exact erase_rect_of_redrawn p x feat inp s hleft f hf hred
  · exact absurd hred (right_frame_not_redrawn p x feat inp s hleft f)

theorem sample_scan_redrawn :
    (ili9341_draw_user sample_painter sample_display_ext sample_features sample_inputs_scan
      sample_statics).redrawn .scans :=
  (left_frame_redrawn _ _ _ _ _ rfl .scans).2
    (Or.inr (Or.inr (Or.inl ⟨rfl, Or.inr (by decide)⟩)))

theorem text_field_erase_rect_witness :
    field_t.scans ∈ single_text_fields ∧
      (ili9341_draw_user sample_painter sample_display_ext sample_features sample_inputs_scan
        sample_statics).redrawn .scans ∧
      ∃ (start ypos hue_fg hue_bg : Nat) (text : String),
        field_text sample_display_ext sample_inputs_scan .scans = some text ∧
        calls_of .scans (ili9341_draw_user sample_painter sample_display_ext sample_features
          sample_inputs_scan sample_statics).draws =
          [ .qp_drawtext_recolor start ypos .font_oled text hue_fg 255 255 hue_bg 255 0,
            .qp_rect (uint16_add start (sample_painter.drawtext .font_oled text)) ypos
              (if uint16_add start (sample_painter.drawtext .font_oled text) <
                  sample_statics.max_xpos .scans then sample_statics.max_xpos .scans
                else uint16_add start (sample_painter.drawtext .font_oled text))
              (ypos + sample_painter.line_height .font_oled) 0 0 0 true ] :=
  ⟨by decide, sample_scan_redrawn,
    text_field_erase_rect sample_painter sample_display_ext sample_features sample_inputs_scan
      sample_statics .scans (by decide) sample_scan_redrawn⟩

set_option maxRecDepth 100000 in
theorem sample_autocorrect_calls :
    calls_of .autocorrect (second_frame sample_painter sample_display_ext sample_features
      sample_inputs_typo_long sample_inputs_typo_short display_statics_init).draws =
      [ .qp_drawtext_recolor 5 118 .font_oled "Autocorrected: the" 10 255 255 10 255 0,
        .qp_rect 113 118 155 126 0 0 0 true,
        .qp_drawtext_recolor 5 130 .font_oled "Original Text: teh" 10 255 255 10 255 0,
        .qp_rect 113 130 113 138 0 0 0 true ] := by
  decide

/-- C21: the recorded extent of the autocorrect banner is not kept at its
maximum. With the banner compiled in, a frame that shows the correction of a
long word leaves 155 recorded; the next frame redraws the banner for a short
word and leaves 113, because the block sets the recorded extent back to 0
before its second line. In that frame the first line is erased from 113 up
to 155, the extent of the second line of the frame before, and the rectangle
of the second line has both edges at 113 although that line reached 155 in
the frame before. -/
theorem autocorrect_extent_decreases :
    (ili9341_draw_user sample_painter sample_display_ext sample_features
      sample_inputs_typo_long display_statics_init).statics.max_xpos .autocorrect = 155 ∧
    (second_frame sample_painter sample_display_ext sample_features sample_inputs_typo_long
      sample_inputs_typo_short display_statics_init).redrawn .autocorrect ∧
    (second_frame sample_painter sample_display_ext sample_features sample_inputs_typo_long
      sample_inputs_typo_short display_statics_init).statics.max_xpos .autocorrect = 113 ∧
    calls_of .autocorrect (second_frame sample_painter sample_display_ext sample_features
      sample_inputs_typo_long sample_inputs_typo_short display_statics_init).draws =
      [ .qp_drawtext_recolor 5 118 .font_oled "Autocorrected: the" 10 255 255 10 255 0,
        .qp_rect 113 118 155 126 0 0 0 true,
        .qp_drawtext_recolor 5 130 .font_oled "Original Text: teh" 10 255 255 10 255 0,
        .qp_rect 113 130 113 138 0 0 0 true ] := by
  refine ⟨?_, ?_, ?_, sample_autocorrect_calls⟩
  · rw [left_frame_max_autocorrect _ _ _ _ _ rfl rfl (Or.inr rfl)]
    exact sample_typo_long_extent
  · unfold second_frame
    rw [left_frame_redrawn _ _ _ _ _ rfl]
    simp [sample_features, sample_inputs_typo_short]
  · unfold second_frame
    rw [left_frame_max_autocorrect _ _ _ _ _ rfl rfl (Or.inr rfl)]
    exact sample_typo_short_extent

theorem uint32_to_int_wraps : uint32_to_int 3000000000 = -1294967296 := by
  decide

end Menu
